import Mathlib

/-!
# charloop: a pair of cross-wired character devices

A shallow embedding of `charloop.c`.

* The file-scope arrays `charloop_buffer[2]`, `charloop_buffer_length[2]`,
  `charloop_mtx[2]`, `charloop_wq[2]` are indexed by `Fin 2`; a pointer into one
  of them is the index it points at.
* A byte is a natural number; the storage of a buffer is the list of the bytes
  of its `kmalloc`ed block.
* `int`, `uint` and `size_t` quantities are natural numbers.  The code clamps
  the request before it subtracts (`length <= *read_buffer_length` before
  `-=`, and `charloop_buffer_size - length` is taken with
  `length <= charloop_buffer_size`), so on states with
  `length <= charloop_buffer_size` no subtraction below is truncated.  The same
  computations on machine integers, with the conversions between `int`,
  `unsigned int` and `size_t`, are `read_arith` and `write_arith`.
* Every step records what it does to the kernel objects (`Act`); the locking
  rules and the order of construction are read off these records.
* A call of `charloop_read`, `charloop_write` or `charloop_poll` is a small
  state machine.  A step runs from one scheduling point (a
  `mutex_lock_interruptible` or the `wait_event_interruptible`) to the next;
  what the kernel answers at that point (lock acquired or cancelled, wait woken
  or cancelled, user copy done or faulted) is read from an `Env` record.
  Between two steps of one call other calls may run.
-/

namespace Charloop

/-! ## Constants of the kernel headers -/

/-- Value of `EAGAIN` in `errno-base.h`. -/
def EAGAIN : Int := 11
/-- Value of `ENOMEM` in `errno-base.h`. -/
def ENOMEM : Int := 12
/-- Value of `EFAULT` in `errno-base.h`. -/
def EFAULT : Int := 14
/-- Value of `ERESTARTSYS` in `linux/errno.h`. -/
def ERESTARTSYS : Int := 512

/-- Value of `POLLIN` in `asm-generic/poll.h`. -/
def POLLIN : Nat := 0x0001
/-- Value of `POLLOUT` in `asm-generic/poll.h`. -/
def POLLOUT : Nat := 0x0004
/-- Value of `POLLRDNORM` in `asm-generic/poll.h`. -/
def POLLRDNORM : Nat := 0x0040
/-- Value of `POLLWRNORM` in `asm-generic/poll.h`. -/
def POLLWRNORM : Nat := 0x0100

/-- Conversion of an `int` to `unsigned int` (the return type of `charloop_poll`). -/
def to_uint (i : Int) : Nat := (i % 4294967296).toNat

/-! ## Data model -/

/-- The `struct charloop_struct` of one endpoint: eight pointers into the
file-scope arrays, each kept as the index of the element it points at. -/
structure charloop_struct where
  read_buffer : Fin 2
  read_buffer_length : Fin 2
  read_mutex : Fin 2
  read_wq : Fin 2
  write_buffer : Fin 2
  write_buffer_length : Fin 2
  write_mutex : Fin 2
  write_wq : Fin 2
deriving DecidableEq, Repr

/-- The file-scope variables of the module. -/
structure Globals where
  charloop_data : Fin 2 → charloop_struct
  charloop_buffer : Fin 2 → List Nat
  charloop_buffer_length : Fin 2 → Nat
  charloop_minor : Fin 2 → Nat

/-- The part of a `struct file` the driver looks at: `private_data` (which
element of `charloop_data` it points at) and the `O_NONBLOCK` bit of `f_flags`. -/
structure File where
  private_data : Fin 2
  nonblock : Bool
deriving DecidableEq, Repr

/-- What the calls do to the kernel objects, in program order. -/
inductive Act
  | mutex_lock (m : Fin 2)
  | mutex_lock_cancelled (m : Fin 2)
  | mutex_unlock (m : Fin 2)
  | access_length (b : Fin 2)
  | access_storage (b : Fin 2)
  | wait_event (q : Fin 2)
  | wake_up (q : Fin 2)
  | poll_wait (q : Fin 2)
  | kmalloc (b : Fin 2)
  | kmalloc_failed (b : Fin 2)
  | kfree (b : Fin 2)
  | mutex_init (m : Fin 2)
  | mutex_destroy (m : Fin 2)
  | init_waitqueue_head (q : Fin 2)
  | misc_register (d : Fin 2)
  | misc_register_failed (d : Fin 2)
  | misc_deregister (d : Fin 2)
  | set_data (d : Fin 2)
deriving DecidableEq, Repr

/-- Answers of the kernel at the scheduling points of one step. -/
structure Env where
  /-- Whether `mutex_lock_interruptible` returned 0. -/
  lock_ok : Bool
  /-- Whether `wait_event_interruptible` returned 0 (woken: the condition was seen
  true at some moment; it need not hold any more when the mutex is retaken). -/
  wait_ok : Bool
  /-- Whether `copy_to_user` / `copy_from_user` returned 0. -/
  copy_ok : Bool
  /-- What a faulting `copy_from_user` left in the destination range. -/
  junk : List Nat
deriving DecidableEq, Repr

/-- Where a call stands. -/
inductive Pc
  /-- About to call `mutex_lock_interruptible` (lines 75/84, 113/122, 152). -/
  | at_lock
  /-- Inside `wait_event_interruptible` (lines 82, 120), no mutex held. -/
  | at_wait
  /-- In `charloop_poll`, about to take the write mutex (line 160) with `ret` so far. -/
  | at_poll_write (ret : Nat)
  /-- Returned `ret`; `out` is what `copy_to_user` delivered. -/
  | done (ret : Int) (out : List Nat)
deriving DecidableEq, Repr

/-- Result of one step of a call. -/
structure Step where
  pc : Pc
  g : Globals
  acts : List Act

/-! ## Memory primitives -/

/-- Effect of `memmove(buf + dst, buf + src, n)` on the block `buf`: the bytes
that stood at `src .. src+n` now stand at `dst .. dst+n`. -/
def memmove (buf : List Nat) (dst src n : Nat) : List Nat :=
  buf.take dst ++ (buf.drop src).take n ++ buf.drop (dst + n)

/-- Effect of copying `n` bytes of `src` to `buf + off`. -/
def copy_in (buf : List Nat) (off : Nat) (src : List Nat) (n : Nat) : List Nat :=
  buf.take off ++ src.take n ++ buf.drop (off + (src.take n).length)

/-- Storing through a pointer into a two-element array. -/
def store {α : Type} (a : Fin 2 → α) (i : Fin 2) (v : α) : Fin 2 → α :=
  fun j => if j = i then v else a j

/-! ## The file operations -/

/-- The `open` operation: selects the endpoint from the minor number. -/
def charloop_open (g : Globals) (iminor : Nat) (nonblock : Bool) : File :=
  if iminor = g.charloop_minor 0 then ⟨0, nonblock⟩ else ⟨1, nonblock⟩

/-- One step of `charloop_read(filp, buffer, length, offset)`. -/
def charloop_read_step (filp : File) (length : Nat) (env : Env) (pc : Pc) (g : Globals) : Step :=
  let charloop := g.charloop_data filp.private_data
  match pc with
  | Pc.at_lock =>
    if env.lock_ok = false then
      ⟨Pc.done (-ERESTARTSYS) [], g, [Act.mutex_lock_cancelled charloop.read_mutex]⟩
    else if g.charloop_buffer_length charloop.read_buffer_length = 0 then
      if filp.nonblock then
        ⟨Pc.done (-EAGAIN) [], g,
          [Act.mutex_lock charloop.read_mutex, Act.access_length charloop.read_buffer_length,
           Act.mutex_unlock charloop.read_mutex]⟩
      else
        ⟨Pc.at_wait, g,
          [Act.mutex_lock charloop.read_mutex, Act.access_length charloop.read_buffer_length,
           Act.mutex_unlock charloop.read_mutex]⟩
    else
      let length :=
        if length > g.charloop_buffer_length charloop.read_buffer_length then
          g.charloop_buffer_length charloop.read_buffer_length
        else length
      if env.copy_ok = false then
        ⟨Pc.done (-EFAULT) [], g,
          [Act.mutex_lock charloop.read_mutex, Act.access_length charloop.read_buffer_length,
           Act.access_storage charloop.read_buffer, Act.mutex_unlock charloop.read_mutex]⟩
      else
        let out := (g.charloop_buffer charloop.read_buffer).take length
        let new_length := g.charloop_buffer_length charloop.read_buffer_length - length
        let g1 : Globals :=
          { g with charloop_buffer_length :=
              store g.charloop_buffer_length charloop.read_buffer_length new_length }
        let g2 : Globals :=
          if new_length > 0 then
            { g1 with charloop_buffer :=
                (store g1.charloop_buffer charloop.read_buffer
                  (memmove (g1.charloop_buffer charloop.read_buffer) 0 length new_length)) }
          else g1
        ⟨Pc.done (length : Int) out, g2,
          [Act.mutex_lock charloop.read_mutex, Act.access_length charloop.read_buffer_length,
           Act.access_storage charloop.read_buffer, Act.access_length charloop.read_buffer_length,
           Act.access_storage charloop.read_buffer, Act.mutex_unlock charloop.read_mutex,
           Act.wake_up charloop.read_wq]⟩
  | Pc.at_wait =>
    if env.wait_ok then ⟨Pc.at_lock, g, [Act.wait_event charloop.read_wq]⟩
    else ⟨Pc.done (-ERESTARTSYS) [], g, [Act.wait_event charloop.read_wq]⟩
  | Pc.at_poll_write ret => ⟨Pc.at_poll_write ret, g, []⟩
  | Pc.done ret out => ⟨Pc.done ret out, g, []⟩

/-- One step of `charloop_write(filp, buffer, length, offset)`; `buffer` is the
caller's region, `length` its size. -/
def charloop_write_step (charloop_buffer_size : Nat) (filp : File) (buffer : List Nat)
    (env : Env) (pc : Pc) (g : Globals) : Step :=
  let charloop := g.charloop_data filp.private_data
  match pc with
  | Pc.at_lock =>
    if env.lock_ok = false then
      ⟨Pc.done (-ERESTARTSYS) [], g, [Act.mutex_lock_cancelled charloop.write_mutex]⟩
    else if g.charloop_buffer_length charloop.write_buffer_length = charloop_buffer_size then
      if filp.nonblock then
        ⟨Pc.done (-EAGAIN) [], g,
          [Act.mutex_lock charloop.write_mutex, Act.access_length charloop.write_buffer_length,
           Act.mutex_unlock charloop.write_mutex]⟩
      else
        ⟨Pc.at_wait, g,
          [Act.mutex_lock charloop.write_mutex, Act.access_length charloop.write_buffer_length,
           Act.mutex_unlock charloop.write_mutex]⟩
    else
      let length := buffer.length
      let length :=
        if length > charloop_buffer_size - g.charloop_buffer_length charloop.write_buffer_length then
          charloop_buffer_size - g.charloop_buffer_length charloop.write_buffer_length
        else length
      if env.copy_ok = false then
        ⟨Pc.done (-EFAULT) [],
          { g with charloop_buffer :=
              (store g.charloop_buffer charloop.write_buffer
                (copy_in (g.charloop_buffer charloop.write_buffer)
                  (g.charloop_buffer_length charloop.write_buffer_length) env.junk length)) },
          [Act.mutex_lock charloop.write_mutex, Act.access_length charloop.write_buffer_length,
           Act.access_storage charloop.write_buffer, Act.mutex_unlock charloop.write_mutex]⟩
      else
        let g1 : Globals :=
          { g with charloop_buffer :=
              (store g.charloop_buffer charloop.write_buffer
                (copy_in (g.charloop_buffer charloop.write_buffer)
                  (g.charloop_buffer_length charloop.write_buffer_length) buffer length)) }
        let g2 : Globals :=
          { g1 with charloop_buffer_length :=
              (store g1.charloop_buffer_length charloop.write_buffer_length
                (g1.charloop_buffer_length charloop.write_buffer_length + length)) }
        ⟨Pc.done (length : Int) [], g2,
          [Act.mutex_lock charloop.write_mutex, Act.access_length charloop.write_buffer_length,
           Act.access_storage charloop.write_buffer, Act.access_length charloop.write_buffer_length,
           Act.mutex_unlock charloop.write_mutex, Act.wake_up charloop.write_wq]⟩
  | Pc.at_wait =>
    if env.wait_ok then ⟨Pc.at_lock, g, [Act.wait_event charloop.write_wq]⟩
    else ⟨Pc.done (-ERESTARTSYS) [], g, [Act.wait_event charloop.write_wq]⟩
  | Pc.at_poll_write ret => ⟨Pc.at_poll_write ret, g, []⟩
  | Pc.done ret out => ⟨Pc.done ret out, g, []⟩

/-- One step of `charloop_poll(filp, table)`. -/
def charloop_poll_step (charloop_buffer_size : Nat) (filp : File)
    (env : Env) (pc : Pc) (g : Globals) : Step :=
  let charloop := g.charloop_data filp.private_data
  match pc with
  | Pc.at_lock =>
    if env.lock_ok = false then
      ⟨Pc.done (to_uint (-ERESTARTSYS)) [], g,
        [Act.poll_wait charloop.read_wq, Act.poll_wait charloop.write_wq,
         Act.mutex_lock_cancelled charloop.read_mutex]⟩
    else
      let ret : Nat :=
        if g.charloop_buffer_length charloop.read_buffer_length ≠ 0 then
          0 ||| POLLIN ||| POLLRDNORM
        else 0
      ⟨Pc.at_poll_write ret, g,
        [Act.poll_wait charloop.read_wq, Act.poll_wait charloop.write_wq,
         Act.mutex_lock charloop.read_mutex, Act.access_length charloop.read_buffer_length,
         Act.mutex_unlock charloop.read_mutex]⟩
  | Pc.at_poll_write ret =>
    if env.lock_ok = false then
      ⟨Pc.done (to_uint (-ERESTARTSYS)) [], g, [Act.mutex_lock_cancelled charloop.write_mutex]⟩
    else
      let ret : Nat :=
        if g.charloop_buffer_length charloop.write_buffer_length ≠ charloop_buffer_size then
          ret ||| POLLOUT ||| POLLWRNORM
        else ret
      ⟨Pc.done (to_uint ret) [], g,
        [Act.mutex_lock charloop.write_mutex, Act.access_length charloop.write_buffer_length,
         Act.mutex_unlock charloop.write_mutex]⟩
  | Pc.at_wait => ⟨Pc.at_wait, g, []⟩
  | Pc.done ret out => ⟨Pc.done ret out, g, []⟩

/-- Runs a call alone, one step per kernel answer, from `pc`. -/
def run (step : Env → Pc → Globals → Step) : List Env → Pc → Globals → Step
  | [], pc, g => ⟨pc, g, []⟩
  | e :: es, pc, g =>
    let s := step e pc g
    let r := run step es s.pc s.g
    ⟨r.pc, r.g, s.acts ++ r.acts⟩

/-- A whole call of `charloop_read` with no other call in between. -/
def charloop_read (filp : File) (length : Nat) (envs : List Env) (g : Globals) : Step :=
  run (charloop_read_step filp length) envs Pc.at_lock g

/-- A whole call of `charloop_write` with no other call in between. -/
def charloop_write (charloop_buffer_size : Nat) (filp : File) (buffer : List Nat)
    (envs : List Env) (g : Globals) : Step :=
  run (charloop_write_step charloop_buffer_size filp buffer) envs Pc.at_lock g

/-- A whole call of `charloop_poll` with no other call in between. -/
def charloop_poll (charloop_buffer_size : Nat) (filp : File)
    (envs : List Env) (g : Globals) : Step :=
  run (charloop_poll_step charloop_buffer_size filp) envs Pc.at_lock g

/-! ## Module initialisation -/

/-- Answers of the kernel to `charloop_init`. -/
structure InitEnv where
  /-- Initial bytes of the first block, or `none` when `kmalloc` returns `NULL`. -/
  kmalloc0 : Option (List Nat)
  /-- Initial bytes of the second block, or `none` when `kmalloc` returns `NULL`. -/
  kmalloc1 : Option (List Nat)
  /-- Return value of `misc_register(&charloop_miscdevice[0])`. -/
  register0 : Int
  /-- Minor number given to `charloop_miscdevice[0]`. -/
  minor0 : Nat
  /-- Return value of `misc_register(&charloop_miscdevice[1])`. -/
  register1 : Int
  /-- Minor number given to `charloop_miscdevice[1]`. -/
  minor1 : Nat

/-- A fresh block of `size` bytes: its bytes are not initialised, they are those
of `raw` (completed when `raw` is too short). -/
def kmalloc_block (size : Nat) (raw : List Nat) : List Nat :=
  raw.take size ++ List.replicate (size - raw.length) 0

/-- The function `charloop_init`: return value, file-scope variables on return,
and what was done to the kernel objects. -/
def charloop_init (charloop_buffer_size : Nat) (env : InitEnv) (g : Globals) :
    Int × Globals × List Act :=
  match env.kmalloc0 with
  | none => (-ENOMEM, g, [Act.kmalloc_failed 0])
  | some raw0 =>
    let g0 : Globals :=
      { g with
        charloop_buffer := (store g.charloop_buffer 0 (kmalloc_block charloop_buffer_size raw0)),
        charloop_buffer_length := (store g.charloop_buffer_length 0 0) }
    match env.kmalloc1 with
    | none =>
      (-ENOMEM, g0,
        [Act.kmalloc 0, Act.mutex_init 0, Act.init_waitqueue_head 0, Act.kmalloc_failed 1,
         Act.mutex_destroy 0, Act.kfree 0])
    | some raw1 =>
      let g1 : Globals :=
        { g0 with
          charloop_buffer :=
            (store g0.charloop_buffer 1 (kmalloc_block charloop_buffer_size raw1)),
          charloop_buffer_length := (store g0.charloop_buffer_length 1 0) }
      if env.register0 ≠ 0 then
        (env.register0, g1,
          [Act.kmalloc 0, Act.mutex_init 0, Act.init_waitqueue_head 0,
           Act.kmalloc 1, Act.mutex_init 1, Act.init_waitqueue_head 1,
           Act.misc_register_failed 0,
           Act.mutex_destroy 1, Act.kfree 1, Act.mutex_destroy 0, Act.kfree 0])
      else if env.register1 ≠ 0 then
        (env.register1, g1,
          [Act.kmalloc 0, Act.mutex_init 0, Act.init_waitqueue_head 0,
           Act.kmalloc 1, Act.mutex_init 1, Act.init_waitqueue_head 1,
           Act.misc_register 0, Act.misc_register_failed 1, Act.misc_deregister 0,
           Act.mutex_destroy 1, Act.kfree 1, Act.mutex_destroy 0, Act.kfree 0])
      else
        let data0 : charloop_struct :=
          { read_buffer := 0, read_buffer_length := 0, read_mutex := 0, read_wq := 0,
            write_buffer := 1, write_buffer_length := 1, write_mutex := 1, write_wq := 1 }
        let data1 : charloop_struct :=
          { read_buffer := 1, read_buffer_length := 1, read_mutex := 1, read_wq := 1,
            write_buffer := 0, write_buffer_length := 0, write_mutex := 0, write_wq := 0 }
        let g2 : Globals :=
          { g1 with
            charloop_minor := (store (store g1.charloop_minor 0 env.minor0) 1 env.minor1),
            charloop_data := (store (store g1.charloop_data 0 data0) 1 data1) }
        (0, g2,
          [Act.kmalloc 0, Act.mutex_init 0, Act.init_waitqueue_head 0,
           Act.kmalloc 1, Act.mutex_init 1, Act.init_waitqueue_head 1,
           Act.misc_register 0, Act.misc_register 1, Act.set_data 0, Act.set_data 1])

/-! ## Calls running side by side -/

/-- A call of one of the three file operations, with its arguments. -/
inductive Call
  | read (filp : File) (length : Nat)
  | write (filp : File) (buffer : List Nat)
  | poll (filp : File)
deriving DecidableEq, Repr

/-- One step of a call. -/
def Call.step (charloop_buffer_size : Nat) : Call → Env → Pc → Globals → Step
  | Call.read filp length => charloop_read_step filp length
  | Call.write filp buffer => charloop_write_step charloop_buffer_size filp buffer
  | Call.poll filp => charloop_poll_step charloop_buffer_size filp

/-- Bytes a step handed to its caller out of buffer `b`: the output of a read
on `b` that returns a count at this step. -/
def Call.taken (c : Call) (g : Globals) (before after : Pc) (b : Fin 2) : List Nat :=
  match c, before, after with
  | Call.read filp _, Pc.at_lock, Pc.done ret out =>
    if 0 ≤ ret ∧ (g.charloop_data filp.private_data).read_buffer = b then out else []
  | _, _, _ => []

/-- Bytes a step accepted into buffer `b`: the first `ret` bytes of the
caller's region for a write on `b` that returns the count `ret` at this step. -/
def Call.accepted (c : Call) (g : Globals) (before after : Pc) (b : Fin 2) : List Nat :=
  match c, before, after with
  | Call.write filp buffer, Pc.at_lock, Pc.done ret _ =>
    if 0 ≤ ret ∧ (g.charloop_data filp.private_data).write_buffer = b then
      buffer.take ret.toNat
    else []
  | _, _, _ => []

/-- A running call. -/
structure Thread where
  call : Call
  pc : Pc
deriving DecidableEq, Repr

/-- The module with the calls in flight and, per buffer, the bytes handed out
by reads and the bytes accepted from writes so far, in the order of the steps. -/
structure Sys where
  g : Globals
  threads : List Thread
  taken : Fin 2 → List Nat
  accepted : Fin 2 → List Nat

/-- The scheduler lets thread number `tid` make one step with answers `env`. -/
def Sys.step (charloop_buffer_size : Nat) (sys : Sys) (tid : Nat) (env : Env) : Sys :=
  match sys.threads.get? tid with
  | none => sys
  | some t =>
    let s := t.call.step charloop_buffer_size env t.pc sys.g
    { g := s.g,
      threads := sys.threads.set tid { t with pc := s.pc },
      taken := fun b => sys.taken b ++ t.call.taken sys.g t.pc s.pc b,
      accepted := fun b => sys.accepted b ++ t.call.accepted sys.g t.pc s.pc b }

/-- A whole schedule. -/
def Sys.exec (charloop_buffer_size : Nat) (sys : Sys) : List (Nat × Env) → Sys
  | [] => sys
  | (tid, env) :: rest => (sys.step charloop_buffer_size tid env).exec charloop_buffer_size rest

/-- The valid data of buffer `b`: the first `length` bytes of its storage. -/
def valid (g : Globals) (b : Fin 2) : List Nat :=
  (g.charloop_buffer b).take (g.charloop_buffer_length b)

/-- The calls of `calls`, none started yet, on the module state `g`. -/
def Sys.start (g : Globals) (calls : List Call) : Sys :=
  { g := g, threads := calls.map (fun c => ⟨c, Pc.at_lock⟩),
    taken := fun _ => [], accepted := fun _ => [] }

/-- Each endpoint's storage pointer and length pointer refer to the same buffer,
and each buffer has a storage of `charloop_buffer_size` bytes of which at most
`charloop_buffer_size` are counted as valid. -/
def WellFormed (charloop_buffer_size : Nat) (g : Globals) : Prop :=
  (∀ a, (g.charloop_data a).read_buffer = (g.charloop_data a).read_buffer_length ∧
    (g.charloop_data a).write_buffer = (g.charloop_data a).write_buffer_length) ∧
  ∀ b, g.charloop_buffer_length b ≤ charloop_buffer_size ∧
    (g.charloop_buffer b).length = charloop_buffer_size

/-! ## Concrete states used in the examples -/

/-- The file-scope variables before `charloop_init` has run (zero-filled). -/
def pre_init : Globals :=
  { charloop_data := fun _ => ⟨0, 0, 0, 0, 0, 0, 0, 0⟩,
    charloop_buffer := fun _ => [],
    charloop_buffer_length := fun _ => 0,
    charloop_minor := fun _ => 0 }

/-- Kernel answers under which `charloop_init` succeeds; both blocks start zero-filled. -/
def init_env_ok : InitEnv :=
  { kmalloc0 := some [], kmalloc1 := some [], register0 := 0, minor0 := 58,
    register1 := 0, minor1 := 59 }

/-- The pair `charloop_init` builds with `buffer_size=4`. -/
def pair4 : Globals := (charloop_init 4 init_env_ok pre_init).2.1

/-- Kernel answers of a step in which nothing is cancelled and nothing faults. -/
def env_ok : Env := { lock_ok := true, wait_ok := true, copy_ok := true, junk := [] }

/-- The pair of capacity 4 after endpoint 0 wrote `"ab"`: buffer 1 holds `"ab"`. -/
def pair4_ab : Globals := (charloop_write 4 ⟨0, false⟩ [97, 98] [env_ok] pair4).g

/-- The pair of capacity 4 after endpoint 0 wrote `"abcd"`: buffer 1 is full. -/
def pair4_abcd : Globals := (charloop_write 4 ⟨0, false⟩ [97, 98, 99, 100] [env_ok] pair4).g

/-- Four calls on the pair: a blocking read of 3 bytes on endpoint 1, a write of
`"abcde"` on endpoint 0, a non-blocking write of `"xy"` on endpoint 0 and a read
of at most 10 bytes on endpoint 1. -/
def demo_calls : List Call :=
  [Call.read ⟨1, false⟩ 3, Call.write ⟨0, false⟩ [97, 98, 99, 100, 101],
   Call.write ⟨0, true⟩ [120, 121], Call.read ⟨1, false⟩ 10]

/-- A schedule of `demo_calls`: the first read finds the buffer empty and goes
to sleep, the first write fills the buffer, the second write finds it full, the
first read wakes up and takes 3 bytes, the last read takes the rest. -/
def demo_sched : List (Nat × Env) :=
  [(0, env_ok), (1, env_ok), (2, env_ok), (0, env_ok), (0, env_ok), (3, env_ok)]

/-- Consecutive calls of `charloop_poll` on one endpoint, each run alone with its
own kernel answers and nothing in between: what each returned, in order. -/
def poll_sequence (charloop_buffer_size : Nat) (filp : File) : List (List Env) → Globals → List Pc
  | [], _ => []
  | envs :: rest, g =>
    (charloop_poll charloop_buffer_size filp envs g).pc ::
      poll_sequence charloop_buffer_size filp rest (charloop_poll charloop_buffer_size filp envs g).g

/-! ## Kernel resources held by the module -/

/-- Which blocks are allocated, which mutexes are initialised and which misc
devices are registered. -/
structure Resources where
  allocated : Fin 2 → Bool
  mutexes : Fin 2 → Bool
  registered : Fin 2 → Bool

/-- Nothing allocated, initialised or registered: the state before `charloop_init`. -/
def Resources.empty : Resources :=
  { allocated := fun _ => false, mutexes := fun _ => false, registered := fun _ => false }

/-- Effect of one action on the resources; `none` when the action misuses them:
a block allocated over a live one, a block freed that is not allocated (so also
a second `kfree`), a mutex initialised twice or destroyed when not initialised,
a device registered twice or deregistered when not registered. -/
def Resources.apply (r : Resources) : Act → Option Resources
  | Act.kmalloc b =>
    if r.allocated b then none else some { r with allocated := (store r.allocated b true) }
  | Act.kfree b =>
    if r.allocated b then some { r with allocated := (store r.allocated b false) } else none
  | Act.mutex_init m =>
    if r.mutexes m then none else some { r with mutexes := (store r.mutexes m true) }
  | Act.mutex_destroy m =>
    if r.mutexes m then some { r with mutexes := (store r.mutexes m false) } else none
  | Act.misc_register d =>
    if r.registered d then none else some { r with registered := (store r.registered d true) }
  | Act.misc_deregister d =>
    if r.registered d then some { r with registered := (store r.registered d false) } else none
  | _ => some r

/-- Effect of a sequence of actions on the resources. -/
def Resources.replay (r : Resources) : List Act → Option Resources
  | [] => some r
  | a :: rest =>
    match r.apply a with
    | none => none
    | some r1 => r1.replay rest

/-- Both blocks allocated, both mutexes initialised, both devices registered. -/
def Resources.complete (r : Resources) : Bool :=
  r.allocated 0 && r.allocated 1 && r.mutexes 0 && r.mutexes 1 &&
    r.registered 0 && r.registered 1

/-- No block allocated, no mutex initialised, no device registered. -/
def Resources.released (r : Resources) : Bool :=
  !(r.allocated 0 || r.allocated 1 || r.mutexes 0 || r.mutexes 1 ||
    r.registered 0 || r.registered 1)

/-! ## Order of the actions of `charloop_init` -/

/-- Whether, along a sequence of actions, an endpoint is registered only once
its `charloop_data` entry has been set; `wired` tells which entries are set at
the start. -/
def wired_when_exposed (wired : Fin 2 → Bool) : List Act → Bool
  | [] => true
  | Act.set_data d :: rest => wired_when_exposed (store wired d true) rest
  | Act.misc_register d :: rest => wired d && wired_when_exposed wired rest
  | _ :: rest => wired_when_exposed wired rest

/-! ## Mutexes held by a caller -/

/-- The mutexes a caller holds after a sequence of actions, `held` being those it
holds before. -/
def held_end (held : List (Fin 2)) : List Act → List (Fin 2)
  | [] => held
  | Act.mutex_lock m :: rest => held_end (m :: held) rest
  | Act.mutex_unlock m :: rest => held_end (held.erase m) rest
  | _ :: rest => held_end held rest

/-- The largest number of mutexes a caller holds at any point of a sequence of
actions. -/
def most_held (held : List (Fin 2)) : List Act → Nat
  | [] => held.length
  | Act.mutex_lock m :: rest => max held.length (most_held (m :: held) rest)
  | Act.mutex_unlock m :: rest => max held.length (most_held (held.erase m) rest)
  | _ :: rest => most_held held rest

/-- Whether a sequence of actions keeps the locking rules: no mutex is acquired
while the caller holds it, no mutex is released that the caller does not hold,
and the length and the storage of buffer `b` are touched only while the caller
holds mutex `b` (`charloop_mtx[b]` is the mutex of `charloop_buffer[b]`). -/
def locking_ok (held : List (Fin 2)) : List Act → Bool
  | [] => true
  | Act.mutex_lock m :: rest => !(held.contains m) && locking_ok (m :: held) rest
  | Act.mutex_unlock m :: rest => held.contains m && locking_ok (held.erase m) rest
  | Act.access_length b :: rest => held.contains b && locking_ok held rest
  | Act.access_storage b :: rest => held.contains b && locking_ok held rest
  | _ :: rest => locking_ok held rest

/-! ## Machine arithmetic of `charloop_read` and `charloop_write`

`charloop_buffer_size` is an `unsigned int` and the lengths `charloop_buffer_length[i]`
are `int`s, both of 32 bits; the request `length` is a `size_t` of `size_bits`
bits (32 or 64) and the return value an `ssize_t` of as many bits. -/

/-- Conversion to an unsigned type of `bits` bits. -/
def to_unsigned (bits : Nat) (x : Int) : Int := x % 2 ^ bits

/-- Conversion to a signed type of `bits` bits (two's complement). -/
def to_signed (bits : Nat) (x : Int) : Int := (x + 2 ^ (bits - 1)) % 2 ^ bits - 2 ^ (bits - 1)

/-- The values `charloop_read` computes once the loop is left. -/
structure ReadArith where
  /-- The `size_t length` after lines 87-88. -/
  length : Int
  /-- The `int *read_buffer_length` after line 95. -/
  new_length : Int
  /-- The test `*read_buffer_length > 0` of line 96. -/
  shift : Bool
  /-- The `ssize_t` returned at line 104. -/
  ret : Int

/-- Lines 87-104 of `charloop_read` on machine integers: `length` is the request,
`stored` the `int` found in `*read_buffer_length`.  In `length > stored` and in
`stored -= length` the `int` is converted to `size_t`; the difference is
converted back to `int`. -/
def read_arith (size_bits : Nat) (length stored : Int) : ReadArith :=
  let length1 :=
    if length > to_unsigned size_bits stored then to_unsigned size_bits stored else length
  let new_length := to_signed 32 (to_unsigned size_bits (to_unsigned size_bits stored - length1))
  { length := length1, new_length := new_length, shift := decide (new_length > 0),
    ret := to_signed size_bits length1 }

/-- The values `charloop_write` computes. -/
structure WriteArith where
  /-- The test `*write_buffer_length == charloop_buffer_size` of line 116. -/
  full : Bool
  /-- The `size_t length` after lines 125-126. -/
  length : Int
  /-- The `int *write_buffer_length` after line 133. -/
  new_length : Int
  /-- The `ssize_t` returned at line 139. -/
  ret : Int

/-- Lines 116-139 of `charloop_write` on machine integers: `size` is
`charloop_buffer_size`, `length` the request, `stored` the `int` found in
`*write_buffer_length`.  In `stored == size` and in `size - stored` the `int`
is converted to `unsigned int`; the difference is converted to `size_t` for the
comparison with `length`; in `stored += length` the `int` is converted to
`size_t` and the sum back to `int`. -/
def write_arith (size_bits : Nat) (size length stored : Int) : WriteArith :=
  let room := to_unsigned 32 (size - to_unsigned 32 stored)
  let length1 :=
    if length > to_unsigned size_bits room then to_unsigned size_bits room else length
  let new_length := to_signed 32 (to_unsigned size_bits (to_unsigned size_bits stored + length1))
  { full := decide (to_unsigned 32 stored = size), length := length1,
    new_length := new_length, ret := to_signed size_bits length1 }

/-! ## Auxiliary facts about the steps -/

theorem store_same {α : Type} (a : Fin 2 → α) (i : Fin 2) (v : α) : store a i v i = v := by
  simp [store]

theorem store_other {α : Type} (a : Fin 2 → α) (i j : Fin 2) (v : α) (h : j ≠ i) :
    store a i v j = a j := by
  simp [store, h]

theorem clamp_eq_min (a b : Nat) : (if a > b then b else a) = min a b := by
  split_ifs with h
  · exact (Nat.min_eq_right (Nat.le_of_lt h)).symm
  · exact (Nat.min_eq_left (Nat.le_of_not_lt h)).symm

/-- The successful take of `charloop_read`. -/
theorem read_step_success (filp : File) (length : Nat) (env : Env) (g : Globals)
    (hl : env.lock_ok = true)
    (hn : g.charloop_buffer_length (g.charloop_data filp.private_data).read_buffer_length ≠ 0)
    (hc : env.copy_ok = true) :
    (charloop_read_step filp length env Pc.at_lock g).pc =
        Pc.done ((min length
            (g.charloop_buffer_length (g.charloop_data filp.private_data).read_buffer_length) : Nat) : Int)
          ((g.charloop_buffer (g.charloop_data filp.private_data).read_buffer).take
            (min length
              (g.charloop_buffer_length (g.charloop_data filp.private_data).read_buffer_length))) ∧
    (charloop_read_step filp length env Pc.at_lock g).g.charloop_buffer_length =
        store g.charloop_buffer_length (g.charloop_data filp.private_data).read_buffer_length
          (g.charloop_buffer_length (g.charloop_data filp.private_data).read_buffer_length -
            min length
              (g.charloop_buffer_length (g.charloop_data filp.private_data).read_buffer_length)) ∧
    (charloop_read_step filp length env Pc.at_lock g).g.charloop_buffer =
        (if g.charloop_buffer_length (g.charloop_data filp.private_data).read_buffer_length -
            min length
              (g.charloop_buffer_length (g.charloop_data filp.private_data).read_buffer_length) > 0
         then
          store g.charloop_buffer (g.charloop_data filp.private_data).read_buffer
            (memmove (g.charloop_buffer (g.charloop_data filp.private_data).read_buffer) 0
              (min length
                (g.charloop_buffer_length (g.charloop_data filp.private_data).read_buffer_length))
              (g.charloop_buffer_length (g.charloop_data filp.private_data).read_buffer_length -
                min length
                  (g.charloop_buffer_length
                    (g.charloop_data filp.private_data).read_buffer_length)))
         else g.charloop_buffer) ∧
    (charloop_read_step filp length env Pc.at_lock g).g.charloop_data = g.charloop_data ∧
    (charloop_read_step filp length env Pc.at_lock g).g.charloop_minor = g.charloop_minor := by
  simp only [charloop_read_step, hl, hn, hc, clamp_eq_min, Bool.true_eq_false, if_false]
  refine ⟨trivial, ?_, ?_, ?_, ?_⟩ <;> split_ifs <;> rfl

/-- Every other step of `charloop_read` leaves the file-scope variables as they are. -/
theorem read_step_other (filp : File) (length : Nat) (env : Env) (pc : Pc) (g : Globals)
    (h : ¬ (pc = Pc.at_lock ∧ env.lock_ok = true ∧
      g.charloop_buffer_length (g.charloop_data filp.private_data).read_buffer_length ≠ 0 ∧
      env.copy_ok = true)) :
    (charloop_read_step filp length env pc g).g = g := by
  unfold charloop_read_step
  cases pc <;> simp only
  · split_ifs with h1 h2 h3 h4 <;> first | rfl | (exfalso; apply h; simp_all)
  · split_ifs <;> rfl

/-- The successful append of `charloop_write`. -/
theorem write_step_success (C : Nat) (filp : File) (buffer : List Nat) (env : Env) (g : Globals)
    (hl : env.lock_ok = true)
    (hn : g.charloop_buffer_length (g.charloop_data filp.private_data).write_buffer_length ≠ C)
    (hc : env.copy_ok = true) :
    (charloop_write_step C filp buffer env Pc.at_lock g).pc =
        Pc.done ((min buffer.length
            (C - g.charloop_buffer_length
              (g.charloop_data filp.private_data).write_buffer_length) : Nat) : Int) [] ∧
    (charloop_write_step C filp buffer env Pc.at_lock g).g.charloop_buffer_length =
        store g.charloop_buffer_length (g.charloop_data filp.private_data).write_buffer_length
          (g.charloop_buffer_length (g.charloop_data filp.private_data).write_buffer_length +
            min buffer.length
              (C - g.charloop_buffer_length
                (g.charloop_data filp.private_data).write_buffer_length)) ∧
    (charloop_write_step C filp buffer env Pc.at_lock g).g.charloop_buffer =
        store g.charloop_buffer (g.charloop_data filp.private_data).write_buffer
          (copy_in (g.charloop_buffer (g.charloop_data filp.private_data).write_buffer)
            (g.charloop_buffer_length (g.charloop_data filp.private_data).write_buffer_length)
            buffer
            (min buffer.length
              (C - g.charloop_buffer_length
                (g.charloop_data filp.private_data).write_buffer_length))) ∧
    (charloop_write_step C filp buffer env Pc.at_lock g).g.charloop_data = g.charloop_data ∧
    (charloop_write_step C filp buffer env Pc.at_lock g).g.charloop_minor = g.charloop_minor := by
  simp only [charloop_write_step, hl, hn, hc, clamp_eq_min, Bool.true_eq_false, if_false]
  refine ⟨?_, ?_, ?_, ?_, ?_⟩ <;> trivial

/-- The faulting append of `charloop_write`. -/
theorem write_step_fault (C : Nat) (filp : File) (buffer : List Nat) (env : Env) (g : Globals)
    (hl : env.lock_ok = true)
    (hn : g.charloop_buffer_length (g.charloop_data filp.private_data).write_buffer_length ≠ C)
    (hc : env.copy_ok = false) :
    (charloop_write_step C filp buffer env Pc.at_lock g).pc = Pc.done (-EFAULT) [] ∧
    (charloop_write_step C filp buffer env Pc.at_lock g).g.charloop_buffer_length =
        g.charloop_buffer_length ∧
    (charloop_write_step C filp buffer env Pc.at_lock g).g.charloop_buffer =
        store g.charloop_buffer (g.charloop_data filp.private_data).write_buffer
          (copy_in (g.charloop_buffer (g.charloop_data filp.private_data).write_buffer)
            (g.charloop_buffer_length (g.charloop_data filp.private_data).write_buffer_length)
            env.junk
            (min buffer.length
              (C - g.charloop_buffer_length
                (g.charloop_data filp.private_data).write_buffer_length))) ∧
    (charloop_write_step C filp buffer env Pc.at_lock g).g.charloop_data = g.charloop_data ∧
    (charloop_write_step C filp buffer env Pc.at_lock g).g.charloop_minor = g.charloop_minor := by
  simp only [charloop_write_step, hl, hn, hc, clamp_eq_min, Bool.true_eq_false, if_false, if_true]
  refine ⟨?_, ?_, ?_, ?_, ?_⟩ <;> trivial

/-- Every other step of `charloop_write` leaves the file-scope variables as they are. -/
theorem write_step_other (C : Nat) (filp : File) (buffer : List Nat) (env : Env) (pc : Pc)
    (g : Globals)
    (h : ¬ (pc = Pc.at_lock ∧ env.lock_ok = true ∧
      g.charloop_buffer_length (g.charloop_data filp.private_data).write_buffer_length ≠ C)) :
    (charloop_write_step C filp buffer env pc g).g = g := by
  unfold charloop_write_step
  cases pc <;> simp only
  · split_ifs with h1 h2 h3 h4 <;> first | rfl | (exfalso; apply h; simp_all)
  · split_ifs <;> rfl

/-- No step of `charloop_poll` changes the file-scope variables. -/
theorem poll_step_g (C : Nat) (filp : File) (env : Env) (pc : Pc) (g : Globals) :
    (charloop_poll_step C filp env pc g).g = g := by
  unfold charloop_poll_step
  cases pc <;> simp only <;> split_ifs <;> rfl

/-- A call that has returned makes no further step. -/
theorem run_done (step : Env → Pc → Globals → Step)
    (hstep : ∀ e ret out g, step e (Pc.done ret out) g = ⟨Pc.done ret out, g, []⟩)
    (envs : List Env) (ret : Int) (out : List Nat) (g : Globals) :
    run step envs (Pc.done ret out) g = ⟨Pc.done ret out, g, []⟩ := by
  induction envs with
  | nil => rfl
  | cons e es ih => simp [run, hstep, ih]

theorem read_step_done (filp : File) (length : Nat) (e : Env) (ret : Int) (out : List Nat)
    (g : Globals) :
    charloop_read_step filp length e (Pc.done ret out) g = ⟨Pc.done ret out, g, []⟩ := rfl

theorem write_step_done (C : Nat) (filp : File) (buffer : List Nat) (e : Env) (ret : Int)
    (out : List Nat) (g : Globals) :
    charloop_write_step C filp buffer e (Pc.done ret out) g = ⟨Pc.done ret out, g, []⟩ := rfl

theorem poll_step_done (C : Nat) (filp : File) (e : Env) (ret : Int) (out : List Nat)
    (g : Globals) :
    charloop_poll_step C filp e (Pc.done ret out) g = ⟨Pc.done ret out, g, []⟩ := rfl

theorem read_step_length_le (C : Nat) (filp : File) (length : Nat) (env : Env) (pc : Pc)
    (g : Globals) (h : ∀ b, g.charloop_buffer_length b ≤ C) (b : Fin 2) :
    (charloop_read_step filp length env pc g).g.charloop_buffer_length b ≤ C := by
  by_cases hs : pc = Pc.at_lock ∧ env.lock_ok = true ∧
      g.charloop_buffer_length (g.charloop_data filp.private_data).read_buffer_length ≠ 0 ∧
      env.copy_ok = true
  · obtain ⟨rfl, hl, hn, hc⟩ := hs
    rw [(read_step_success filp length env g hl hn hc).2.1]
    unfold store
    split_ifs
    · exact le_trans (Nat.sub_le _ _) (h _)
    · exact h b
  · rw [read_step_other filp length env pc g hs]
    exact h b

theorem write_step_length_le (C : Nat) (filp : File) (buffer : List Nat) (env : Env) (pc : Pc)
    (g : Globals) (h : ∀ b, g.charloop_buffer_length b ≤ C) (b : Fin 2) :
    (charloop_write_step C filp buffer env pc g).g.charloop_buffer_length b ≤ C := by
  by_cases hs : pc = Pc.at_lock ∧ env.lock_ok = true ∧
      g.charloop_buffer_length (g.charloop_data filp.private_data).write_buffer_length ≠ C
  · obtain ⟨rfl, hl, hn⟩ := hs
    cases hc : env.copy_ok
    · rw [(write_step_fault C filp buffer env g hl hn hc).2.1]
      exact h b
    · rw [(write_step_success C filp buffer env g hl hn hc).2.1]
      unfold store
      split_ifs
      · have := h (g.charloop_data filp.private_data).write_buffer_length
        have := Nat.min_le_right buffer.length
          (C - g.charloop_buffer_length (g.charloop_data filp.private_data).write_buffer_length)
        omega
      · exact h b
  · rw [write_step_other C filp buffer env pc g hs]
    exact h b

theorem call_step_length_le (C : Nat) (c : Call) (env : Env) (pc : Pc)
    (g : Globals) (h : ∀ b, g.charloop_buffer_length b ≤ C) (b : Fin 2) :
    (c.step C env pc g).g.charloop_buffer_length b ≤ C := by
  cases c with
  | read filp length => exact read_step_length_le C filp length env pc g h b
  | write filp buffer => exact write_step_length_le C filp buffer env pc g h b
  | poll filp =>
    show (charloop_poll_step C filp env pc g).g.charloop_buffer_length b ≤ C
    rw [poll_step_g]; exact h b

theorem sys_step_length_le (C : Nat) (sys : Sys) (tid : Nat) (env : Env)
    (h : ∀ b, sys.g.charloop_buffer_length b ≤ C) (b : Fin 2) :
    (sys.step C tid env).g.charloop_buffer_length b ≤ C := by
  unfold Sys.step
  cases sys.threads.get? tid with
  | none => exact h b
  | some t => exact call_step_length_le C t.call env t.pc sys.g h b

theorem sys_exec_length_le (C : Nat) (sched : List (Nat × Env)) (sys : Sys)
    (h : ∀ b, sys.g.charloop_buffer_length b ≤ C) (b : Fin 2) :
    (sys.exec C sched).g.charloop_buffer_length b ≤ C := by
  induction sched generalizing sys with
  | nil => exact h b
  | cons x rest ih =>
    obtain ⟨tid, env⟩ := x
    exact ih (sys.step C tid env) (fun b => sys_step_length_le C sys tid env h b)

/-- C2 (capacity invariant): a step of `charloop_read`, `charloop_write` or
`charloop_poll`, whatever its outcome, taken in a state where both lengths are
at most the capacity, leaves both lengths at most the capacity; hence after any
schedule of any calls started on such a state (the state `charloop_init` leaves
has both lengths 0), both lengths are at most the capacity.  Lengths are
natural numbers, so they are never negative. -/
theorem capacity_invariant (C : Nat) (g : Globals)
    (h : ∀ b, g.charloop_buffer_length b ≤ C) :
    (∀ (c : Call) (env : Env) (pc : Pc) (b : Fin 2),
      0 ≤ (c.step C env pc g).g.charloop_buffer_length b ∧
      (c.step C env pc g).g.charloop_buffer_length b ≤ C) ∧
    (∀ (calls : List Call) (sched : List (Nat × Env)) (b : Fin 2),
      0 ≤ ((Sys.start g calls).exec C sched).g.charloop_buffer_length b ∧
      ((Sys.start g calls).exec C sched).g.charloop_buffer_length b ≤ C) :=
  ⟨fun c env pc b => ⟨Nat.zero_le _, call_step_length_le C c env pc g h b⟩,
   fun calls sched b => ⟨Nat.zero_le _, sys_exec_length_le C sched (Sys.start g calls) h b⟩⟩

/-- Witness of C2 on the pair built by `charloop_init` with capacity 4, whose
lengths are both 0. -/
theorem capacity_invariant_witness :
    (∀ b, pair4.charloop_buffer_length b = 0) ∧
    ((∀ (c : Call) (env : Env) (pc : Pc) (b : Fin 2),
      0 ≤ (c.step 4 env pc pair4).g.charloop_buffer_length b ∧
      (c.step 4 env pc pair4).g.charloop_buffer_length b ≤ 4) ∧
    (∀ (calls : List Call) (sched : List (Nat × Env)) (b : Fin 2),
      0 ≤ ((Sys.start pair4 calls).exec 4 sched).g.charloop_buffer_length b ∧
      ((Sys.start pair4 calls).exec 4 sched).g.charloop_buffer_length b ≤ 4)) :=
  ⟨by decide, capacity_invariant 4 pair4 (by decide)⟩

theorem copy_in_take (st : List Nat) (L : Nat) (src : List Nat) (n : Nat) (hL : L ≤ st.length) :
    (copy_in st L src n).take L = st.take L := by
  unfold copy_in
  rw [List.append_assoc]
  exact List.take_left' (by simp [hL])

theorem copy_in_drop_take (st : List Nat) (L : Nat) (src : List Nat) (n : Nat)
    (hL : L ≤ st.length) :
    ((copy_in st L src n).drop L).take (src.take n).length = src.take n := by
  unfold copy_in
  rw [List.append_assoc, List.drop_left' (by simp [hL])]
  exact List.take_left' rfl

theorem copy_in_drop (st : List Nat) (L : Nat) (src : List Nat) (n : Nat)
    (hL : L ≤ st.length) :
    (copy_in st L src n).drop (L + (src.take n).length) =
      st.drop (L + (src.take n).length) := by
  unfold copy_in
  exact List.drop_left' (by simp [hL])

theorem copy_in_length (st : List Nat) (L : Nat) (src : List Nat) (n : Nat)
    (h : L + (src.take n).length ≤ st.length) :
    (copy_in st L src n).length = st.length := by
  unfold copy_in
  simp only [List.length_append, List.length_take, List.length_drop] at h ⊢
  omega

theorem memmove_take (st : List Nat) (n k : Nat) (h : n + k ≤ st.length) :
    (memmove st 0 n k).take k = (st.drop n).take k := by
  unfold memmove
  rw [List.take_zero, List.nil_append]
  exact List.take_left' (by simp; omega)

theorem memmove_length (st : List Nat) (n k : Nat) (h : n + k ≤ st.length) :
    (memmove st 0 n k).length = st.length := by
  unfold memmove
  simp only [List.take_zero, List.nil_append, List.length_append, List.length_take,
    List.length_drop, Nat.zero_add]
  omega

/-- A call whose first step returns has returned that step's result. -/
theorem run_first_done (step : Env → Pc → Globals → Step)
    (hstep : ∀ e ret out g, step e (Pc.done ret out) g = ⟨Pc.done ret out, g, []⟩)
    (e : Env) (rest : List Env) (pc : Pc) (g : Globals) (ret : Int) (out : List Nat)
    (h : (step e pc g).pc = Pc.done ret out) :
    (run step (e :: rest) pc g).pc = Pc.done ret out ∧
    (run step (e :: rest) pc g).g = (step e pc g).g := by
  simp only [run, h, run_done step hstep]
  exact ⟨trivial, trivial⟩

/-- C3 (write postcondition): on a buffer that is not full (`L < C`, storage of
`C` bytes), a `charloop_write` of the bytes `bs` whose lock acquisition and user
copy succeed returns `n = min (len bs) (C - L)`, sets the length to `L + n`,
leaves the first `L` bytes as they were, stores `bs[0..n)` at positions
`L .. L+n`, leaves the bytes from `L + n` on as they were (so `bs[n..)` is not
stored), and `n ≥ 1` when `bs` is not empty. -/
theorem write_postcondition (C : Nat) (filp : File) (bs : List Nat) (env : Env)
    (rest : List Env) (g : Globals)
    (hL : g.charloop_buffer_length (g.charloop_data filp.private_data).write_buffer_length < C)
    (hS : (g.charloop_buffer (g.charloop_data filp.private_data).write_buffer).length = C)
    (hlock : env.lock_ok = true) (hcopy : env.copy_ok = true) :
    (charloop_write C filp bs (env :: rest) g).pc =
      Pc.done ((min bs.length
        (C - g.charloop_buffer_length
          (g.charloop_data filp.private_data).write_buffer_length) : Nat) : Int) [] ∧
    (charloop_write C filp bs (env :: rest) g).g.charloop_buffer_length
        (g.charloop_data filp.private_data).write_buffer_length =
      g.charloop_buffer_length (g.charloop_data filp.private_data).write_buffer_length +
        min bs.length
          (C - g.charloop_buffer_length
            (g.charloop_data filp.private_data).write_buffer_length) ∧
    ((charloop_write C filp bs (env :: rest) g).g.charloop_buffer
        (g.charloop_data filp.private_data).write_buffer).take
        (g.charloop_buffer_length (g.charloop_data filp.private_data).write_buffer_length) =
      (g.charloop_buffer (g.charloop_data filp.private_data).write_buffer).take
        (g.charloop_buffer_length (g.charloop_data filp.private_data).write_buffer_length) ∧
    (((charloop_write C filp bs (env :: rest) g).g.charloop_buffer
        (g.charloop_data filp.private_data).write_buffer).drop
        (g.charloop_buffer_length
          (g.charloop_data filp.private_data).write_buffer_length)).take
        (min bs.length
          (C - g.charloop_buffer_length
            (g.charloop_data filp.private_data).write_buffer_length)) =
      bs.take (min bs.length
        (C - g.charloop_buffer_length
          (g.charloop_data filp.private_data).write_buffer_length)) ∧
    ((charloop_write C filp bs (env :: rest) g).g.charloop_buffer
        (g.charloop_data filp.private_data).write_buffer).drop
        (g.charloop_buffer_length (g.charloop_data filp.private_data).write_buffer_length +
          min bs.length
            (C - g.charloop_buffer_length
              (g.charloop_data filp.private_data).write_buffer_length)) =
      (g.charloop_buffer (g.charloop_data filp.private_data).write_buffer).drop
        (g.charloop_buffer_length (g.charloop_data filp.private_data).write_buffer_length +
          min bs.length
            (C - g.charloop_buffer_length
              (g.charloop_data filp.private_data).write_buffer_length)) ∧
    ((charloop_write C filp bs (env :: rest) g).g.charloop_buffer
        (g.charloop_data filp.private_data).write_buffer).length = C ∧
    (bs ≠ [] →
      1 ≤ min bs.length
        (C - g.charloop_buffer_length
          (g.charloop_data filp.private_data).write_buffer_length)) := by
  have hne := Nat.ne_of_lt hL
  obtain ⟨hpc, hlen, hbuf, -, -⟩ := write_step_success C filp bs env g hlock hne hcopy
  obtain ⟨rpc, rg⟩ := run_first_done (charloop_write_step C filp bs)
    (write_step_done C filp bs) env rest Pc.at_lock g _ _ hpc
  unfold charloop_write
  rw [rpc, rg, hlen, hbuf, store_same, store_same]
  generalize g.charloop_buffer_length (g.charloop_data filp.private_data).write_buffer_length = L
    at hL hS ⊢
  generalize g.charloop_buffer (g.charloop_data filp.private_data).write_buffer = st at hS ⊢
  have hn : min bs.length (C - L) ≤ bs.length := Nat.min_le_left _ _
  have hn2 : min bs.length (C - L) ≤ C - L := Nat.min_le_right _ _
  have hn3 : bs ≠ [] → 1 ≤ min bs.length (C - L) := by
    intro hbs
    have : 0 < bs.length := List.length_pos.mpr hbs
    exact Nat.le_min.mpr ⟨this, by omega⟩
  generalize min bs.length (C - L) = n at hn hn2 hn3 ⊢
  have htl : (bs.take n).length = n := by simp [hn]
  have h1 := copy_in_take st L bs n (by omega)
  have h2 := copy_in_drop_take st L bs n (by omega)
  have h3 := copy_in_drop st L bs n (by omega)
  have h4 := copy_in_length st L bs n (by omega)
  rw [htl] at h2 h3
  exact ⟨rfl, rfl, h1, h2, h3, h4.trans hS, hn3⟩

/-- Witness of C3: capacity 4, buffer 1 holds `"ab"`; endpoint 0 writes `"cde"`:
two bytes are accepted and buffer 1 holds `"abcd"`. -/
theorem write_postcondition_witness :
    pair4_ab.charloop_buffer_length 1 < 4 ∧
    (charloop_write 4 ⟨0, false⟩ [99, 100, 101] [env_ok] pair4_ab).pc = Pc.done 2 [] ∧
    (charloop_write 4 ⟨0, false⟩ [99, 100, 101] [env_ok] pair4_ab).g.charloop_buffer_length 1
      = 4 ∧
    ((charloop_write 4 ⟨0, false⟩ [99, 100, 101] [env_ok] pair4_ab).g.charloop_buffer 1).take 2
      = [97, 98] ∧
    (((charloop_write 4 ⟨0, false⟩ [99, 100, 101] [env_ok] pair4_ab).g.charloop_buffer 1).drop
      2).take 2 = [99, 100] :=
  ⟨by decide,
   (write_postcondition 4 ⟨0, false⟩ [99, 100, 101] env_ok [] pair4_ab
      (by decide) (by decide) rfl rfl).1,
   (write_postcondition 4 ⟨0, false⟩ [99, 100, 101] env_ok [] pair4_ab
      (by decide) (by decide) rfl rfl).2.1,
   (write_postcondition 4 ⟨0, false⟩ [99, 100, 101] env_ok [] pair4_ab
      (by decide) (by decide) rfl rfl).2.2.1,
   (write_postcondition 4 ⟨0, false⟩ [99, 100, 101] env_ok [] pair4_ab
      (by decide) (by decide) rfl rfl).2.2.2.1⟩

/-- C4 (read postcondition): on a buffer with `L > 0` valid bytes (storage of at
least `L` bytes), a `charloop_read` of at most `m` bytes whose lock acquisition
and user copy succeed returns `n = min m L` and hands the caller the first `n`
bytes of the storage; afterwards the length is `L - n` and the first `L - n`
bytes of the storage are the old bytes `n .. L-1` in the same order; the
storage keeps its size. -/
theorem read_postcondition (filp : File) (m : Nat) (env : Env) (rest : List Env) (g : Globals)
    (hL : 0 < g.charloop_buffer_length (g.charloop_data filp.private_data).read_buffer_length)
    (hS : g.charloop_buffer_length (g.charloop_data filp.private_data).read_buffer_length ≤
      (g.charloop_buffer (g.charloop_data filp.private_data).read_buffer).length)
    (hlock : env.lock_ok = true) (hcopy : env.copy_ok = true) :
    (charloop_read filp m (env :: rest) g).pc =
      Pc.done ((min m
          (g.charloop_buffer_length (g.charloop_data filp.private_data).read_buffer_length) :
          Nat) : Int)
        ((g.charloop_buffer (g.charloop_data filp.private_data).read_buffer).take
          (min m
            (g.charloop_buffer_length
              (g.charloop_data filp.private_data).read_buffer_length))) ∧
    (charloop_read filp m (env :: rest) g).g.charloop_buffer_length
        (g.charloop_data filp.private_data).read_buffer_length =
      g.charloop_buffer_length (g.charloop_data filp.private_data).read_buffer_length -
        min m
          (g.charloop_buffer_length (g.charloop_data filp.private_data).read_buffer_length) ∧
    ((charloop_read filp m (env :: rest) g).g.charloop_buffer
        (g.charloop_data filp.private_data).read_buffer).take
        (g.charloop_buffer_length (g.charloop_data filp.private_data).read_buffer_length -
          min m
            (g.charloop_buffer_length
              (g.charloop_data filp.private_data).read_buffer_length)) =
      ((g.charloop_buffer (g.charloop_data filp.private_data).read_buffer).drop
        (min m
          (g.charloop_buffer_length
            (g.charloop_data filp.private_data).read_buffer_length))).take
        (g.charloop_buffer_length (g.charloop_data filp.private_data).read_buffer_length -
          min m
            (g.charloop_buffer_length
              (g.charloop_data filp.private_data).read_buffer_length)) ∧
    (∀ i, i < g.charloop_buffer_length (g.charloop_data filp.private_data).read_buffer_length -
          min m
            (g.charloop_buffer_length
              (g.charloop_data filp.private_data).read_buffer_length) →
      ((charloop_read filp m (env :: rest) g).g.charloop_buffer
        (g.charloop_data filp.private_data).read_buffer).get? i =
      (g.charloop_buffer (g.charloop_data filp.private_data).read_buffer).get?
        (min m
          (g.charloop_buffer_length
            (g.charloop_data filp.private_data).read_buffer_length) + i)) ∧
    ((charloop_read filp m (env :: rest) g).g.charloop_buffer
        (g.charloop_data filp.private_data).read_buffer).length =
      (g.charloop_buffer (g.charloop_data filp.private_data).read_buffer).length := by
  have hne := Nat.pos_iff_ne_zero.mp hL
  obtain ⟨hpc, hlen, hbuf, -, -⟩ := read_step_success filp m env g hlock hne hcopy
  obtain ⟨rpc, rg⟩ := run_first_done (charloop_read_step filp m)
    (read_step_done filp m) env rest Pc.at_lock g _ _ hpc
  unfold charloop_read
  rw [rpc, rg, hlen, hbuf, store_same]
  generalize g.charloop_buffer_length (g.charloop_data filp.private_data).read_buffer_length = L
    at hL hS ⊢
  have hn : min m L ≤ L := Nat.min_le_right _ _
  generalize min m L = n at hn ⊢
  have key : (if L - n > 0 then
        store g.charloop_buffer (g.charloop_data filp.private_data).read_buffer
          (memmove (g.charloop_buffer (g.charloop_data filp.private_data).read_buffer) 0 n (L - n))
      else g.charloop_buffer) (g.charloop_data filp.private_data).read_buffer =
      (if L - n > 0 then
        memmove (g.charloop_buffer (g.charloop_data filp.private_data).read_buffer) 0 n (L - n)
      else g.charloop_buffer (g.charloop_data filp.private_data).read_buffer) := by
    split_ifs
    · exact store_same _ _ _
    · rfl
  rw [key]
  generalize g.charloop_buffer (g.charloop_data filp.private_data).read_buffer = st at hS ⊢
  have htake : (if L - n > 0 then memmove st 0 n (L - n) else st).take (L - n) =
      (st.drop n).take (L - n) := by
    split_ifs with h
    · exact memmove_take st n (L - n) (by omega)
    · have : L - n = 0 := by omega
      simp [this]
  refine ⟨rfl, rfl, htake, ?_, ?_⟩
  · intro i hi
    have h1 : ((if L - n > 0 then memmove st 0 n (L - n) else st).take (L - n)).get? i =
        ((st.drop n).take (L - n)).get? i := by rw [htake]
    simpa [hi, List.getElem?_take, List.getElem?_drop] using h1
  · split_ifs with h
    · exact memmove_length st n (L - n) (by omega)
    · rfl

/-- Witness of C4: capacity 4, buffer 1 holds `"abcd"`; endpoint 1 reads 1 byte:
it gets `"a"` and buffer 1 holds `"bcd"`. -/
theorem read_postcondition_witness :
    0 < pair4_abcd.charloop_buffer_length 1 ∧
    (charloop_read ⟨1, false⟩ 1 [env_ok] pair4_abcd).pc = Pc.done 1 [97] ∧
    (charloop_read ⟨1, false⟩ 1 [env_ok] pair4_abcd).g.charloop_buffer_length 1 = 3 ∧
    ((charloop_read ⟨1, false⟩ 1 [env_ok] pair4_abcd).g.charloop_buffer 1).take 3 =
      [98, 99, 100] :=
  ⟨by decide,
   (read_postcondition ⟨1, false⟩ 1 env_ok [] pair4_abcd (by decide) (by decide) rfl rfl).1,
   (read_postcondition ⟨1, false⟩ 1 env_ok [] pair4_abcd (by decide) (by decide) rfl rfl).2.1,
   (read_postcondition ⟨1, false⟩ 1 env_ok [] pair4_abcd (by decide) (by decide) rfl rfl).2.2.1⟩

theorem kmalloc_block_length (size : Nat) (raw : List Nat) :
    (kmalloc_block size raw).length = size := by
  unfold kmalloc_block
  simp only [List.length_append, List.length_take, List.length_replicate]
  omega

/-- What a successful `charloop_init` leaves: the cross wiring, two empty
buffers, each of `charloop_buffer_size` bytes. -/
theorem init_success (C : Nat) (ienv : InitEnv) (g0 : Globals)
    (h : (charloop_init C ienv g0).1 = 0) :
    (charloop_init C ienv g0).2.1.charloop_data 0 = ⟨0, 0, 0, 0, 1, 1, 1, 1⟩ ∧
    (charloop_init C ienv g0).2.1.charloop_data 1 = ⟨1, 1, 1, 1, 0, 0, 0, 0⟩ ∧
    (∀ b, (charloop_init C ienv g0).2.1.charloop_buffer_length b = 0) ∧
    (∀ b, ((charloop_init C ienv g0).2.1.charloop_buffer b).length = C) := by
  unfold charloop_init at h ⊢
  cases h0 : ienv.kmalloc0 with
  | none => rw [h0] at h; simp [ENOMEM] at h
  | some raw0 =>
    cases h1 : ienv.kmalloc1 with
    | none => rw [h0, h1] at h; simp [ENOMEM] at h
    | some raw1 =>
      rw [h0, h1] at h
      simp only at h ⊢
      by_cases r0 : ienv.register0 = 0
      · by_cases r1 : ienv.register1 = 0
        · simp only [r0, r1, ne_eq, not_true_eq_false, if_false]
          refine ⟨rfl, rfl, ?_, ?_⟩
          · intro b; fin_cases b <;> rfl
          · intro b; fin_cases b <;> simp [store, kmalloc_block_length]
        · simp [r0, r1] at h
      · simp [r0] at h

/-- A write on endpoint `a` followed by a read on endpoint `b`, when `a` writes
into the buffer `x` that `b` reads and `x` is empty. -/
theorem round_trip_on (C : Nat) (g : Globals) (a b x : Fin 2) (bs : List Nat) (m : Nat)
    (nbw nbr : Bool) (ew er : Env) (restw restr : List Env)
    (hwb : (g.charloop_data a).write_buffer = x)
    (hwl : (g.charloop_data a).write_buffer_length = x)
    (hrb : (g.charloop_data b).read_buffer = x)
    (hrl : (g.charloop_data b).read_buffer_length = x)
    (hlen : g.charloop_buffer_length x = 0)
    (hbs : bs ≠ []) (hC : bs.length ≤ C) (hm : bs.length ≤ m)
    (hwlock : ew.lock_ok = true) (hwcopy : ew.copy_ok = true)
    (hrlock : er.lock_ok = true) (hrcopy : er.copy_ok = true) :
    (charloop_write C ⟨a, nbw⟩ bs (ew :: restw) g).pc = Pc.done (bs.length : Int) [] ∧
    (charloop_read ⟨b, nbr⟩ m (er :: restr)
      (charloop_write C ⟨a, nbw⟩ bs (ew :: restw) g).g).pc = Pc.done (bs.length : Int) bs ∧
    (charloop_read ⟨b, nbr⟩ m (er :: restr)
      (charloop_write C ⟨a, nbw⟩ bs (ew :: restw) g).g).g.charloop_buffer_length x = 0 := by
  have hpos : 0 < bs.length := List.length_pos.mpr hbs
  have hne : g.charloop_buffer_length (g.charloop_data (File.mk a nbw).private_data).write_buffer_length
      ≠ C := by
    show g.charloop_buffer_length (g.charloop_data a).write_buffer_length ≠ C
    rw [hwl, hlen]; omega
  obtain ⟨wpc, wlen, wbuf, wdata, -⟩ := write_step_success C ⟨a, nbw⟩ bs ew g hwlock hne hwcopy
  obtain ⟨rpc, rg⟩ := run_first_done (charloop_write_step C ⟨a, nbw⟩ bs)
    (write_step_done C ⟨a, nbw⟩ bs) ew restw Pc.at_lock g _ _ wpc
  simp only [hwl, hwb, hlen, Nat.sub_zero, Nat.min_eq_left hC, Nat.zero_add] at rpc wlen wbuf
  have hg : (charloop_write C ⟨a, nbw⟩ bs (ew :: restw) g).g =
      (charloop_write_step C ⟨a, nbw⟩ bs ew Pc.at_lock g).g := rg
  have hlen' : (charloop_write C ⟨a, nbw⟩ bs (ew :: restw) g).g.charloop_buffer_length x =
      bs.length := by rw [hg, wlen, store_same]
  have hbuf' : (charloop_write C ⟨a, nbw⟩ bs (ew :: restw) g).g.charloop_buffer x =
      copy_in (g.charloop_buffer x) 0 bs bs.length := by rw [hg, wbuf, store_same]
  have hdata' : (charloop_write C ⟨a, nbw⟩ bs (ew :: restw) g).g.charloop_data =
      g.charloop_data := by rw [hg, wdata]
  have htake : (copy_in (g.charloop_buffer x) 0 bs bs.length).take bs.length = bs := by
    have := copy_in_drop_take (g.charloop_buffer x) 0 bs bs.length (Nat.zero_le _)
    simpa using this
  refine ⟨rpc, ?_⟩
  generalize (charloop_write C ⟨a, nbw⟩ bs (ew :: restw) g).g = g1 at hlen' hbuf' hdata'
  have hne1 : g1.charloop_buffer_length
      (g1.charloop_data (File.mk b nbr).private_data).read_buffer_length ≠ 0 := by
    show g1.charloop_buffer_length (g1.charloop_data b).read_buffer_length ≠ 0
    rw [hdata', hrl, hlen']; omega
  obtain ⟨qpc, qlen, -, -, -⟩ := read_step_success ⟨b, nbr⟩ m er g1 hrlock hne1 hrcopy
  obtain ⟨spc, sg⟩ := run_first_done (charloop_read_step ⟨b, nbr⟩ m)
    (read_step_done ⟨b, nbr⟩ m) er restr Pc.at_lock g1 _ _ qpc
  simp only [hdata', hrl, hrb, hlen', hbuf', Nat.min_eq_right hm, htake, Nat.sub_self]
    at spc qlen
  refine ⟨spc, ?_⟩
  show (run (charloop_read_step ⟨b, nbr⟩ m) (er :: restr) Pc.at_lock g1).g.charloop_buffer_length x = 0
  rw [sg, qlen, store_same]

/-- States of a call of `charloop_read` that has not delivered anything. -/
theorem read_empty_step (filp : File) (m : Nat) (env : Env) (pc : Pc) (g : Globals)
    (hlen : g.charloop_buffer_length (g.charloop_data filp.private_data).read_buffer_length = 0)
    (hpc : pc = Pc.at_lock ∨ pc = Pc.at_wait ∨ ∃ r out, pc = Pc.done r out ∧ r < 0) :
    (charloop_read_step filp m env pc g).g = g ∧
    ((charloop_read_step filp m env pc g).pc = Pc.at_lock ∨
     (charloop_read_step filp m env pc g).pc = Pc.at_wait ∨
     ∃ r out, (charloop_read_step filp m env pc g).pc = Pc.done r out ∧ r < 0) := by
  refine ⟨read_step_other filp m env pc g (fun h => h.2.2.1 hlen), ?_⟩
  rcases hpc with rfl | rfl | ⟨r, out, rfl, hr⟩
  · simp only [charloop_read_step, hlen, if_true]
    split_ifs <;> simp [ERESTARTSYS, EAGAIN]
  · simp only [charloop_read_step]
    split_ifs <;> simp [ERESTARTSYS]
  · exact Or.inr (Or.inr ⟨r, out, rfl, hr⟩)

/-- A `charloop_read` on an empty buffer, run alone, never returns a count. -/
theorem read_empty_no_count (filp : File) (m : Nat) (envs : List Env) (pc : Pc) (g : Globals)
    (hlen : g.charloop_buffer_length (g.charloop_data filp.private_data).read_buffer_length = 0)
    (hpc : pc = Pc.at_lock ∨ pc = Pc.at_wait ∨ ∃ r out, pc = Pc.done r out ∧ r < 0)
    (n : Int) (out : List Nat) (hn : 0 ≤ n) :
    (run (charloop_read_step filp m) envs pc g).pc ≠ Pc.done n out := by
  induction envs generalizing pc g with
  | nil =>
    rcases hpc with rfl | rfl | ⟨r, o, rfl, hr⟩
    · simp [run]
    · simp [run]
    · simp only [run, ne_eq, Pc.done.injEq, not_and]
      intro h; omega
  | cons e es ih =>
    obtain ⟨hg, hp⟩ := read_empty_step filp m e pc g hlen hpc
    simp only [run]
    exact ih _ _ (by rw [hg]; exact hlen) hp

/-- C5 as amended (round trip across the pair): on the pair a successful
`charloop_init` leaves, for a non-empty `bs` with `len bs ≤ C` and `m ≥ len bs`,
a write of `bs` on endpoint 0 whose lock and copy succeed returns `len bs`, and
a following read of at most `m` bytes on endpoint 1 whose lock and copy succeed
returns exactly `bs` and leaves the incoming buffer of endpoint 1 empty; and the
same with the endpoints exchanged. -/
theorem round_trip (C : Nat) (ienv : InitEnv) (g0 : Globals) (bs : List Nat) (m : Nat)
    (nbw nbr : Bool) (ew er : Env) (restw restr : List Env)
    (hinit : (charloop_init C ienv g0).1 = 0)
    (hbs : bs ≠ []) (hC : bs.length ≤ C) (hm : bs.length ≤ m)
    (hwlock : ew.lock_ok = true) (hwcopy : ew.copy_ok = true)
    (hrlock : er.lock_ok = true) (hrcopy : er.copy_ok = true) :
    ((charloop_write C ⟨0, nbw⟩ bs (ew :: restw) (charloop_init C ienv g0).2.1).pc =
        Pc.done (bs.length : Int) [] ∧
     (charloop_read ⟨1, nbr⟩ m (er :: restr)
        (charloop_write C ⟨0, nbw⟩ bs (ew :: restw) (charloop_init C ienv g0).2.1).g).pc =
        Pc.done (bs.length : Int) bs ∧
     (charloop_read ⟨1, nbr⟩ m (er :: restr)
        (charloop_write C ⟨0, nbw⟩ bs (ew :: restw)
          (charloop_init C ienv g0).2.1).g).g.charloop_buffer_length 1 = 0) ∧
    ((charloop_write C ⟨1, nbw⟩ bs (ew :: restw) (charloop_init C ienv g0).2.1).pc =
        Pc.done (bs.length : Int) [] ∧
     (charloop_read ⟨0, nbr⟩ m (er :: restr)
        (charloop_write C ⟨1, nbw⟩ bs (ew :: restw) (charloop_init C ienv g0).2.1).g).pc =
        Pc.done (bs.length : Int) bs ∧
     (charloop_read ⟨0, nbr⟩ m (er :: restr)
        (charloop_write C ⟨1, nbw⟩ bs (ew :: restw)
          (charloop_init C ienv g0).2.1).g).g.charloop_buffer_length 0 = 0) := by
  obtain ⟨hd0, hd1, hlen, -⟩ := init_success C ienv g0 hinit
  constructor
  · exact round_trip_on C _ 0 1 1 bs m nbw nbr ew er restw restr
      (by rw [hd0]) (by rw [hd0]) (by rw [hd1]) (by rw [hd1]) (hlen 1) hbs hC hm
      hwlock hwcopy hrlock hrcopy
  · exact round_trip_on C _ 1 0 0 bs m nbw nbr ew er restw restr
      (by rw [hd1]) (by rw [hd1]) (by rw [hd0]) (by rw [hd0]) (hlen 0) hbs hC hm
      hwlock hwcopy hrlock hrcopy

/-- Witness of C5: capacity 4, write `"ab"` on endpoint 0, read with
`max_length = 10` on endpoint 1 returns `"ab"`. -/
theorem round_trip_witness :
    (charloop_init 4 init_env_ok pre_init).1 = 0 ∧
    (charloop_write 4 ⟨0, false⟩ [97, 98] [env_ok] pair4).pc = Pc.done 2 [] ∧
    (charloop_read ⟨1, false⟩ 10 [env_ok]
      (charloop_write 4 ⟨0, false⟩ [97, 98] [env_ok] pair4).g).pc = Pc.done 2 [97, 98] ∧
    (charloop_read ⟨1, false⟩ 10 [env_ok]
      (charloop_write 4 ⟨0, false⟩ [97, 98] [env_ok] pair4).g).g.charloop_buffer_length 1 = 0 :=
  ⟨by decide,
   (round_trip 4 init_env_ok pre_init [97, 98] 10 false false env_ok env_ok [] []
     (by decide) (by decide) (by decide) (by decide) rfl rfl rfl rfl).1⟩

/-- C5 fails as stated for the empty byte sequence (capacity 4, `bs = ""`,
`m = 10`): the write on endpoint 0 returns 0, and then no read on endpoint 1
returns the empty sequence: the non-blocking read returns `-EAGAIN`, the
blocking read goes to sleep, and whatever the kernel answers afterwards the
call, run alone, never returns a count. -/
theorem round_trip_empty_counterexample :
    ([] : List Nat).length ≤ 4 ∧ ([] : List Nat).length ≤ 10 ∧
    (charloop_write 4 ⟨0, false⟩ [] [env_ok] pair4).pc = Pc.done 0 [] ∧
    (charloop_read ⟨1, true⟩ 10 [env_ok]
      (charloop_write 4 ⟨0, false⟩ [] [env_ok] pair4).g).pc = Pc.done (-EAGAIN) [] ∧
    (charloop_read ⟨1, false⟩ 10 [env_ok]
      (charloop_write 4 ⟨0, false⟩ [] [env_ok] pair4).g).pc = Pc.at_wait ∧
    (∀ (nb : Bool) (envs : List Env),
      (charloop_read ⟨1, nb⟩ 10 envs
        (charloop_write 4 ⟨0, false⟩ [] [env_ok] pair4).g).pc ≠ Pc.done 0 []) :=
  ⟨by decide, by decide, by decide, by decide, by decide,
   fun nb envs => read_empty_no_count ⟨1, nb⟩ 10 envs Pc.at_lock _ rfl (Or.inl rfl)
     0 [] (le_refl 0)⟩

/-- No step of `charloop_read` changes the wiring or the minors. -/
theorem read_step_data (filp : File) (length : Nat) (env : Env) (pc : Pc) (g : Globals) :
    (charloop_read_step filp length env pc g).g.charloop_data = g.charloop_data ∧
    (charloop_read_step filp length env pc g).g.charloop_minor = g.charloop_minor := by
  by_cases hs : pc = Pc.at_lock ∧ env.lock_ok = true ∧
      g.charloop_buffer_length (g.charloop_data filp.private_data).read_buffer_length ≠ 0 ∧
      env.copy_ok = true
  · obtain ⟨rfl, hl, hn, hc⟩ := hs
    exact (read_step_success filp length env g hl hn hc).2.2.2
  · rw [read_step_other filp length env pc g hs]
    exact ⟨rfl, rfl⟩

/-- No step of `charloop_write` changes the wiring or the minors. -/
theorem write_step_data (C : Nat) (filp : File) (buffer : List Nat) (env : Env) (pc : Pc)
    (g : Globals) :
    (charloop_write_step C filp buffer env pc g).g.charloop_data = g.charloop_data ∧
    (charloop_write_step C filp buffer env pc g).g.charloop_minor = g.charloop_minor := by
  by_cases hs : pc = Pc.at_lock ∧ env.lock_ok = true ∧
      g.charloop_buffer_length (g.charloop_data filp.private_data).write_buffer_length ≠ C
  · obtain ⟨rfl, hl, hn⟩ := hs
    cases hc : env.copy_ok
    · exact (write_step_fault C filp buffer env g hl hn hc).2.2.2
    · exact (write_step_success C filp buffer env g hl hn hc).2.2.2
  · rw [write_step_other C filp buffer env pc g hs]
    exact ⟨rfl, rfl⟩

/-- A step of `charloop_read` changes nothing but the storage `read_buffer`
points at and the length `read_buffer_length` points at. -/
theorem read_step_frame (filp : File) (length : Nat) (env : Env) (pc : Pc) (g : Globals)
    (b : Fin 2) :
    (b ≠ (g.charloop_data filp.private_data).read_buffer →
      (charloop_read_step filp length env pc g).g.charloop_buffer b = g.charloop_buffer b) ∧
    (b ≠ (g.charloop_data filp.private_data).read_buffer_length →
      (charloop_read_step filp length env pc g).g.charloop_buffer_length b =
        g.charloop_buffer_length b) := by
  by_cases hs : pc = Pc.at_lock ∧ env.lock_ok = true ∧
      g.charloop_buffer_length (g.charloop_data filp.private_data).read_buffer_length ≠ 0 ∧
      env.copy_ok = true
  · obtain ⟨rfl, hl, hn, hc⟩ := hs
    obtain ⟨-, hlen, hbuf, -, -⟩ := read_step_success filp length env g hl hn hc
    rw [hlen, hbuf]
    constructor
    · intro hb
      split_ifs
      · exact store_other _ _ _ _ hb
      · rfl
    · intro hb
      exact store_other _ _ _ _ hb
  · rw [read_step_other filp length env pc g hs]
    exact ⟨fun _ => rfl, fun _ => rfl⟩

/-- A step of `charloop_write` changes nothing but the storage `write_buffer`
points at and the length `write_buffer_length` points at. -/
theorem write_step_frame (C : Nat) (filp : File) (buffer : List Nat) (env : Env) (pc : Pc)
    (g : Globals) (b : Fin 2) :
    (b ≠ (g.charloop_data filp.private_data).write_buffer →
      (charloop_write_step C filp buffer env pc g).g.charloop_buffer b = g.charloop_buffer b) ∧
    (b ≠ (g.charloop_data filp.private_data).write_buffer_length →
      (charloop_write_step C filp buffer env pc g).g.charloop_buffer_length b =
        g.charloop_buffer_length b) := by
  by_cases hs : pc = Pc.at_lock ∧ env.lock_ok = true ∧
      g.charloop_buffer_length (g.charloop_data filp.private_data).write_buffer_length ≠ C
  · obtain ⟨rfl, hl, hn⟩ := hs
    cases hc : env.copy_ok
    · obtain ⟨-, hlen, hbuf, -, -⟩ := write_step_fault C filp buffer env g hl hn hc
      rw [hlen, hbuf]
      exact ⟨fun hb => store_other _ _ _ _ hb, fun _ => rfl⟩
    · obtain ⟨-, hlen, hbuf, -, -⟩ := write_step_success C filp buffer env g hl hn hc
      rw [hlen, hbuf]
      exact ⟨fun hb => store_other _ _ _ _ hb, fun hb => store_other _ _ _ _ hb⟩
  · rw [write_step_other C filp buffer env pc g hs]
    exact ⟨fun _ => rfl, fun _ => rfl⟩

/-- A property of the file-scope variables kept by every step is kept by a run. -/
theorem run_invariant (step : Env → Pc → Globals → Step) (R : Globals → Prop)
    (hR : ∀ e pc g, R g → R (step e pc g).g) (envs : List Env) (pc : Pc) (g : Globals)
    (h : R g) : R (run step envs pc g).g := by
  induction envs generalizing pc g with
  | nil => exact h
  | cons e es ih => exact ih _ _ (hR e pc g h)

/-- Frame of the calls on an endpoint `a` that reads buffer `x` and writes
buffer `y ≠ x`. -/
theorem frame_on (C : Nat) (g : Globals) (a x y : Fin 2) (nb : Bool)
    (hrb : (g.charloop_data a).read_buffer = x)
    (hrl : (g.charloop_data a).read_buffer_length = x)
    (hwb : (g.charloop_data a).write_buffer = y)
    (hwl : (g.charloop_data a).write_buffer_length = y)
    (hxy : x ≠ y) (bs : List Nat) (m : Nat) (envs : List Env) (pc : Pc) :
    ((run (charloop_write_step C ⟨a, nb⟩ bs) envs pc g).g.charloop_buffer x =
        g.charloop_buffer x ∧
     (run (charloop_write_step C ⟨a, nb⟩ bs) envs pc g).g.charloop_buffer_length x =
        g.charloop_buffer_length x ∧
     (run (charloop_write_step C ⟨a, nb⟩ bs) envs pc g).g.charloop_data = g.charloop_data) ∧
    ((run (charloop_read_step ⟨a, nb⟩ m) envs pc g).g.charloop_buffer y =
        g.charloop_buffer y ∧
     (run (charloop_read_step ⟨a, nb⟩ m) envs pc g).g.charloop_buffer_length y =
        g.charloop_buffer_length y ∧
     (run (charloop_read_step ⟨a, nb⟩ m) envs pc g).g.charloop_data = g.charloop_data) := by
  constructor
  · have := run_invariant (charloop_write_step C ⟨a, nb⟩ bs)
      (fun g1 => g1.charloop_buffer x = g.charloop_buffer x ∧
        g1.charloop_buffer_length x = g.charloop_buffer_length x ∧
        g1.charloop_data = g.charloop_data)
      (by
        intro e pc1 g1 ⟨h1, h2, h3⟩
        have hf := write_step_frame C ⟨a, nb⟩ bs e pc1 g1 x
        have hd := (write_step_data C ⟨a, nb⟩ bs e pc1 g1).1
        simp only [h3, hwb, hwl] at hf
        exact ⟨(hf.1 hxy).trans h1, (hf.2 hxy).trans h2, hd.trans h3⟩)
      envs pc g ⟨rfl, rfl, rfl⟩
    exact this
  · have := run_invariant (charloop_read_step ⟨a, nb⟩ m)
      (fun g1 => g1.charloop_buffer y = g.charloop_buffer y ∧
        g1.charloop_buffer_length y = g.charloop_buffer_length y ∧
        g1.charloop_data = g.charloop_data)
      (by
        intro e pc1 g1 ⟨h1, h2, h3⟩
        have hf := read_step_frame ⟨a, nb⟩ m e pc1 g1 y
        have hd := (read_step_data ⟨a, nb⟩ m e pc1 g1).1
        simp only [h3, hrb, hrl] at hf
        exact ⟨(hf.1 hxy.symm).trans h1, (hf.2 hxy.symm).trans h2, hd.trans h3⟩)
      envs pc g ⟨rfl, rfl, rfl⟩
    exact this

/-- C6 (cross-wiring frame): in every state that has the wiring a successful
`charloop_init` sets up, a `charloop_write` on endpoint 0 (from any point of the
call, under any kernel answers) leaves the bytes and the length of buffer 0 as
they are and a `charloop_read` on endpoint 0 leaves buffer 1 as it is; on
endpoint 1 a write leaves buffer 1 and a read leaves buffer 0 as they are; none
changes the wiring.  So a write on an endpoint accepts no byte into the buffer
that endpoint reads, and a read on an endpoint takes no byte out of the buffer
that endpoint writes. -/
theorem cross_wiring_frame (C : Nat) (ienv : InitEnv) (g0 : Globals) (g : Globals)
    (hinit : (charloop_init C ienv g0).1 = 0)
    (hdata : g.charloop_data = (charloop_init C ienv g0).2.1.charloop_data)
    (nb : Bool) (bs : List Nat) (m : Nat) (envs : List Env) (pc : Pc) :
    ((run (charloop_write_step C ⟨0, nb⟩ bs) envs pc g).g.charloop_buffer 0 =
        g.charloop_buffer 0 ∧
     (run (charloop_write_step C ⟨0, nb⟩ bs) envs pc g).g.charloop_buffer_length 0 =
        g.charloop_buffer_length 0 ∧
     (run (charloop_write_step C ⟨0, nb⟩ bs) envs pc g).g.charloop_data = g.charloop_data) ∧
    ((run (charloop_read_step ⟨0, nb⟩ m) envs pc g).g.charloop_buffer 1 =
        g.charloop_buffer 1 ∧
     (run (charloop_read_step ⟨0, nb⟩ m) envs pc g).g.charloop_buffer_length 1 =
        g.charloop_buffer_length 1 ∧
     (run (charloop_read_step ⟨0, nb⟩ m) envs pc g).g.charloop_data = g.charloop_data) ∧
    ((run (charloop_write_step C ⟨1, nb⟩ bs) envs pc g).g.charloop_buffer 1 =
        g.charloop_buffer 1 ∧
     (run (charloop_write_step C ⟨1, nb⟩ bs) envs pc g).g.charloop_buffer_length 1 =
        g.charloop_buffer_length 1 ∧
     (run (charloop_write_step C ⟨1, nb⟩ bs) envs pc g).g.charloop_data = g.charloop_data) ∧
    ((run (charloop_read_step ⟨1, nb⟩ m) envs pc g).g.charloop_buffer 0 =
        g.charloop_buffer 0 ∧
     (run (charloop_read_step ⟨1, nb⟩ m) envs pc g).g.charloop_buffer_length 0 =
        g.charloop_buffer_length 0 ∧
     (run (charloop_read_step ⟨1, nb⟩ m) envs pc g).g.charloop_data = g.charloop_data) ∧
    (∀ (a : Fin 2) (before after : Pc),
      (Call.write ⟨a, nb⟩ bs).accepted g before after a = [] ∧
      (Call.read ⟨a, nb⟩ m).taken g before after (1 - a) = []) := by
  obtain ⟨hd0, hd1, -, -⟩ := init_success C ienv g0 hinit
  rw [← hdata] at hd0 hd1
  have f0 := frame_on C g 0 0 1 nb (by rw [hd0]) (by rw [hd0]) (by rw [hd0]) (by rw [hd0])
    (by decide) bs m envs pc
  have f1 := frame_on C g 1 1 0 nb (by rw [hd1]) (by rw [hd1]) (by rw [hd1]) (by rw [hd1])
    (by decide) bs m envs pc
  refine ⟨f0.1, f0.2, f1.1, f1.2, ?_⟩
  intro a before after
  constructor
  · fin_cases a <;> cases before <;> cases after <;> simp [Call.accepted, hd0, hd1]
  · fin_cases a <;> cases before <;> cases after <;> simp [Call.taken, hd0, hd1]

/-- Witness of C6: capacity 4, buffer 1 holds `"ab"`; a write of `"c"` on
endpoint 0 leaves buffer 0 as it is, and a read on endpoint 0 leaves buffer 1
as it is. -/
theorem cross_wiring_frame_witness :
    (charloop_init 4 init_env_ok pre_init).1 = 0 ∧
    pair4_ab.charloop_data = (charloop_init 4 init_env_ok pre_init).2.1.charloop_data ∧
    (charloop_write 4 ⟨0, false⟩ [99] [env_ok] pair4_ab).g.charloop_buffer 0 =
      pair4_ab.charloop_buffer 0 ∧
    (charloop_read ⟨0, false⟩ 1 [env_ok] pair4_ab).g.charloop_buffer 1 =
      pair4_ab.charloop_buffer 1 :=
  ⟨by decide, rfl,
   (cross_wiring_frame 4 init_env_ok pre_init pair4_ab (by decide) rfl false [99] 1 [env_ok]
     Pc.at_lock).1.1,
   (cross_wiring_frame 4 init_env_ok pre_init pair4_ab (by decide) rfl false [99] 1 [env_ok]
     Pc.at_lock).2.1.1⟩

/-- A call whose first step returns has done what that step did. -/
theorem run_first_done_acts (step : Env → Pc → Globals → Step)
    (hstep : ∀ e ret out g, step e (Pc.done ret out) g = ⟨Pc.done ret out, g, []⟩)
    (e : Env) (rest : List Env) (pc : Pc) (g : Globals) (ret : Int) (out : List Nat)
    (h : (step e pc g).pc = Pc.done ret out) :
    (run step (e :: rest) pc g).acts = (step e pc g).acts := by
  simp only [run, h, run_done step hstep, List.append_nil]

/-- The first step of a non-blocking `charloop_read` whose lock is acquired. -/
theorem read_step_nonblock (filp : File) (length : Nat) (env : Env) (g : Globals)
    (hnb : filp.nonblock = true) (hlock : env.lock_ok = true) :
    (g.charloop_buffer_length (g.charloop_data filp.private_data).read_buffer_length = 0 →
      (charloop_read_step filp length env Pc.at_lock g).pc = Pc.done (-EAGAIN) [] ∧
      (charloop_read_step filp length env Pc.at_lock g).g = g) ∧
    (g.charloop_buffer_length (g.charloop_data filp.private_data).read_buffer_length ≠ 0 →
      ∃ ret out, (charloop_read_step filp length env Pc.at_lock g).pc = Pc.done ret out ∧
        ret ≠ -EAGAIN) ∧
    (∀ q, Act.wait_event q ∉ (charloop_read_step filp length env Pc.at_lock g).acts) := by
  refine ⟨?_, ?_, ?_⟩
  · intro h0
    simp [charloop_read_step, hlock, hnb, h0]
  · intro h0
    cases hc : env.copy_ok
    · exact ⟨-EFAULT, [], by simp [charloop_read_step, hlock, h0, hc], by decide⟩
    · obtain ⟨hpc, -⟩ := read_step_success filp length env g hlock h0 hc
      exact ⟨_, _, hpc, by simp only [EAGAIN]; omega⟩
  · intro q
    simp only [charloop_read_step, hlock, hnb]
    split_ifs <;> simp

/-- The first step of a non-blocking `charloop_write` whose lock is acquired. -/
theorem write_step_nonblock (C : Nat) (filp : File) (bs : List Nat) (env : Env) (g : Globals)
    (hnb : filp.nonblock = true) (hlock : env.lock_ok = true) :
    (g.charloop_buffer_length (g.charloop_data filp.private_data).write_buffer_length = C →
      (charloop_write_step C filp bs env Pc.at_lock g).pc = Pc.done (-EAGAIN) [] ∧
      (charloop_write_step C filp bs env Pc.at_lock g).g = g) ∧
    (g.charloop_buffer_length (g.charloop_data filp.private_data).write_buffer_length ≠ C →
      ∃ ret out, (charloop_write_step C filp bs env Pc.at_lock g).pc = Pc.done ret out ∧
        ret ≠ -EAGAIN) ∧
    (∀ q, Act.wait_event q ∉ (charloop_write_step C filp bs env Pc.at_lock g).acts) := by
  refine ⟨?_, ?_, ?_⟩
  · intro h0
    simp [charloop_write_step, hlock, hnb, h0]
  · intro h0
    cases hc : env.copy_ok
    · exact ⟨-EFAULT, [], (write_step_fault C filp bs env g hlock h0 hc).1, by decide⟩
    · obtain ⟨hpc, -⟩ := write_step_success C filp bs env g hlock h0 hc
      exact ⟨_, _, hpc, by simp only [EAGAIN]; omega⟩
  · intro q
    simp only [charloop_write_step, hlock, hnb]
    split_ifs <;> simp

/-- C7 (non-blocking mode): with `O_NONBLOCK` set and the lock acquired,
`charloop_read` returns `-EAGAIN` if and only if the incoming length is 0, and
`charloop_write` (of any bytes, also of none) returns `-EAGAIN` if and only if
the outgoing length equals the capacity; in both cases the file-scope variables
are left as they are; and whatever the lengths, the call returns at its first
step without ever calling `wait_event_interruptible`. -/
theorem nonblocking_would_block (C : Nat) (filp : File) (length : Nat) (bs : List Nat)
    (env : Env) (rest : List Env) (g : Globals)
    (hnb : filp.nonblock = true) (hlock : env.lock_ok = true) :
    (((∃ out, (charloop_read filp length (env :: rest) g).pc = Pc.done (-EAGAIN) out) ↔
        g.charloop_buffer_length (g.charloop_data filp.private_data).read_buffer_length = 0) ∧
     (g.charloop_buffer_length (g.charloop_data filp.private_data).read_buffer_length = 0 →
        (charloop_read filp length (env :: rest) g).g = g) ∧
     (∃ ret out, (charloop_read filp length (env :: rest) g).pc = Pc.done ret out) ∧
     (∀ q, Act.wait_event q ∉ (charloop_read filp length (env :: rest) g).acts)) ∧
    (((∃ out, (charloop_write C filp bs (env :: rest) g).pc = Pc.done (-EAGAIN) out) ↔
        g.charloop_buffer_length (g.charloop_data filp.private_data).write_buffer_length = C) ∧
     (g.charloop_buffer_length (g.charloop_data filp.private_data).write_buffer_length = C →
        (charloop_write C filp bs (env :: rest) g).g = g) ∧
     (∃ ret out, (charloop_write C filp bs (env :: rest) g).pc = Pc.done ret out) ∧
     (∀ q, Act.wait_event q ∉ (charloop_write C filp bs (env :: rest) g).acts)) := by
  constructor
  · obtain ⟨hz, hnz, hw⟩ := read_step_nonblock filp length env g hnb hlock
    have hret : ∃ ret out, (charloop_read_step filp length env Pc.at_lock g).pc =
        Pc.done ret out ∧
        (ret = -EAGAIN ↔ g.charloop_buffer_length
          (g.charloop_data filp.private_data).read_buffer_length = 0) := by
      by_cases h0 : g.charloop_buffer_length
          (g.charloop_data filp.private_data).read_buffer_length = 0
      · exact ⟨_, _, (hz h0).1, by simp [h0]⟩
      · obtain ⟨ret, out, hpc, hne⟩ := hnz h0
        exact ⟨ret, out, hpc, by simp [h0, hne]⟩
    obtain ⟨ret, out, hpc, hiff⟩ := hret
    obtain ⟨rpc, rg⟩ := run_first_done (charloop_read_step filp length)
      (read_step_done filp length) env rest Pc.at_lock g ret out hpc
    have racts := run_first_done_acts (charloop_read_step filp length)
      (read_step_done filp length) env rest Pc.at_lock g ret out hpc
    unfold charloop_read
    rw [rpc, rg, racts]
    refine ⟨?_, fun h0 => (hz h0).2, ⟨ret, out, rfl⟩, hw⟩
    rw [← hiff]
    constructor
    · rintro ⟨o, ho⟩
      exact (Pc.done.inj ho).1
    · intro h
      exact ⟨out, by rw [h]⟩
  · obtain ⟨hz, hnz, hw⟩ := write_step_nonblock C filp bs env g hnb hlock
    have hret : ∃ ret out, (charloop_write_step C filp bs env Pc.at_lock g).pc =
        Pc.done ret out ∧
        (ret = -EAGAIN ↔ g.charloop_buffer_length
          (g.charloop_data filp.private_data).write_buffer_length = C) := by
      by_cases h0 : g.charloop_buffer_length
          (g.charloop_data filp.private_data).write_buffer_length = C
      · exact ⟨_, _, (hz h0).1, by simp [h0]⟩
      · obtain ⟨ret, out, hpc, hne⟩ := hnz h0
        exact ⟨ret, out, hpc, by simp [h0, hne]⟩
    obtain ⟨ret, out, hpc, hiff⟩ := hret
    obtain ⟨rpc, rg⟩ := run_first_done (charloop_write_step C filp bs)
      (write_step_done C filp bs) env rest Pc.at_lock g ret out hpc
    have racts := run_first_done_acts (charloop_write_step C filp bs)
      (write_step_done C filp bs) env rest Pc.at_lock g ret out hpc
    unfold charloop_write
    rw [rpc, rg, racts]
    refine ⟨?_, fun h0 => (hz h0).2, ⟨ret, out, rfl⟩, hw⟩
    rw [← hiff]
    constructor
    · rintro ⟨o, ho⟩
      exact (Pc.done.inj ho).1
    · intro h
      exact ⟨out, by rw [h]⟩

/-- Witness of C7: capacity 4, the buffer holds `"abcd"`; the non-blocking write
of `"e"` returns `-EAGAIN`. -/
theorem nonblocking_would_block_witness :
    pair4_abcd.charloop_buffer_length 1 = 4 ∧
    (∃ out, (charloop_write 4 ⟨0, true⟩ [101] [env_ok] pair4_abcd).pc =
      Pc.done (-EAGAIN) out) ∧
    (charloop_write 4 ⟨0, true⟩ [101] [env_ok] pair4_abcd).g = pair4_abcd :=
  ⟨by decide,
   ((nonblocking_would_block 4 ⟨0, true⟩ 1 [101] env_ok [] pair4_abcd rfl rfl).2.1).mpr
     (by decide),
   (nonblocking_would_block 4 ⟨0, true⟩ 1 [101] env_ok [] pair4_abcd rfl rfl).2.2.1
     (by decide)⟩

/-- A step of `charloop_read` that changes a file-scope variable returns a count. -/
theorem read_step_changes (filp : File) (length : Nat) (e : Env) (pc : Pc) (g : Globals) :
    (charloop_read_step filp length e pc g).g = g ∨
    ∃ ret out, (charloop_read_step filp length e pc g).pc = Pc.done ret out ∧
      ret ≠ -ERESTARTSYS := by
  by_cases hs : pc = Pc.at_lock ∧ e.lock_ok = true ∧
      g.charloop_buffer_length (g.charloop_data filp.private_data).read_buffer_length ≠ 0 ∧
      e.copy_ok = true
  · obtain ⟨rfl, hl, hn, hc⟩ := hs
    exact Or.inr ⟨_, _, (read_step_success filp length e g hl hn hc).1,
      by simp only [ERESTARTSYS]; omega⟩
  · exact Or.inl (read_step_other filp length e pc g hs)

/-- A step of `charloop_write` that changes a file-scope variable returns a
count or `-EFAULT`. -/
theorem write_step_changes (C : Nat) (filp : File) (bs : List Nat) (e : Env) (pc : Pc)
    (g : Globals) :
    (charloop_write_step C filp bs e pc g).g = g ∨
    ∃ ret out, (charloop_write_step C filp bs e pc g).pc = Pc.done ret out ∧
      ret ≠ -ERESTARTSYS := by
  by_cases hs : pc = Pc.at_lock ∧ e.lock_ok = true ∧
      g.charloop_buffer_length (g.charloop_data filp.private_data).write_buffer_length ≠ C
  · obtain ⟨rfl, hl, hn⟩ := hs
    cases hc : e.copy_ok
    · exact Or.inr ⟨_, _, (write_step_fault C filp bs e g hl hn hc).1, by decide⟩
    · exact Or.inr ⟨_, _, (write_step_success C filp bs e g hl hn hc).1,
        by simp only [ERESTARTSYS]; omega⟩
  · exact Or.inl (write_step_other C filp bs e pc g hs)

/-- A run that ends with `-ERESTARTSYS` has changed no file-scope variable. -/
theorem run_interrupted (step : Env → Pc → Globals → Step)
    (hdone : ∀ e ret out g, step e (Pc.done ret out) g = ⟨Pc.done ret out, g, []⟩)
    (hstep : ∀ e pc g, (step e pc g).g = g ∨
      ∃ ret out, (step e pc g).pc = Pc.done ret out ∧ ret ≠ -ERESTARTSYS)
    (envs : List Env) (pc : Pc) (g : Globals) (out : List Nat)
    (h : (run step envs pc g).pc = Pc.done (-ERESTARTSYS) out) :
    (run step envs pc g).g = g := by
  induction envs generalizing pc g with
  | nil => rfl
  | cons e es ih =>
    simp only [run] at h ⊢
    rcases hstep e pc g with hg | ⟨ret, o, hpc, hne⟩
    · rw [ih _ _ h, hg]
    · rw [hpc, run_done step hdone] at h
      exact absurd (Pc.done.inj h).1 hne

/-- C8 (interrupted is atomic): in `charloop_read` and in `charloop_write`, a
cancelled lock acquisition (the first one or one after a wake-up) and a
cancelled wait make the call return `-ERESTARTSYS` at that step with the
file-scope variables as they were; and a call that returns `-ERESTARTSYS` has
changed neither the bytes nor the length of either buffer in any of its steps. -/
theorem interrupted_atomic (C : Nat) (filp : File) (length : Nat) (bs : List Nat)
    (g : Globals) :
    (∀ env, env.lock_ok = false →
      (charloop_read_step filp length env Pc.at_lock g).pc = Pc.done (-ERESTARTSYS) [] ∧
      (charloop_read_step filp length env Pc.at_lock g).g = g ∧
      (charloop_write_step C filp bs env Pc.at_lock g).pc = Pc.done (-ERESTARTSYS) [] ∧
      (charloop_write_step C filp bs env Pc.at_lock g).g = g) ∧
    (∀ env, env.wait_ok = false →
      (charloop_read_step filp length env Pc.at_wait g).pc = Pc.done (-ERESTARTSYS) [] ∧
      (charloop_read_step filp length env Pc.at_wait g).g = g ∧
      (charloop_write_step C filp bs env Pc.at_wait g).pc = Pc.done (-ERESTARTSYS) [] ∧
      (charloop_write_step C filp bs env Pc.at_wait g).g = g) ∧
    (∀ envs out, (charloop_read filp length envs g).pc = Pc.done (-ERESTARTSYS) out →
      (charloop_read filp length envs g).g = g) ∧
    (∀ envs out, (charloop_write C filp bs envs g).pc = Pc.done (-ERESTARTSYS) out →
      (charloop_write C filp bs envs g).g = g) := by
  refine ⟨?_, ?_, ?_, ?_⟩
  · intro env h
    simp [charloop_read_step, charloop_write_step, h]
  · intro env h
    simp [charloop_read_step, charloop_write_step, h]
  · intro envs out h
    exact run_interrupted (charloop_read_step filp length) (read_step_done filp length)
      (read_step_changes filp length) envs Pc.at_lock g out h
  · intro envs out h
    exact run_interrupted (charloop_write_step C filp bs) (write_step_done C filp bs)
      (write_step_changes C filp bs) envs Pc.at_lock g out h

/-- Witness of C8: a blocking read on the empty buffer 0 of the fresh pair goes
to sleep and is interrupted there: it returns `-ERESTARTSYS` and the length is
still 0. -/
theorem interrupted_atomic_witness :
    (charloop_read ⟨0, false⟩ 1 [env_ok, ⟨true, false, true, []⟩] pair4).pc =
      Pc.done (-ERESTARTSYS) [] ∧
    (charloop_read ⟨0, false⟩ 1 [env_ok, ⟨true, false, true, []⟩] pair4).g = pair4 ∧
    (charloop_read ⟨0, false⟩ 1 [env_ok, ⟨true, false, true, []⟩]
      pair4).g.charloop_buffer_length 0 = 0 :=
  ⟨by decide,
   (interrupted_atomic 4 ⟨0, false⟩ 1 [] pair4).2.2.1 [env_ok, ⟨true, false, true, []⟩] []
     (by decide),
   by decide⟩

/-- C9 (fault is atomic): when the lock is acquired and the user copy fails,
`charloop_read` (on a non-empty buffer) returns `-EFAULT` and leaves every
file-scope variable as it was; `charloop_write` (on a buffer that is not full,
whose storage holds at least `length` bytes) returns `-EFAULT`, leaves both
lengths as they were and leaves the valid data (the first `length` bytes) of
both buffers as it was, whatever the failed copy left behind it: only bytes at
positions `≥ length` of the target storage may differ, and the other storage is
untouched. -/
theorem fault_atomic (C : Nat) (filp : File) (length : Nat) (bs : List Nat) (env : Env)
    (rest : List Env) (g : Globals)
    (hlock : env.lock_ok = true) (hcopy : env.copy_ok = false)
    (hw : (g.charloop_data filp.private_data).write_buffer =
      (g.charloop_data filp.private_data).write_buffer_length)
    (hS : g.charloop_buffer_length (g.charloop_data filp.private_data).write_buffer_length ≤
      (g.charloop_buffer (g.charloop_data filp.private_data).write_buffer).length) :
    (g.charloop_buffer_length (g.charloop_data filp.private_data).read_buffer_length ≠ 0 →
      (charloop_read filp length (env :: rest) g).pc = Pc.done (-EFAULT) [] ∧
      (charloop_read filp length (env :: rest) g).g = g) ∧
    (g.charloop_buffer_length (g.charloop_data filp.private_data).write_buffer_length ≠ C →
      (charloop_write C filp bs (env :: rest) g).pc = Pc.done (-EFAULT) [] ∧
      (charloop_write C filp bs (env :: rest) g).g.charloop_buffer_length =
        g.charloop_buffer_length ∧
      (∀ b, valid (charloop_write C filp bs (env :: rest) g).g b = valid g b) ∧
      (∀ i, i < g.charloop_buffer_length
          (g.charloop_data filp.private_data).write_buffer_length →
        ((charloop_write C filp bs (env :: rest) g).g.charloop_buffer
          (g.charloop_data filp.private_data).write_buffer).get? i =
        (g.charloop_buffer (g.charloop_data filp.private_data).write_buffer).get? i) ∧
      (∀ b, b ≠ (g.charloop_data filp.private_data).write_buffer →
        (charloop_write C filp bs (env :: rest) g).g.charloop_buffer b =
          g.charloop_buffer b)) := by
  constructor
  · intro h0
    have hpc : (charloop_read_step filp length env Pc.at_lock g).pc = Pc.done (-EFAULT) [] := by
      simp [charloop_read_step, hlock, h0, hcopy]
    obtain ⟨rpc, rg⟩ := run_first_done (charloop_read_step filp length)
      (read_step_done filp length) env rest Pc.at_lock g _ _ hpc
    exact ⟨rpc, rg.trans (read_step_other filp length env Pc.at_lock g (by simp [hcopy]))⟩
  · intro h0
    obtain ⟨hpc, hlen, hbuf, -, -⟩ := write_step_fault C filp bs env g hlock h0 hcopy
    obtain ⟨rpc, rg⟩ := run_first_done (charloop_write_step C filp bs)
      (write_step_done C filp bs) env rest Pc.at_lock g _ _ hpc
    unfold charloop_write
    rw [rpc, rg, hlen, hbuf]
    have htake := copy_in_take
      (g.charloop_buffer (g.charloop_data filp.private_data).write_buffer)
      (g.charloop_buffer_length (g.charloop_data filp.private_data).write_buffer_length)
      env.junk
      (min bs.length
        (C - g.charloop_buffer_length (g.charloop_data filp.private_data).write_buffer_length))
      hS
    refine ⟨rfl, rfl, ?_, ?_, ?_⟩
    · intro b
      unfold valid
      rw [hlen, hbuf]
      by_cases hb : b = (g.charloop_data filp.private_data).write_buffer
      · subst hb
        rw [store_same]
        rw [← hw] at htake ⊢
        exact htake
      · rw [store_other _ _ _ _ hb]
    · intro i hi
      rw [store_same]
      have := congrArg (fun l => l.get? i) htake
      simpa [List.getElem?_take, hi] using this
    · intro b hb
      exact store_other _ _ _ _ hb

/-- Witness of C9: capacity 4, buffer 1 holds `"ab"`; a write of three bytes on
endpoint 0 whose copy faults after leaving bytes behind returns `-EFAULT`; the
length is still 2 and the valid data still `"ab"`. -/
theorem fault_atomic_witness :
    pair4_ab.charloop_buffer_length 1 ≠ 4 ∧
    (charloop_write 4 ⟨0, false⟩ [1, 2, 3] [⟨true, true, false, [5, 6, 7]⟩] pair4_ab).pc =
      Pc.done (-EFAULT) [] ∧
    (charloop_write 4 ⟨0, false⟩ [1, 2, 3] [⟨true, true, false, [5, 6, 7]⟩]
      pair4_ab).g.charloop_buffer_length = pair4_ab.charloop_buffer_length ∧
    (∀ b, valid (charloop_write 4 ⟨0, false⟩ [1, 2, 3] [⟨true, true, false, [5, 6, 7]⟩]
      pair4_ab).g b = valid pair4_ab b) ∧
    (charloop_write 4 ⟨0, false⟩ [1, 2, 3] [⟨true, true, false, [5, 6, 7]⟩]
      pair4_ab).g.charloop_buffer 1 = [97, 98, 5, 6] :=
  ⟨by decide,
   ((fault_atomic 4 ⟨0, false⟩ 1 [1, 2, 3] ⟨true, true, false, [5, 6, 7]⟩ [] pair4_ab
      rfl rfl (by decide) (by decide)).2 (by decide)).1,
   ((fault_atomic 4 ⟨0, false⟩ 1 [1, 2, 3] ⟨true, true, false, [5, 6, 7]⟩ [] pair4_ab
      rfl rfl (by decide) (by decide)).2 (by decide)).2.1,
   ((fault_atomic 4 ⟨0, false⟩ 1 [1, 2, 3] ⟨true, true, false, [5, 6, 7]⟩ [] pair4_ab
      rfl rfl (by decide) (by decide)).2 (by decide)).2.2.1,
   by decide⟩

/-- The two steps of a `charloop_poll` whose lock acquisitions both succeed. -/
theorem poll_run_ok (C : Nat) (filp : File) (e1 e2 : Env) (rest : List Env) (g : Globals)
    (h1 : e1.lock_ok = true) (h2 : e2.lock_ok = true) :
    (charloop_poll C filp (e1 :: e2 :: rest) g).pc =
      Pc.done ((to_uint ((if g.charloop_buffer_length
            (g.charloop_data filp.private_data).write_buffer_length ≠ C then
          (if g.charloop_buffer_length
              (g.charloop_data filp.private_data).read_buffer_length ≠ 0 then
            0 ||| POLLIN ||| POLLRDNORM else 0) ||| POLLOUT ||| POLLWRNORM
        else
          (if g.charloop_buffer_length
              (g.charloop_data filp.private_data).read_buffer_length ≠ 0 then
            0 ||| POLLIN ||| POLLRDNORM else 0) : Nat) : Int) : Nat) : Int) [] ∧
    (charloop_poll C filp (e1 :: e2 :: rest) g).g = g := by
  have hs1 : charloop_poll_step C filp e1 Pc.at_lock g =
      ⟨Pc.at_poll_write (if g.charloop_buffer_length
          (g.charloop_data filp.private_data).read_buffer_length ≠ 0 then
        0 ||| POLLIN ||| POLLRDNORM else 0), g,
        [Act.poll_wait (g.charloop_data filp.private_data).read_wq,
         Act.poll_wait (g.charloop_data filp.private_data).write_wq,
         Act.mutex_lock (g.charloop_data filp.private_data).read_mutex,
         Act.access_length (g.charloop_data filp.private_data).read_buffer_length,
         Act.mutex_unlock (g.charloop_data filp.private_data).read_mutex]⟩ := by
    simp [charloop_poll_step, h1]
  have hs2 : ∀ r, (charloop_poll_step C filp e2 (Pc.at_poll_write r) g).pc =
      Pc.done ((to_uint ((if g.charloop_buffer_length
            (g.charloop_data filp.private_data).write_buffer_length ≠ C then
          r ||| POLLOUT ||| POLLWRNORM else r : Nat) : Int) : Nat) : Int) [] ∧
      (charloop_poll_step C filp e2 (Pc.at_poll_write r) g).g = g := by
    intro r
    simp [charloop_poll_step, h2]
  unfold charloop_poll
  simp only [run, hs1]
  obtain ⟨p2, g2⟩ := hs2 (if g.charloop_buffer_length
          (g.charloop_data filp.private_data).read_buffer_length ≠ 0 then
        0 ||| POLLIN ||| POLLRDNORM else 0)
  rw [p2, g2, run_done _ (poll_step_done C filp)]
  exact ⟨rfl, rfl⟩

/-- C10 (poll result): when both lock acquisitions succeed, `charloop_poll`
returns a mask in which `POLLIN` and `POLLRDNORM` are set if and only if the
incoming length is not 0, `POLLOUT` and `POLLWRNORM` are set if and only if the
outgoing length is not the capacity, and no other bit is set; the file-scope
variables are left as they were. -/
theorem poll_result (C : Nat) (filp : File) (e1 e2 : Env) (rest : List Env) (g : Globals)
    (h1 : e1.lock_ok = true) (h2 : e2.lock_ok = true) :
    ∃ mask : Nat,
      (charloop_poll C filp (e1 :: e2 :: rest) g).pc = Pc.done (mask : Int) [] ∧
      (mask &&& POLLIN = POLLIN ↔
        g.charloop_buffer_length (g.charloop_data filp.private_data).read_buffer_length ≠ 0) ∧
      (mask &&& POLLRDNORM = POLLRDNORM ↔
        g.charloop_buffer_length (g.charloop_data filp.private_data).read_buffer_length ≠ 0) ∧
      (mask &&& POLLOUT = POLLOUT ↔
        g.charloop_buffer_length (g.charloop_data filp.private_data).write_buffer_length ≠ C) ∧
      (mask &&& POLLWRNORM = POLLWRNORM ↔
        g.charloop_buffer_length (g.charloop_data filp.private_data).write_buffer_length ≠ C) ∧
      mask &&& (POLLIN ||| POLLRDNORM ||| POLLOUT ||| POLLWRNORM) = mask ∧
      mask = ((if g.charloop_buffer_length
            (g.charloop_data filp.private_data).read_buffer_length ≠ 0 then
          POLLIN ||| POLLRDNORM else 0) |||
        (if g.charloop_buffer_length
            (g.charloop_data filp.private_data).write_buffer_length ≠ C then
          POLLOUT ||| POLLWRNORM else 0)) ∧
      (charloop_poll C filp (e1 :: e2 :: rest) g).g = g := by
  obtain ⟨hpc, hg⟩ := poll_run_ok C filp e1 e2 rest g h1 h2
  refine ⟨_, hpc, ?_⟩
  by_cases hr : g.charloop_buffer_length
      (g.charloop_data filp.private_data).read_buffer_length = 0 <;>
  by_cases hwr : g.charloop_buffer_length
      (g.charloop_data filp.private_data).write_buffer_length = C <;>
  simp only [hr, hwr, ne_eq, not_true_eq_false, not_false_eq_true, if_true, if_false,
    true_iff, iff_true, iff_false] <;>
  exact ⟨by decide, by decide, by decide, by decide, by decide, by decide, hg⟩

/-- Witness of C10: on the fresh pair of capacity 4 (incoming empty, outgoing
not full) the poll on endpoint 0 reports not readable and writable: the mask is
`POLLOUT | POLLWRNORM`. -/
theorem poll_result_witness :
    env_ok.lock_ok = true ∧
    (charloop_poll 4 ⟨0, false⟩ [env_ok, env_ok] pair4).pc =
      Pc.done ((POLLOUT ||| POLLWRNORM : Nat) : Int) [] ∧
    (∃ mask : Nat,
      (charloop_poll 4 ⟨0, false⟩ [env_ok, env_ok] pair4).pc = Pc.done (mask : Int) [] ∧
      (mask &&& POLLIN = POLLIN ↔
        pair4.charloop_buffer_length
          (pair4.charloop_data (File.mk 0 false).private_data).read_buffer_length ≠ 0) ∧
      (mask &&& POLLRDNORM = POLLRDNORM ↔
        pair4.charloop_buffer_length
          (pair4.charloop_data (File.mk 0 false).private_data).read_buffer_length ≠ 0) ∧
      (mask &&& POLLOUT = POLLOUT ↔
        pair4.charloop_buffer_length
          (pair4.charloop_data (File.mk 0 false).private_data).write_buffer_length ≠ 4) ∧
      (mask &&& POLLWRNORM = POLLWRNORM ↔
        pair4.charloop_buffer_length
          (pair4.charloop_data (File.mk 0 false).private_data).write_buffer_length ≠ 4) ∧
      mask &&& (POLLIN ||| POLLRDNORM ||| POLLOUT ||| POLLWRNORM) = mask ∧
      mask = ((if pair4.charloop_buffer_length
            (pair4.charloop_data (File.mk 0 false).private_data).read_buffer_length ≠ 0 then
          POLLIN ||| POLLRDNORM else 0) |||
        (if pair4.charloop_buffer_length
            (pair4.charloop_data (File.mk 0 false).private_data).write_buffer_length ≠ 4 then
          POLLOUT ||| POLLWRNORM else 0)) ∧
      (charloop_poll 4 ⟨0, false⟩ [env_ok, env_ok] pair4).g = pair4) :=
  ⟨rfl, by decide, poll_result 4 ⟨0, false⟩ env_ok env_ok [] pair4 rfl rfl⟩

theorem take_split (st : List Nat) (n L : Nat) (h : n ≤ L) :
    st.take n ++ (st.drop n).take (L - n) = st.take L := by
  have := List.take_add st n (L - n)
  rw [Nat.add_sub_cancel' h] at this
  exact this.symm

theorem copy_in_valid (st : List Nat) (L : Nat) (src : List Nat) (n : Nat)
    (hL : L ≤ st.length) (hn : n ≤ src.length) :
    (copy_in st L src n).take (L + n) = st.take L ++ src.take n := by
  unfold copy_in
  exact List.take_left' (by simp [hL, hn])

/-- A successful `charloop_init` leaves a well-formed state. -/
theorem init_wellformed (C : Nat) (ienv : InitEnv) (g0 : Globals)
    (h : (charloop_init C ienv g0).1 = 0) :
    WellFormed C (charloop_init C ienv g0).2.1 := by
  obtain ⟨hd0, hd1, hlen, hS⟩ := init_success C ienv g0 h
  refine ⟨?_, fun b => ⟨by rw [hlen b]; exact Nat.zero_le _, hS b⟩⟩
  intro a
  fin_cases a
  · simp only [Fin.zero_eta]; rw [hd0]; exact ⟨rfl, rfl⟩
  · simp only [Fin.mk_one]; rw [hd1]; exact ⟨rfl, rfl⟩

/-- A step of `charloop_read` keeps the state well formed, and what it hands out
of a buffer, followed by what stays valid in it, is what was valid in it. -/
theorem read_step_fifo (C : Nat) (filp : File) (m : Nat) (env : Env) (pc : Pc) (g : Globals)
    (hwf : WellFormed C g) :
    WellFormed C (charloop_read_step filp m env pc g).g ∧
    ∀ b, (Call.read filp m).taken g pc (charloop_read_step filp m env pc g).pc b ++
        valid (charloop_read_step filp m env pc g).g b = valid g b := by
  obtain ⟨hwire, hbuf⟩ := hwf
  by_cases hs : pc = Pc.at_lock ∧ env.lock_ok = true ∧
      g.charloop_buffer_length (g.charloop_data filp.private_data).read_buffer_length ≠ 0 ∧
      env.copy_ok = true
  · obtain ⟨rfl, hl, hn, hc⟩ := hs
    obtain ⟨hpc, hlen, hst, hdata, -⟩ := read_step_success filp m env g hl hn hc
    have hrb := (hwire filp.private_data).1
    rw [← hrb] at hpc hlen hst
    have hLC := (hbuf (g.charloop_data filp.private_data).read_buffer).1
    have hSC := (hbuf (g.charloop_data filp.private_data).read_buffer).2
    have hmin : min m (g.charloop_buffer_length (g.charloop_data filp.private_data).read_buffer)
        ≤ g.charloop_buffer_length (g.charloop_data filp.private_data).read_buffer :=
      Nat.min_le_right _ _
    refine ⟨⟨by rw [hdata]; exact hwire, ?_⟩, ?_⟩
    · intro b
      rw [hlen, hst]
      by_cases hb : b = (g.charloop_data filp.private_data).read_buffer
      · subst hb
        rw [store_same]
        refine ⟨le_trans (Nat.sub_le _ _) hLC, ?_⟩
        split_ifs
        · rw [store_same, memmove_length _ _ _ (by omega)]; exact hSC
        · exact hSC
      · rw [store_other _ _ _ _ hb]
        refine ⟨(hbuf b).1, ?_⟩
        split_ifs
        · rw [store_other _ _ _ _ hb]; exact (hbuf b).2
        · exact (hbuf b).2
    · intro b
      rw [hpc]
      unfold valid
      rw [hlen, hst]
      simp only [Call.taken, Int.natCast_nonneg, true_and]
      by_cases hb : b = (g.charloop_data filp.private_data).read_buffer
      · subst hb
        rw [if_pos rfl, store_same]
        split_ifs with hpos
        · rw [store_same, memmove_take _ _ _ (by omega)]
          exact take_split _ _ _ hmin
        · have h0 : g.charloop_buffer_length (g.charloop_data filp.private_data).read_buffer -
              min m (g.charloop_buffer_length (g.charloop_data filp.private_data).read_buffer)
              = 0 := by omega
          rw [h0, List.take_zero, List.append_nil]
          congr 1
          omega
      · rw [if_neg (fun h => hb h.symm), store_other _ _ _ _ hb, List.nil_append]
        split_ifs
        · rw [store_other _ _ _ _ hb]
        · rfl
  · rw [read_step_other filp m env pc g hs]
    refine ⟨⟨hwire, hbuf⟩, ?_⟩
    intro b
    have : (Call.read filp m).taken g pc (charloop_read_step filp m env pc g).pc b = [] := by
      unfold charloop_read_step
      cases pc with
      | at_lock =>
        simp only
        split_ifs with h1 h2 h3 h4 <;>
          first
          | (exfalso; apply hs; simp_all; done)
          | simp [Call.taken, ERESTARTSYS, EAGAIN, EFAULT]
      | at_wait => simp only; split_ifs <;> simp [Call.taken]
      | at_poll_write r => simp [Call.taken]
      | done r o => simp [Call.taken]
    rw [this, List.nil_append]

/-- A step of `charloop_write` keeps the state well formed, and what is valid in
a buffer after it is what was valid before, followed by what it accepted. -/
theorem write_step_fifo (C : Nat) (filp : File) (bs : List Nat) (env : Env) (pc : Pc)
    (g : Globals) (hwf : WellFormed C g) :
    WellFormed C (charloop_write_step C filp bs env pc g).g ∧
    ∀ b, valid (charloop_write_step C filp bs env pc g).g b =
      valid g b ++
        (Call.write filp bs).accepted g pc (charloop_write_step C filp bs env pc g).pc b := by
  obtain ⟨hwire, hbuf⟩ := hwf
  by_cases hs : pc = Pc.at_lock ∧ env.lock_ok = true ∧
      g.charloop_buffer_length (g.charloop_data filp.private_data).write_buffer_length ≠ C
  · obtain ⟨rfl, hl, hn⟩ := hs
    have hwb := (hwire filp.private_data).2
    have hLC := (hbuf (g.charloop_data filp.private_data).write_buffer).1
    have hSC := (hbuf (g.charloop_data filp.private_data).write_buffer).2
    have hmin1 : min bs.length
        (C - g.charloop_buffer_length (g.charloop_data filp.private_data).write_buffer)
        ≤ bs.length := Nat.min_le_left _ _
    have hmin2 : min bs.length
        (C - g.charloop_buffer_length (g.charloop_data filp.private_data).write_buffer)
        ≤ C - g.charloop_buffer_length (g.charloop_data filp.private_data).write_buffer :=
      Nat.min_le_right _ _
    cases hc : env.copy_ok
    · obtain ⟨hpc, hlen, hst, hdata, -⟩ := write_step_fault C filp bs env g hl hn hc
      rw [← hwb] at hst
      have hk : ((env.junk).take (min bs.length
          (C - g.charloop_buffer_length
            (g.charloop_data filp.private_data).write_buffer))).length ≤
          C - g.charloop_buffer_length (g.charloop_data filp.private_data).write_buffer := by
        rw [List.length_take]
        exact le_trans (Nat.min_le_left _ _) hmin2
      refine ⟨⟨by rw [hdata]; exact hwire, ?_⟩, ?_⟩
      · intro b
        rw [hlen, hst]
        refine ⟨(hbuf b).1, ?_⟩
        by_cases hb : b = (g.charloop_data filp.private_data).write_buffer
        · subst hb
          rw [store_same, copy_in_length _ _ _ _ (by omega)]
          exact hSC
        · rw [store_other _ _ _ _ hb]; exact (hbuf b).2
      · intro b
        rw [hpc]
        unfold valid
        rw [hlen, hst]
        have : (Call.write filp bs).accepted g Pc.at_lock (Pc.done (-EFAULT) []) b = [] := by
          simp [Call.accepted, EFAULT]
        rw [this, List.append_nil]
        by_cases hb : b = (g.charloop_data filp.private_data).write_buffer
        · subst hb
          rw [store_same]
          exact copy_in_take _ _ _ _ (by omega)
        · rw [store_other _ _ _ _ hb]
    · obtain ⟨hpc, hlen, hst, hdata, -⟩ := write_step_success C filp bs env g hl hn hc
      rw [← hwb] at hpc hlen hst
      have htl : (bs.take (min bs.length
          (C - g.charloop_buffer_length
            (g.charloop_data filp.private_data).write_buffer))).length =
          min bs.length
            (C - g.charloop_buffer_length
              (g.charloop_data filp.private_data).write_buffer) := by
        rw [List.length_take]
        exact Nat.min_eq_left hmin1
      refine ⟨⟨by rw [hdata]; exact hwire, ?_⟩, ?_⟩
      · intro b
        rw [hlen, hst]
        by_cases hb : b = (g.charloop_data filp.private_data).write_buffer
        · subst hb
          rw [store_same, store_same, copy_in_length _ _ _ _ (by omega)]
          exact ⟨by omega, hSC⟩
        · rw [store_other _ _ _ _ hb, store_other _ _ _ _ hb]; exact hbuf b
      · intro b
        rw [hpc]
        unfold valid
        rw [hlen, hst]
        simp only [Call.accepted, Int.natCast_nonneg, true_and, Int.toNat_ofNat]
        by_cases hb : b = (g.charloop_data filp.private_data).write_buffer
        · subst hb
          rw [if_pos rfl, store_same, store_same]
          exact copy_in_valid _ _ _ _ (by omega) hmin1
        · rw [if_neg (fun h => hb h.symm), store_other _ _ _ _ hb, store_other _ _ _ _ hb,
            List.append_nil]
  · rw [write_step_other C filp bs env pc g hs]
    refine ⟨⟨hwire, hbuf⟩, ?_⟩
    intro b
    have : (Call.write filp bs).accepted g pc (charloop_write_step C filp bs env pc g).pc b
        = [] := by
      unfold charloop_write_step
      cases pc with
      | at_lock =>
        simp only
        split_ifs with h1 h2 h3 h4 <;>
          first
          | (exfalso; apply hs; simp_all; done)
          | simp [Call.accepted, ERESTARTSYS, EAGAIN, EFAULT]
      | at_wait => simp only; split_ifs <;> simp [Call.accepted]
      | at_poll_write r => simp [Call.accepted]
      | done r o => simp [Call.accepted]
    rw [this, List.append_nil]

/-- A step of any call keeps the state well formed and, per buffer, what it
hands out followed by what stays valid is what was valid followed by what it
accepts. -/
theorem call_step_fifo (C : Nat) (c : Call) (env : Env) (pc : Pc) (g : Globals)
    (hwf : WellFormed C g) :
    WellFormed C (c.step C env pc g).g ∧
    ∀ b, c.taken g pc (c.step C env pc g).pc b ++ valid (c.step C env pc g).g b =
      valid g b ++ c.accepted g pc (c.step C env pc g).pc b := by
  cases c with
  | read filp m =>
    obtain ⟨h1, h2⟩ := read_step_fifo C filp m env pc g hwf
    refine ⟨h1, fun b => ?_⟩
    have : (Call.read filp m).accepted g pc ((Call.read filp m).step C env pc g).pc b = [] := by
      simp [Call.accepted]
    rw [this, List.append_nil]
    exact h2 b
  | write filp bs =>
    obtain ⟨h1, h2⟩ := write_step_fifo C filp bs env pc g hwf
    refine ⟨h1, fun b => ?_⟩
    have : (Call.write filp bs).taken g pc ((Call.write filp bs).step C env pc g).pc b = [] := by
      simp [Call.taken]
    rw [this, List.nil_append]
    exact h2 b
  | poll filp =>
    have hg : ((Call.poll filp).step C env pc g).g = g := poll_step_g C filp env pc g
    rw [hg]
    refine ⟨hwf, fun b => ?_⟩
    have h1 : (Call.poll filp).taken g pc ((Call.poll filp).step C env pc g).pc b = [] := by
      simp [Call.taken]
    have h2 : (Call.poll filp).accepted g pc ((Call.poll filp).step C env pc g).pc b = [] := by
      simp [Call.accepted]
    rw [h1, h2, List.nil_append, List.append_nil]

/-- The accounting of a buffer is kept by every step of the scheduler. -/
theorem sys_step_fifo (C : Nat) (sys : Sys) (tid : Nat) (env : Env)
    (hwf : WellFormed C sys.g)
    (hacc : ∀ b, sys.taken b ++ valid sys.g b = sys.accepted b) :
    WellFormed C (sys.step C tid env).g ∧
    ∀ b, (sys.step C tid env).taken b ++ valid (sys.step C tid env).g b =
      (sys.step C tid env).accepted b := by
  unfold Sys.step
  cases sys.threads.get? tid with
  | none => exact ⟨hwf, hacc⟩
  | some t =>
    obtain ⟨h1, h2⟩ := call_step_fifo C t.call env t.pc sys.g hwf
    refine ⟨h1, fun b => ?_⟩
    simp only
    rw [List.append_assoc, h2 b, ← List.append_assoc, hacc b]

/-- The accounting of a buffer is kept by every schedule. -/
theorem sys_exec_fifo (C : Nat) (sched : List (Nat × Env)) (sys : Sys)
    (hwf : WellFormed C sys.g)
    (hacc : ∀ b, sys.taken b ++ valid sys.g b = sys.accepted b) :
    WellFormed C (sys.exec C sched).g ∧
    ∀ b, (sys.exec C sched).taken b ++ valid (sys.exec C sched).g b =
      (sys.exec C sched).accepted b := by
  induction sched generalizing sys with
  | nil => exact ⟨hwf, hacc⟩
  | cons x rest ih =>
    obtain ⟨tid, env⟩ := x
    obtain ⟨h1, h2⟩ := sys_step_fifo C sys tid env hwf hacc
    exact ih (sys.step C tid env) h1 h2

/-- C1 (FIFO): on the pair a successful `charloop_init` leaves (both buffers
empty), for any calls of `charloop_read`, `charloop_write` and `charloop_poll`
on either endpoint and any schedule of their steps (any interleaving, any
kernel answers, so any mix of successful and failed calls), for each buffer the
bytes returned by the successful reads, in the order the reads returned,
followed by the buffer's final valid prefix, are the accepted parts (the first
`ret` bytes) of the successful writes, in the order the writes returned. -/
theorem fifo (C : Nat) (ienv : InitEnv) (g0 : Globals) (calls : List Call)
    (sched : List (Nat × Env)) (b : Fin 2)
    (hinit : (charloop_init C ienv g0).1 = 0) :
    ((Sys.start (charloop_init C ienv g0).2.1 calls).exec C sched).taken b ++
      valid ((Sys.start (charloop_init C ienv g0).2.1 calls).exec C sched).g b =
    ((Sys.start (charloop_init C ienv g0).2.1 calls).exec C sched).accepted b := by
  have hlen := (init_success C ienv g0 hinit).2.2.1
  refine (sys_exec_fifo C sched (Sys.start (charloop_init C ienv g0).2.1 calls)
    (init_wellformed C ienv g0 hinit) ?_).2 b
  intro b1
  show [] ++ valid (charloop_init C ienv g0).2.1 b1 = []
  unfold valid
  rw [hlen b1, List.take_zero, List.append_nil]

/-- Witness of C1: capacity 4; a reader sleeps on the empty buffer 1, a write of
`"abcde"` is accepted up to `"abcd"`, a non-blocking write of `"xy"` fails with
`-EAGAIN`, the reader takes `"abc"` and a second reader takes `"d"`: the reads
returned `"abcd"`, the buffer is empty, the writes were accepted for `"abcd"`. -/
theorem fifo_witness :
    (charloop_init 4 init_env_ok pre_init).1 = 0 ∧
    ((Sys.start pair4 demo_calls).exec 4 demo_sched).taken 1 ++
        valid ((Sys.start pair4 demo_calls).exec 4 demo_sched).g 1 =
      ((Sys.start pair4 demo_calls).exec 4 demo_sched).accepted 1 ∧
    ((Sys.start pair4 demo_calls).exec 4 demo_sched).taken 1 = [97, 98, 99, 100] ∧
    ((Sys.start pair4 demo_calls).exec 4 demo_sched).threads.map Thread.pc =
      [Pc.done 3 [97, 98, 99], Pc.done 4 [], Pc.done (-EAGAIN) [], Pc.done 1 [100]] :=
  ⟨by decide, fifo 4 init_env_ok pre_init demo_calls demo_sched 1 (by decide),
   by decide, by decide⟩

/-- A whole `charloop_poll`, from any point and under any kernel answers, leaves
the file-scope variables as they are. -/
theorem poll_run_g (C : Nat) (filp : File) (envs : List Env) (pc : Pc) (g : Globals) :
    (run (charloop_poll_step C filp) envs pc g).g = g :=
  run_invariant (charloop_poll_step C filp) (fun g1 => g1 = g)
    (fun e pc1 g1 h => (poll_step_g C filp e pc1 g1).trans h) envs pc g rfl

/-- C11 (idempotent poll): `charloop_poll` changes no file-scope variable,
whatever its outcome (so neither buffer's bytes nor length); hence in any number
of consecutive polls on an endpoint with nothing in between, each with both lock
acquisitions succeeding, every poll returns the same value: the one the first
returns. -/
theorem poll_idempotent (C : Nat) (filp : File) (g : Globals) (ess : List (List Env))
    (hall : ∀ envs ∈ ess, ∃ e1 e2 rest, envs = e1 :: e2 :: rest ∧
      e1.lock_ok = true ∧ e2.lock_ok = true) :
    (∀ (envs : List Env) (pc : Pc), (run (charloop_poll_step C filp) envs pc g).g = g) ∧
    poll_sequence C filp ess g =
      List.replicate ess.length (charloop_poll C filp [env_ok, env_ok] g).pc := by
  refine ⟨fun envs pc => poll_run_g C filp envs pc g, ?_⟩
  induction ess with
  | nil => rfl
  | cons es ess ih =>
    obtain ⟨e1, e2, rest, rfl, h1, h2⟩ := hall _ (List.mem_cons_self _ _)
    have hg : (charloop_poll C filp (e1 :: e2 :: rest) g).g = g :=
      poll_run_g C filp _ Pc.at_lock g
    simp only [poll_sequence, hg, List.length_cons, List.replicate_succ]
    rw [ih (fun envs h => hall envs (List.mem_cons_of_mem _ h)),
      (poll_run_ok C filp e1 e2 rest g h1 h2).1,
      (poll_run_ok C filp env_ok env_ok [] g rfl rfl).1]

/-- The kernel answers used in the example of consecutive polls all start with
two successful lock acquisitions. -/
theorem demo_polls_ok :
    ∀ envs ∈ [[env_ok, env_ok], [env_ok, env_ok, env_ok], [env_ok, env_ok]],
      ∃ e1 e2 rest, envs = e1 :: e2 :: rest ∧ e1.lock_ok = true ∧ e2.lock_ok = true := by
  intro envs h
  simp only [List.mem_cons, List.mem_singleton, List.not_mem_nil, or_false] at h
  rcases h with rfl | rfl | rfl
  · exact ⟨env_ok, env_ok, [], rfl, rfl, rfl⟩
  · exact ⟨env_ok, env_ok, [env_ok], rfl, rfl, rfl⟩
  · exact ⟨env_ok, env_ok, [], rfl, rfl, rfl⟩

/-- Witness of C11: three consecutive polls on endpoint 1 of the pair whose
buffer 1 holds `"ab"` all report readable and writable. -/
theorem poll_idempotent_witness :
    (∀ envs ∈ [[env_ok, env_ok], [env_ok, env_ok, env_ok], [env_ok, env_ok]],
      ∃ e1 e2 rest, envs = e1 :: e2 :: rest ∧ e1.lock_ok = true ∧ e2.lock_ok = true) ∧
    poll_sequence 4 ⟨1, false⟩ [[env_ok, env_ok], [env_ok, env_ok, env_ok], [env_ok, env_ok]]
        pair4_ab =
      List.replicate 3 (charloop_poll 4 ⟨1, false⟩ [env_ok, env_ok] pair4_ab).pc ∧
    (charloop_poll 4 ⟨1, false⟩ [env_ok, env_ok] pair4_ab).pc =
      Pc.done ((POLLIN ||| POLLRDNORM ||| POLLOUT ||| POLLWRNORM : Nat) : Int) [] :=
  ⟨demo_polls_ok,
   (poll_idempotent 4 ⟨1, false⟩ pair4_ab
      [[env_ok, env_ok], [env_ok, env_ok, env_ok], [env_ok, env_ok]] demo_polls_ok).2,
   by decide⟩

/-- A `charloop_poll` whose two lock acquisitions succeed does not return the
unsigned conversion of `-ERESTARTSYS`. -/
theorem poll_ok_ne_interrupted (C : Nat) (filp : File) (e1 e2 : Env) (rest : List Env)
    (g : Globals) (h1 : e1.lock_ok = true) (h2 : e2.lock_ok = true) (out : List Nat) :
    (charloop_poll C filp (e1 :: e2 :: rest) g).pc ≠
      Pc.done ((to_uint (-ERESTARTSYS) : Nat) : Int) out := by
  rw [(poll_run_ok C filp e1 e2 rest g h1 h2).1]
  by_cases hr : g.charloop_buffer_length
      (g.charloop_data filp.private_data).read_buffer_length = 0 <;>
  by_cases hwr : g.charloop_buffer_length
      (g.charloop_data filp.private_data).write_buffer_length = C <;>
  simp only [hr, hwr, ne_eq, not_true_eq_false, not_false_eq_true, if_true, if_false] <;>
  intro h <;>
  exact absurd (Pc.done.inj h).1 (by decide)

/-- C12 (poll cancellation): when the first lock acquisition of `charloop_poll`
is cancelled, or the first succeeds and the second is cancelled (whatever the
incoming length was, so also when the readable bits had been computed), the
poll returns the `unsigned int` conversion of `-ERESTARTSYS` and leaves the
file-scope variables as they are; this value has none of `POLLIN`,
`POLLRDNORM`, `POLLOUT`, `POLLWRNORM` set and is returned by no poll whose two
lock acquisitions succeed. -/
theorem poll_cancelled (C : Nat) (filp : File) (g : Globals) (e1 e2 : Env) (rest : List Env) :
    (e1.lock_ok = false →
      (charloop_poll C filp (e1 :: rest) g).pc =
        Pc.done ((to_uint (-ERESTARTSYS) : Nat) : Int) [] ∧
      (charloop_poll C filp (e1 :: rest) g).g = g) ∧
    (e1.lock_ok = true → e2.lock_ok = false →
      (charloop_poll C filp (e1 :: e2 :: rest) g).pc =
        Pc.done ((to_uint (-ERESTARTSYS) : Nat) : Int) [] ∧
      (charloop_poll C filp (e1 :: e2 :: rest) g).g = g) ∧
    to_uint (-ERESTARTSYS) &&& (POLLIN ||| POLLRDNORM ||| POLLOUT ||| POLLWRNORM) = 0 ∧
    (∀ (a1 a2 : Env) (more : List Env) (g1 : Globals) (out : List Nat),
      a1.lock_ok = true → a2.lock_ok = true →
      (charloop_poll C filp (a1 :: a2 :: more) g1).pc ≠
        Pc.done ((to_uint (-ERESTARTSYS) : Nat) : Int) out) := by
  refine ⟨?_, ?_, by decide, ?_⟩
  · intro h
    have hpc : (charloop_poll_step C filp e1 Pc.at_lock g).pc =
        Pc.done ((to_uint (-ERESTARTSYS) : Nat) : Int) [] := by
      simp [charloop_poll_step, h]
    exact ⟨(run_first_done (charloop_poll_step C filp) (poll_step_done C filp) e1 rest
      Pc.at_lock g _ _ hpc).1, poll_run_g C filp _ Pc.at_lock g⟩
  · intro h1 h2
    refine ⟨?_, poll_run_g C filp _ Pc.at_lock g⟩
    have hs1 : (charloop_poll_step C filp e1 Pc.at_lock g).pc =
        Pc.at_poll_write (if g.charloop_buffer_length
          (g.charloop_data filp.private_data).read_buffer_length ≠ 0 then
            0 ||| POLLIN ||| POLLRDNORM else 0) ∧
        (charloop_poll_step C filp e1 Pc.at_lock g).g = g := by
      simp [charloop_poll_step, h1]
    have hs2 : ∀ r, (charloop_poll_step C filp e2 (Pc.at_poll_write r) g).pc =
        Pc.done ((to_uint (-ERESTARTSYS) : Nat) : Int) [] := by
      intro r
      simp [charloop_poll_step, h2]
    unfold charloop_poll
    simp only [run, hs1.1, hs1.2, hs2, run_done _ (poll_step_done C filp)]
  · intro a1 a2 more g1 out h1 h2
    exact poll_ok_ne_interrupted C filp a1 a2 more g1 h1 h2 out

/-- Witness of C12: buffer 1 holds `"ab"`; a poll on endpoint 1 (readable) whose
second lock acquisition is cancelled returns `(unsigned int)-ERESTARTSYS`,
which is 4294966784. -/
theorem poll_cancelled_witness :
    (charloop_poll 4 ⟨1, false⟩ [env_ok, ⟨false, true, true, []⟩] pair4_ab).pc =
      Pc.done ((to_uint (-ERESTARTSYS) : Nat) : Int) [] ∧
    to_uint (-ERESTARTSYS) = 4294966784 ∧
    (charloop_poll 4 ⟨1, false⟩ [⟨false, true, true, []⟩] pair4_ab).pc =
      Pc.done ((to_uint (-ERESTARTSYS) : Nat) : Int) [] :=
  ⟨((poll_cancelled 4 ⟨1, false⟩ pair4_ab env_ok ⟨false, true, true, []⟩ []).2.1 rfl rfl).1,
   by decide,
   ((poll_cancelled 4 ⟨1, false⟩ pair4_ab ⟨false, true, true, []⟩ env_ok []).1 rfl).1⟩

/-- No step of any call changes the wiring or the minors. -/
theorem call_step_data (C : Nat) (c : Call) (env : Env) (pc : Pc) (g : Globals) :
    (c.step C env pc g).g.charloop_data = g.charloop_data ∧
    (c.step C env pc g).g.charloop_minor = g.charloop_minor := by
  cases c with
  | read filp m => exact read_step_data filp m env pc g
  | write filp bs => exact write_step_data C filp bs env pc g
  | poll filp =>
    show (charloop_poll_step C filp env pc g).g.charloop_data = g.charloop_data ∧
      (charloop_poll_step C filp env pc g).g.charloop_minor = g.charloop_minor
    rw [poll_step_g]
    exact ⟨rfl, rfl⟩

/-- No schedule of any calls changes the wiring or the minors. -/
theorem sys_exec_data (C : Nat) (sched : List (Nat × Env)) (sys : Sys) :
    (sys.exec C sched).g.charloop_data = sys.g.charloop_data ∧
    (sys.exec C sched).g.charloop_minor = sys.g.charloop_minor := by
  induction sched generalizing sys with
  | nil => exact ⟨rfl, rfl⟩
  | cons x rest ih =>
    obtain ⟨tid, env⟩ := x
    have hstep : (sys.step C tid env).g.charloop_data = sys.g.charloop_data ∧
        (sys.step C tid env).g.charloop_minor = sys.g.charloop_minor := by
      unfold Sys.step
      cases sys.threads.get? tid with
      | none => exact ⟨rfl, rfl⟩
      | some t => exact call_step_data C t.call env t.pc sys.g
    obtain ⟨h1, h2⟩ := ih (sys.step C tid env)
    exact ⟨h1.trans hstep.1, h2.trans hstep.2⟩

/-- A successful `charloop_init` records the minors of the two registrations. -/
theorem init_minor (C : Nat) (ienv : InitEnv) (g0 : Globals)
    (h : (charloop_init C ienv g0).1 = 0) :
    (charloop_init C ienv g0).2.1.charloop_minor 0 = ienv.minor0 ∧
    (charloop_init C ienv g0).2.1.charloop_minor 1 = ienv.minor1 := by
  unfold charloop_init at h ⊢
  cases h0 : ienv.kmalloc0 with
  | none => rw [h0] at h; simp [ENOMEM] at h
  | some raw0 =>
    cases h1 : ienv.kmalloc1 with
    | none => rw [h0, h1] at h; simp [ENOMEM] at h
    | some raw1 =>
      rw [h0, h1] at h
      simp only at h ⊢
      by_cases r0 : ienv.register0 = 0
      · by_cases r1 : ienv.register1 = 0
        · simp only [r0, r1, ne_eq, not_true_eq_false, if_false]
          exact ⟨rfl, rfl⟩
        · simp [r0, r1] at h
      · simp [r0] at h

/-- C13 (wiring invariant): after a successful `charloop_init`, endpoint 0 reads
buffer 0 and writes buffer 1, endpoint 1 reads buffer 1 and writes buffer 0 (so
the incoming buffer of each is the outgoing buffer of the other); for each
endpoint and each direction the storage pointer, the length pointer, the mutex
and the wait queue have the same index; and after any schedule of any reads,
writes and polls the wiring is the same (`charloop_open` only selects an
endpoint and writes no file-scope variable). -/
theorem wiring_invariant (C : Nat) (ienv : InitEnv) (g0 : Globals)
    (hinit : (charloop_init C ienv g0).1 = 0) :
    (charloop_init C ienv g0).2.1.charloop_data 0 = ⟨0, 0, 0, 0, 1, 1, 1, 1⟩ ∧
    (charloop_init C ienv g0).2.1.charloop_data 1 = ⟨1, 1, 1, 1, 0, 0, 0, 0⟩ ∧
    ((charloop_init C ienv g0).2.1.charloop_data 0).read_buffer =
      ((charloop_init C ienv g0).2.1.charloop_data 1).write_buffer ∧
    ((charloop_init C ienv g0).2.1.charloop_data 0).write_buffer =
      ((charloop_init C ienv g0).2.1.charloop_data 1).read_buffer ∧
    (∀ a,
      ((charloop_init C ienv g0).2.1.charloop_data a).read_buffer_length =
        ((charloop_init C ienv g0).2.1.charloop_data a).read_buffer ∧
      ((charloop_init C ienv g0).2.1.charloop_data a).read_mutex =
        ((charloop_init C ienv g0).2.1.charloop_data a).read_buffer ∧
      ((charloop_init C ienv g0).2.1.charloop_data a).read_wq =
        ((charloop_init C ienv g0).2.1.charloop_data a).read_buffer ∧
      ((charloop_init C ienv g0).2.1.charloop_data a).write_buffer_length =
        ((charloop_init C ienv g0).2.1.charloop_data a).write_buffer ∧
      ((charloop_init C ienv g0).2.1.charloop_data a).write_mutex =
        ((charloop_init C ienv g0).2.1.charloop_data a).write_buffer ∧
      ((charloop_init C ienv g0).2.1.charloop_data a).write_wq =
        ((charloop_init C ienv g0).2.1.charloop_data a).write_buffer) ∧
    (∀ (calls : List Call) (sched : List (Nat × Env)),
      ((Sys.start (charloop_init C ienv g0).2.1 calls).exec C sched).g.charloop_data =
        (charloop_init C ienv g0).2.1.charloop_data) ∧
    (∀ (nb : Bool) (iminor : Nat),
      (charloop_open (charloop_init C ienv g0).2.1 ienv.minor0 nb).private_data = 0 ∧
      (iminor ≠ ienv.minor0 →
        (charloop_open (charloop_init C ienv g0).2.1 iminor nb).private_data = 1)) := by
  obtain ⟨hd0, hd1, -, -⟩ := init_success C ienv g0 hinit
  refine ⟨hd0, hd1, by rw [hd0, hd1], by rw [hd0, hd1], ?_, ?_, ?_⟩
  · intro a
    fin_cases a
    · simp only [Fin.zero_eta]; rw [hd0]; simp
    · simp only [Fin.mk_one]; rw [hd1]; simp
  · intro calls sched
    exact (sys_exec_data C sched (Sys.start (charloop_init C ienv g0).2.1 calls)).1
  · intro nb iminor
    obtain ⟨hm0, -⟩ := init_minor C ienv g0 hinit
    unfold charloop_open
    rw [hm0]
    constructor
    · rw [if_pos rfl]
    · intro hne
      rw [if_neg hne]

/-- Witness of C13 on the pair built with capacity 4. -/
theorem wiring_invariant_witness :
    (charloop_init 4 init_env_ok pre_init).1 = 0 ∧
    pair4.charloop_data 0 = ⟨0, 0, 0, 0, 1, 1, 1, 1⟩ ∧
    pair4.charloop_data 1 = ⟨1, 1, 1, 1, 0, 0, 0, 0⟩ ∧
    ((Sys.start pair4 demo_calls).exec 4 demo_sched).g.charloop_data = pair4.charloop_data :=
  ⟨by decide,
   (wiring_invariant 4 init_env_ok pre_init (by decide)).1,
   (wiring_invariant 4 init_env_ok pre_init (by decide)).2.1,
   (wiring_invariant 4 init_env_ok pre_init (by decide)).2.2.2.2.2.1 demo_calls demo_sched⟩

/-- The first `kmalloc` fails: `charloop_init` returns `-ENOMEM` at once. -/
theorem init_case_nomem0 (C : Nat) (ienv : InitEnv) (g0 : Globals)
    (h0 : ienv.kmalloc0 = none) :
    (charloop_init C ienv g0).1 = -ENOMEM ∧
    (charloop_init C ienv g0).2.2 = [Act.kmalloc_failed 0] := by
  unfold charloop_init
  rw [h0]
  exact ⟨rfl, rfl⟩

/-- The second `kmalloc` fails: `charloop_init` undoes the first buffer and
returns `-ENOMEM`. -/
theorem init_case_nomem1 (C : Nat) (ienv : InitEnv) (g0 : Globals) (raw0 : List Nat)
    (h0 : ienv.kmalloc0 = some raw0) (h1 : ienv.kmalloc1 = none) :
    (charloop_init C ienv g0).1 = -ENOMEM ∧
    (charloop_init C ienv g0).2.2 =
      [Act.kmalloc 0, Act.mutex_init 0, Act.init_waitqueue_head 0, Act.kmalloc_failed 1,
       Act.mutex_destroy 0, Act.kfree 0] := by
  unfold charloop_init
  rw [h0, h1]
  exact ⟨rfl, rfl⟩

/-- The first `misc_register` fails: `charloop_init` undoes both buffers and
returns the error of the registration. -/
theorem init_case_register0 (C : Nat) (ienv : InitEnv) (g0 : Globals) (raw0 raw1 : List Nat)
    (h0 : ienv.kmalloc0 = some raw0) (h1 : ienv.kmalloc1 = some raw1)
    (r0 : ienv.register0 ≠ 0) :
    (charloop_init C ienv g0).1 = ienv.register0 ∧
    (charloop_init C ienv g0).2.2 =
      [Act.kmalloc 0, Act.mutex_init 0, Act.init_waitqueue_head 0,
       Act.kmalloc 1, Act.mutex_init 1, Act.init_waitqueue_head 1,
       Act.misc_register_failed 0,
       Act.mutex_destroy 1, Act.kfree 1, Act.mutex_destroy 0, Act.kfree 0] := by
  unfold charloop_init
  rw [h0, h1]
  simp only [r0, ne_eq, not_false_eq_true, if_true]
  exact ⟨trivial, trivial⟩

/-- The second `misc_register` fails: `charloop_init` deregisters the first
endpoint, undoes both buffers and returns the error of the registration. -/
theorem init_case_register1 (C : Nat) (ienv : InitEnv) (g0 : Globals) (raw0 raw1 : List Nat)
    (h0 : ienv.kmalloc0 = some raw0) (h1 : ienv.kmalloc1 = some raw1)
    (r0 : ienv.register0 = 0) (r1 : ienv.register1 ≠ 0) :
    (charloop_init C ienv g0).1 = ienv.register1 ∧
    (charloop_init C ienv g0).2.2 =
      [Act.kmalloc 0, Act.mutex_init 0, Act.init_waitqueue_head 0,
       Act.kmalloc 1, Act.mutex_init 1, Act.init_waitqueue_head 1,
       Act.misc_register 0, Act.misc_register_failed 1, Act.misc_deregister 0,
       Act.mutex_destroy 1, Act.kfree 1, Act.mutex_destroy 0, Act.kfree 0] := by
  unfold charloop_init
  rw [h0, h1]
  simp only [r0, r1, ne_eq, not_true_eq_false, not_false_eq_true, if_false, if_true]
  exact ⟨trivial, trivial⟩

/-- All four calls succeed: `charloop_init` returns 0 and keeps everything; the
storages are the two fresh blocks. -/
theorem init_case_ok (C : Nat) (ienv : InitEnv) (g0 : Globals) (raw0 raw1 : List Nat)
    (h0 : ienv.kmalloc0 = some raw0) (h1 : ienv.kmalloc1 = some raw1)
    (r0 : ienv.register0 = 0) (r1 : ienv.register1 = 0) :
    (charloop_init C ienv g0).1 = 0 ∧
    (charloop_init C ienv g0).2.2 =
      [Act.kmalloc 0, Act.mutex_init 0, Act.init_waitqueue_head 0,
       Act.kmalloc 1, Act.mutex_init 1, Act.init_waitqueue_head 1,
       Act.misc_register 0, Act.misc_register 1, Act.set_data 0, Act.set_data 1] ∧
    (charloop_init C ienv g0).2.1.charloop_buffer 0 = kmalloc_block C raw0 ∧
    (charloop_init C ienv g0).2.1.charloop_buffer 1 = kmalloc_block C raw1 := by
  unfold charloop_init
  rw [h0, h1]
  simp only [r0, r1, ne_eq, not_true_eq_false, if_false]
  exact ⟨trivial, trivial, rfl, rfl⟩

/-- C14 (all-or-nothing construction): `charloop_init` returns 0 exactly when
both `kmalloc` calls and both `misc_register` calls succeed.  In that case both
blocks are allocated (each of the capacity, length 0), both mutexes are
initialised and both devices are registered.  In every other case it returns
the error of the first call that failed (`-ENOMEM` for a `kmalloc`, the return
value of the `misc_register` otherwise), which is not 0, and its actions leave
nothing behind: every block it allocated was freed exactly once, every mutex
it initialised was destroyed, and no device is registered (a failed second
registration deregisters the first). -/
theorem init_all_or_nothing (C : Nat) (ienv : InitEnv) (g0 : Globals) :
    ((charloop_init C ienv g0).1 = 0 ↔
      (ienv.kmalloc0 ≠ none ∧ ienv.kmalloc1 ≠ none ∧
        ienv.register0 = 0 ∧ ienv.register1 = 0)) ∧
    ((charloop_init C ienv g0).1 = 0 →
      (Resources.empty.replay (charloop_init C ienv g0).2.2).map Resources.complete =
        some true ∧
      (∀ b, (charloop_init C ienv g0).2.1.charloop_buffer_length b = 0) ∧
      (∀ b, ((charloop_init C ienv g0).2.1.charloop_buffer b).length = C)) ∧
    ((charloop_init C ienv g0).1 ≠ 0 →
      (Resources.empty.replay (charloop_init C ienv g0).2.2).map Resources.released =
        some true) ∧
    (ienv.kmalloc0 = none → (charloop_init C ienv g0).1 = -ENOMEM) ∧
    (ienv.kmalloc0 ≠ none → ienv.kmalloc1 = none → (charloop_init C ienv g0).1 = -ENOMEM) ∧
    (ienv.kmalloc0 ≠ none → ienv.kmalloc1 ≠ none → ienv.register0 ≠ 0 →
      (charloop_init C ienv g0).1 = ienv.register0) ∧
    (ienv.kmalloc0 ≠ none → ienv.kmalloc1 ≠ none → ienv.register0 = 0 →
      ienv.register1 ≠ 0 →
      (charloop_init C ienv g0).1 = ienv.register1 ∧
      (charloop_init C ienv g0).2.2 =
        [Act.kmalloc 0, Act.mutex_init 0, Act.init_waitqueue_head 0,
         Act.kmalloc 1, Act.mutex_init 1, Act.init_waitqueue_head 1,
         Act.misc_register 0, Act.misc_register_failed 1, Act.misc_deregister 0,
         Act.mutex_destroy 1, Act.kfree 1, Act.mutex_destroy 0, Act.kfree 0]) := by
  cases h0 : ienv.kmalloc0 with
  | none =>
    obtain ⟨hret, hacts⟩ := init_case_nomem0 C ienv g0 h0
    have hne : (charloop_init C ienv g0).1 ≠ 0 := by rw [hret]; decide
    refine ⟨⟨fun h => absurd h hne, fun h => absurd rfl h.1⟩, fun h => absurd h hne, ?_,
      fun _ => hret, fun h => absurd rfl h, fun h => absurd rfl h, fun h => absurd rfl h⟩
    intro _
    rw [hacts]
    decide
  | some raw0 =>
    cases h1 : ienv.kmalloc1 with
    | none =>
      obtain ⟨hret, hacts⟩ := init_case_nomem1 C ienv g0 raw0 h0 h1
      have hne : (charloop_init C ienv g0).1 ≠ 0 := by rw [hret]; decide
      refine ⟨⟨fun h => absurd h hne, fun h => absurd rfl h.2.1⟩, fun h => absurd h hne, ?_,
        fun h => Option.noConfusion h, fun _ _ => hret, fun _ h => absurd rfl h,
        fun _ h => absurd rfl h⟩
      intro _
      rw [hacts]
      decide
    | some raw1 =>
      by_cases r0 : ienv.register0 = 0
      · by_cases r1 : ienv.register1 = 0
        · obtain ⟨hret, hacts, -, -⟩ := init_case_ok C ienv g0 raw0 raw1 h0 h1 r0 r1
          obtain ⟨-, -, hlen, hS⟩ := init_success C ienv g0 hret
          refine ⟨⟨fun _ => ⟨Option.noConfusion, Option.noConfusion, r0, r1⟩, fun _ => hret⟩,
            fun _ => ⟨?_, hlen, hS⟩, fun h => absurd hret h,
            fun h => Option.noConfusion h, fun _ h => Option.noConfusion h,
            fun _ _ h => absurd r0 h, fun _ _ _ h => absurd r1 h⟩
          rw [hacts]
          decide
        · obtain ⟨hret, hacts⟩ := init_case_register1 C ienv g0 raw0 raw1 h0 h1 r0 r1
          have hne : (charloop_init C ienv g0).1 ≠ 0 := by rw [hret]; exact r1
          refine ⟨⟨fun h => absurd h hne, fun h => absurd h.2.2.2 r1⟩, fun h => absurd h hne,
            ?_, fun h => Option.noConfusion h, fun _ h => Option.noConfusion h,
            fun _ _ h => absurd r0 h, fun _ _ _ _ => ⟨hret, hacts⟩⟩
          intro _
          rw [hacts]
          decide
      · obtain ⟨hret, hacts⟩ := init_case_register0 C ienv g0 raw0 raw1 h0 h1 r0
        have hne : (charloop_init C ienv g0).1 ≠ 0 := by rw [hret]; exact r0
        refine ⟨⟨fun h => absurd h hne, fun h => absurd h.2.2.1 r0⟩, fun h => absurd h hne,
          ?_, fun h => Option.noConfusion h, fun _ h => Option.noConfusion h,
          fun _ _ _ => hret, fun _ _ h => absurd h r0⟩
        intro _
        rw [hacts]
        decide

/-- Witness of C14 (capacity 4): with all four calls succeeding `charloop_init`
returns 0 and holds everything; with the second registration failing with
`-16` it returns `-16`, has deregistered the first endpoint and holds nothing. -/
theorem init_all_or_nothing_witness :
    (charloop_init 4 init_env_ok pre_init).1 = 0 ∧
    (Resources.empty.replay (charloop_init 4 init_env_ok pre_init).2.2).map
      Resources.complete = some true ∧
    (charloop_init 4 ⟨some [], some [], 0, 58, -16, 59⟩ pre_init).1 = -16 ∧
    (Resources.empty.replay
      (charloop_init 4 ⟨some [], some [], 0, 58, -16, 59⟩ pre_init).2.2).map
      Resources.released = some true ∧
    Act.misc_deregister 0 ∈ (charloop_init 4 ⟨some [], some [], 0, 58, -16, 59⟩ pre_init).2.2 :=
  ⟨(init_all_or_nothing 4 init_env_ok pre_init).1.mpr (by decide),
   ((init_all_or_nothing 4 init_env_ok pre_init).2.1 (by decide)).1,
   ((init_all_or_nothing 4 ⟨some [], some [], 0, 58, -16, 59⟩ pre_init).2.2.2.2.2.2
      (by decide) (by decide) (by decide) (by decide)).1,
   (init_all_or_nothing 4 ⟨some [], some [], 0, 58, -16, 59⟩ pre_init).2.2.1 (by decide),
   by decide⟩

/-- A step of a `charloop_read` that has not returned yet and returns a count at
this step: the mutex was acquired, the length seen under it was not 0, and the
count is the smaller of the request and that length. -/
theorem read_step_count (filp : File) (m : Nat) (env : Env) (pc : Pc) (g : Globals)
    (ret : Int) (out : List Nat) (hpc : pc = Pc.at_lock ∨ pc = Pc.at_wait)
    (hdone : (charloop_read_step filp m env pc g).pc = Pc.done ret out) (hret : 0 ≤ ret) :
    pc = Pc.at_lock ∧ env.lock_ok = true ∧
    g.charloop_buffer_length (g.charloop_data filp.private_data).read_buffer_length ≠ 0 ∧
    ret = ((min m (g.charloop_buffer_length
      (g.charloop_data filp.private_data).read_buffer_length) : Nat) : Int) ∧
    (charloop_read_step filp m env pc g).acts.take 2 =
      [Act.mutex_lock (g.charloop_data filp.private_data).read_mutex,
       Act.access_length (g.charloop_data filp.private_data).read_buffer_length] := by
  rcases hpc with rfl | rfl
  · by_cases hl : env.lock_ok = true
    · by_cases h0 : g.charloop_buffer_length
          (g.charloop_data filp.private_data).read_buffer_length = 0
      · exfalso
        simp only [charloop_read_step, hl, h0, if_true, Bool.true_eq_false, if_false] at hdone
        split_ifs at hdone
        · have := (Pc.done.inj hdone).1
          simp only [EAGAIN] at this; omega
      · cases hc : env.copy_ok
        · exfalso
          simp only [charloop_read_step, hl, h0, hc, if_true, Bool.true_eq_false,
            if_false] at hdone
          have := (Pc.done.inj hdone).1
          simp only [EFAULT] at this; omega
        · obtain ⟨hp, -⟩ := read_step_success filp m env g hl h0 hc
          rw [hp] at hdone
          refine ⟨rfl, hl, h0, (Pc.done.inj hdone).1.symm, ?_⟩
          simp [charloop_read_step, hl, h0, hc]
    · exfalso
      have hl' : env.lock_ok = false := by simpa using hl
      simp only [charloop_read_step, hl', if_true] at hdone
      have := (Pc.done.inj hdone).1
      simp only [ERESTARTSYS] at this; omega
  · exfalso
    simp only [charloop_read_step] at hdone
    split_ifs at hdone
    · have := (Pc.done.inj hdone).1
      simp only [ERESTARTSYS] at this; omega

/-- The counts returned by the reads of a system are kept in bounds by every
step of the scheduler. -/
theorem sys_step_counts (C : Nat) (sys : Sys) (tid : Nat) (env : Env)
    (h : ∀ t ∈ sys.threads, ∀ filp m ret out, t.call = Call.read filp m →
      t.pc = Pc.done ret out → 0 ≤ ret →
      ret ≤ (m : Int) ∧ (ret = 0 → m = 0) ∧ (1 ≤ m → 1 ≤ ret)) :
    ∀ t ∈ (sys.step C tid env).threads, ∀ filp m ret out, t.call = Call.read filp m →
      t.pc = Pc.done ret out → 0 ≤ ret →
      ret ≤ (m : Int) ∧ (ret = 0 → m = 0) ∧ (1 ≤ m → 1 ≤ ret) := by
  unfold Sys.step
  cases hget : sys.threads.get? tid with
  | none => exact h
  | some t0 =>
    intro t ht filp m ret out hcall hdone hret
    simp only at ht
    rcases List.mem_or_eq_of_mem_set ht with hmem | rfl
    · exact h t hmem filp m ret out hcall hdone hret
    · simp only at hcall hdone
      rw [hcall] at hdone
      have hstep : (charloop_read_step filp m env t0.pc sys.g).pc = Pc.done ret out := hdone
      cases hpc : t0.pc with
      | at_lock =>
        rw [hpc] at hstep
        obtain ⟨-, -, h0, hr, -⟩ := read_step_count filp m env Pc.at_lock sys.g ret out
          (Or.inl rfl) hstep hret
        subst hr
        refine ⟨?_, ?_, ?_⟩ <;> omega
      | at_wait =>
        rw [hpc] at hstep
        obtain ⟨hne, -⟩ := read_step_count filp m env Pc.at_wait sys.g ret out
          (Or.inr rfl) hstep hret
        exact absurd hne (by simp)
      | at_poll_write r =>
        rw [hpc] at hstep
        simp [charloop_read_step] at hstep
      | done r o =>
        rw [hpc] at hstep
        simp only [charloop_read_step] at hstep
        exact h t0 (List.get?_mem hget) filp m ret out hcall (hpc.trans hstep) hret

/-- The counts returned by the reads of a system are in bounds after every
schedule. -/
theorem sys_exec_counts (C : Nat) (sched : List (Nat × Env)) (sys : Sys)
    (h : ∀ t ∈ sys.threads, ∀ filp m ret out, t.call = Call.read filp m →
      t.pc = Pc.done ret out → 0 ≤ ret →
      ret ≤ (m : Int) ∧ (ret = 0 → m = 0) ∧ (1 ≤ m → 1 ≤ ret)) :
    ∀ t ∈ (sys.exec C sched).threads, ∀ filp m ret out, t.call = Call.read filp m →
      t.pc = Pc.done ret out → 0 ≤ ret →
      ret ≤ (m : Int) ∧ (ret = 0 → m = 0) ∧ (1 ≤ m → 1 ≤ ret) := by
  induction sched generalizing sys with
  | nil => exact h
  | cons x rest ih =>
    obtain ⟨tid, env⟩ := x
    exact ih (sys.step C tid env) (sys_step_counts C sys tid env h)

/-- C15 (re-check under the lock): the wait of a blocked `charloop_read` may
return although the buffer is empty again (a wake-up need not find the
condition true, and other calls run between the wake-up and the re-acquisition
of the mutex).  Whatever the state a step of a read finds, a step that returns
a count starts by acquiring the mutex and reading the length under it, finds it
not 0, and returns the smaller of `max_length` and that length.  So after any
schedule of any calls started on any state, every read that has returned a
count has returned at most `max_length`, 0 only if `max_length` was 0, and at
least one byte if `max_length ≥ 1`. -/
theorem read_recheck (C : Nat) (g : Globals) (calls : List Call) (sched : List (Nat × Env)) :
    (∀ (filp : File) (m : Nat) (env : Env) (pc : Pc) (g1 : Globals) (ret : Int)
        (out : List Nat),
      pc = Pc.at_lock ∨ pc = Pc.at_wait →
      (charloop_read_step filp m env pc g1).pc = Pc.done ret out → 0 ≤ ret →
      pc = Pc.at_lock ∧ env.lock_ok = true ∧
      g1.charloop_buffer_length (g1.charloop_data filp.private_data).read_buffer_length ≠ 0 ∧
      ret = ((min m (g1.charloop_buffer_length
        (g1.charloop_data filp.private_data).read_buffer_length) : Nat) : Int) ∧
      (charloop_read_step filp m env pc g1).acts.take 2 =
        [Act.mutex_lock (g1.charloop_data filp.private_data).read_mutex,
         Act.access_length (g1.charloop_data filp.private_data).read_buffer_length]) ∧
    (∀ t ∈ ((Sys.start g calls).exec C sched).threads, ∀ filp m ret out,
      t.call = Call.read filp m → t.pc = Pc.done ret out → 0 ≤ ret →
      ret ≤ (m : Int) ∧ (ret = 0 → m = 0) ∧ (1 ≤ m → 1 ≤ ret)) := by
  refine ⟨fun filp m env pc g1 ret out hpc hdone hret =>
    read_step_count filp m env pc g1 ret out hpc hdone hret, ?_⟩
  apply sys_exec_counts
  intro t ht filp m ret out _ hdone _
  simp only [Sys.start, List.mem_map] at ht
  obtain ⟨c, -, rfl⟩ := ht
  simp at hdone

/-- Witness of C15: in the example schedule the first reader asks for 3 bytes,
finds the buffer empty, sleeps, is woken after the write and takes 3 bytes; the
second reader asks for 10 and takes the one byte left. -/
theorem read_recheck_witness :
    ((Sys.start pair4 demo_calls).exec 4 demo_sched).threads.map Thread.pc =
      [Pc.done 3 [97, 98, 99], Pc.done 4 [], Pc.done (-EAGAIN) [], Pc.done 1 [100]] ∧
    (∀ t ∈ ((Sys.start pair4 demo_calls).exec 4 demo_sched).threads, ∀ filp m ret out,
      t.call = Call.read filp m → t.pc = Pc.done ret out → 0 ≤ ret →
      ret ≤ (m : Int) ∧ (ret = 0 → m = 0) ∧ (1 ≤ m → 1 ≤ ret)) :=
  ⟨by decide, (read_recheck 4 pair4 demo_calls demo_sched).2⟩

/-- C16 (wake-up conditions): in a state with the wiring a successful
`charloop_init` sets up and lengths at most the capacity, a `charloop_write`
whose lock and copy succeed on a buffer that is not full and that appends at
least one byte leaves the length of the buffer it wrote different from 0, and a
`charloop_read` whose lock and copy succeed on a non-empty buffer and that takes
at least one byte leaves the length of the buffer it read different from the
capacity; the last two actions of each are the release of the mutex of that
buffer and then the wake-up on the wait queue of that same buffer. -/
theorem wake_up_conditions (C : Nat) (ienv : InitEnv) (g0 : Globals) (g : Globals)
    (filp : File) (bs : List Nat) (m : Nat) (env : Env) (rest : List Env)
    (hinit : (charloop_init C ienv g0).1 = 0)
    (hdata : g.charloop_data = (charloop_init C ienv g0).2.1.charloop_data)
    (hcap : ∀ b, g.charloop_buffer_length b ≤ C)
    (hlock : env.lock_ok = true) (hcopy : env.copy_ok = true) :
    (g.charloop_buffer_length (g.charloop_data filp.private_data).write_buffer ≠ C →
      bs ≠ [] →
      (∃ n : Nat, 1 ≤ n ∧ (charloop_write C filp bs (env :: rest) g).pc = Pc.done (n : Int) []) ∧
      (charloop_write C filp bs (env :: rest) g).g.charloop_buffer_length
        (g.charloop_data filp.private_data).write_buffer ≠ 0 ∧
      ∃ pre, (charloop_write C filp bs (env :: rest) g).acts =
        pre ++ [Act.mutex_unlock (g.charloop_data filp.private_data).write_buffer,
                Act.wake_up (g.charloop_data filp.private_data).write_buffer]) ∧
    (g.charloop_buffer_length (g.charloop_data filp.private_data).read_buffer ≠ 0 →
      1 ≤ m →
      (∃ n : Nat, 1 ≤ n ∧ ∃ out, (charloop_read filp m (env :: rest) g).pc = Pc.done (n : Int) out) ∧
      (charloop_read filp m (env :: rest) g).g.charloop_buffer_length
        (g.charloop_data filp.private_data).read_buffer ≠ C ∧
      ∃ pre, (charloop_read filp m (env :: rest) g).acts =
        pre ++ [Act.mutex_unlock (g.charloop_data filp.private_data).read_buffer,
                Act.wake_up (g.charloop_data filp.private_data).read_buffer]) := by
  obtain ⟨hd0, hd1, -, -⟩ := init_success C ienv g0 hinit
  rw [← hdata] at hd0 hd1
  have hw : (g.charloop_data filp.private_data).write_buffer_length =
        (g.charloop_data filp.private_data).write_buffer ∧
      (g.charloop_data filp.private_data).write_mutex =
        (g.charloop_data filp.private_data).write_buffer ∧
      (g.charloop_data filp.private_data).write_wq =
        (g.charloop_data filp.private_data).write_buffer ∧
      (g.charloop_data filp.private_data).read_buffer_length =
        (g.charloop_data filp.private_data).read_buffer ∧
      (g.charloop_data filp.private_data).read_mutex =
        (g.charloop_data filp.private_data).read_buffer ∧
      (g.charloop_data filp.private_data).read_wq =
        (g.charloop_data filp.private_data).read_buffer := by
    obtain ⟨a, nb⟩ := filp
    fin_cases a
    · simp only [Fin.zero_eta]; rw [hd0]; simp
    · simp only [Fin.mk_one]; rw [hd1]; simp
  obtain ⟨hwl, hwm, hwq, hrl, hrm, hrq⟩ := hw
  constructor
  · intro hfull hbs
    have hne : g.charloop_buffer_length
        (g.charloop_data filp.private_data).write_buffer_length ≠ C := by rw [hwl]; exact hfull
    obtain ⟨hpc, hlen, -, -, -⟩ := write_step_success C filp bs env g hlock hne hcopy
    obtain ⟨rpc, rg⟩ := run_first_done (charloop_write_step C filp bs)
      (write_step_done C filp bs) env rest Pc.at_lock g _ _ hpc
    have racts := run_first_done_acts (charloop_write_step C filp bs)
      (write_step_done C filp bs) env rest Pc.at_lock g _ _ hpc
    have hpos : 0 < bs.length := List.length_pos.mpr hbs
    have hC := hcap (g.charloop_data filp.private_data).write_buffer
    rw [hwl] at rpc hlen
    have hn : 1 ≤ min bs.length
        (C - g.charloop_buffer_length (g.charloop_data filp.private_data).write_buffer) :=
      Nat.le_min.mpr ⟨hpos, by omega⟩
    unfold charloop_write
    refine ⟨⟨_, hn, rpc⟩, ?_, ?_⟩
    · rw [rg, hlen, store_same]; omega
    · rw [racts]
      refine ⟨(charloop_write_step C filp bs env Pc.at_lock g).acts.take 4, ?_⟩
      simp [charloop_write_step, hlock, hne, hcopy, hwm, hwq]
  · intro hempty hm
    have hne : g.charloop_buffer_length
        (g.charloop_data filp.private_data).read_buffer_length ≠ 0 := by rw [hrl]; exact hempty
    obtain ⟨hpc, hlen, -, -, -⟩ := read_step_success filp m env g hlock hne hcopy
    obtain ⟨rpc, rg⟩ := run_first_done (charloop_read_step filp m)
      (read_step_done filp m) env rest Pc.at_lock g _ _ hpc
    have racts := run_first_done_acts (charloop_read_step filp m)
      (read_step_done filp m) env rest Pc.at_lock g _ _ hpc
    have hC := hcap (g.charloop_data filp.private_data).read_buffer
    rw [hrl] at rpc hlen
    have hn : 1 ≤ min m
        (g.charloop_buffer_length (g.charloop_data filp.private_data).read_buffer) :=
      Nat.le_min.mpr ⟨hm, by omega⟩
    unfold charloop_read
    refine ⟨⟨_, hn, _, rpc⟩, ?_, ?_⟩
    · rw [rg, hlen, store_same]; omega
    · rw [racts]
      refine ⟨(charloop_read_step filp m env Pc.at_lock g).acts.take 5, ?_⟩
      simp [charloop_read_step, hlock, hne, hcopy, hrm, hrq]

/-- Witness of C16: capacity 4, the buffer holds `"abcd"`; endpoint 1 reads one
byte and gets `"a"`; then the write of `"e"` on endpoint 0 succeeds with one
byte accepted and the buffer holds `"bcde"`. -/
theorem wake_up_conditions_witness :
    (charloop_init 4 init_env_ok pre_init).1 = 0 ∧
    (charloop_read ⟨1, false⟩ 1 [env_ok] pair4_abcd).pc = Pc.done 1 [97] ∧
    (charloop_read ⟨1, false⟩ 1 [env_ok] pair4_abcd).g.charloop_buffer_length 1 ≠ 4 ∧
    (∃ pre, (charloop_read ⟨1, false⟩ 1 [env_ok] pair4_abcd).acts =
      pre ++ [Act.mutex_unlock 1, Act.wake_up 1]) ∧
    (charloop_write 4 ⟨0, true⟩ [101] [env_ok]
      (charloop_read ⟨1, false⟩ 1 [env_ok] pair4_abcd).g).pc = Pc.done 1 [] ∧
    (charloop_write 4 ⟨0, true⟩ [101] [env_ok]
      (charloop_read ⟨1, false⟩ 1 [env_ok] pair4_abcd).g).g.charloop_buffer 1 =
      [98, 99, 100, 101] :=
  ⟨by decide, by decide,
   ((wake_up_conditions 4 init_env_ok pre_init pair4_abcd ⟨1, false⟩ [] 1 env_ok []
      (by decide) rfl (by decide) rfl rfl).2 (by decide) (by decide)).2.1,
   ((wake_up_conditions 4 init_env_ok pre_init pair4_abcd ⟨1, false⟩ [] 1 env_ok []
      (by decide) rfl (by decide) rfl rfl).2 (by decide) (by decide)).2.2,
   by decide, by decide⟩

/-- C17 (construction order) is broken by the code: in a `charloop_init` where
both allocations and both registrations succeed (capacity 4) the actions are,
in order, the set-up of the two buffers, `misc_register` of endpoint 0,
`misc_register` of endpoint 1, and only then the assignments to
`charloop_data[0]` and `charloop_data[1]`; so each endpoint is registered while
its `charloop_data` entry is not set yet. -/
theorem construction_order_violated :
    (charloop_init 4 init_env_ok pre_init).1 = 0 ∧
    (charloop_init 4 init_env_ok pre_init).2.2 =
      [Act.kmalloc 0, Act.mutex_init 0, Act.init_waitqueue_head 0,
       Act.kmalloc 1, Act.mutex_init 1, Act.init_waitqueue_head 1,
       Act.misc_register 0, Act.misc_register 1, Act.set_data 0, Act.set_data 1] ∧
    wired_when_exposed (fun _ => false) (charloop_init 4 init_env_ok pre_init).2.2 = false := by
  decide

theorem held_end_append (held : List (Fin 2)) (a b : List Act) :
    held_end held (a ++ b) = held_end (held_end held a) b := by
  induction a generalizing held with
  | nil => rfl
  | cons x xs ih => cases x <;> simp [held_end, ih]

theorem length_le_most_held (held : List (Fin 2)) (a : List Act) :
    held.length ≤ most_held held a := by
  induction a generalizing held with
  | nil => exact le_refl _
  | cons x xs ih => cases x <;> simp [most_held, ih]

theorem most_held_append (held : List (Fin 2)) (a b : List Act) :
    most_held held (a ++ b) = max (most_held held a) (most_held (held_end held a) b) := by
  induction a generalizing held with
  | nil =>
    simp only [List.nil_append, most_held, held_end]
    exact (max_eq_right (length_le_most_held held b)).symm
  | cons x xs ih => cases x <;> simp [most_held, held_end, ih, max_assoc]

theorem locking_ok_append (held : List (Fin 2)) (a b : List Act) :
    locking_ok held (a ++ b) = (locking_ok held a && locking_ok (held_end held a) b) := by
  induction a generalizing held with
  | nil => simp [locking_ok, held_end]
  | cons x xs ih => cases x <;> simp [locking_ok, held_end, ih, Bool.and_assoc]

/-- The mutex actions of one step of `charloop_read`: the step ends with no
mutex held, never holds more than one, acquires only `read_mutex`, and
releases as often as it acquires. -/
theorem read_step_locks (filp : File) (m : Nat) (env : Env) (pc : Pc) (g : Globals) :
    held_end [] (charloop_read_step filp m env pc g).acts = [] ∧
    most_held [] (charloop_read_step filp m env pc g).acts ≤ 1 ∧
    (∀ x, Act.mutex_lock x ∈ (charloop_read_step filp m env pc g).acts →
      x = (g.charloop_data filp.private_data).read_mutex) ∧
    (∀ x, (charloop_read_step filp m env pc g).acts.count (Act.mutex_lock x) =
      (charloop_read_step filp m env pc g).acts.count (Act.mutex_unlock x)) := by
  unfold charloop_read_step
  cases pc with
  | at_lock =>
    simp only
    split_ifs <;>
      (refine ⟨?_, ?_, ?_, ?_⟩ <;> simp [held_end, most_held, List.count_cons])
  | at_wait =>
    simp only
    split_ifs <;>
      (refine ⟨?_, ?_, ?_, ?_⟩ <;> simp [held_end, most_held, List.count_cons])
  | at_poll_write r => simp [held_end, most_held]
  | done r o => simp [held_end, most_held]

/-- The mutex actions of one step of `charloop_write`. -/
theorem write_step_locks (C : Nat) (filp : File) (bs : List Nat) (env : Env) (pc : Pc)
    (g : Globals) :
    held_end [] (charloop_write_step C filp bs env pc g).acts = [] ∧
    most_held [] (charloop_write_step C filp bs env pc g).acts ≤ 1 ∧
    (∀ x, Act.mutex_lock x ∈ (charloop_write_step C filp bs env pc g).acts →
      x = (g.charloop_data filp.private_data).write_mutex) ∧
    (∀ x, (charloop_write_step C filp bs env pc g).acts.count (Act.mutex_lock x) =
      (charloop_write_step C filp bs env pc g).acts.count (Act.mutex_unlock x)) := by
  unfold charloop_write_step
  cases pc with
  | at_lock =>
    simp only
    split_ifs <;>
      (refine ⟨?_, ?_, ?_, ?_⟩ <;> simp [held_end, most_held, List.count_cons])
  | at_wait =>
    simp only
    split_ifs <;>
      (refine ⟨?_, ?_, ?_, ?_⟩ <;> simp [held_end, most_held, List.count_cons])
  | at_poll_write r => simp [held_end, most_held]
  | done r o => simp [held_end, most_held]

/-- The mutex actions of one step of `charloop_poll`: the first step acquires
and releases `read_mutex`, the second `write_mutex`. -/
theorem poll_step_locks (C : Nat) (filp : File) (env : Env) (pc : Pc) (g : Globals) :
    held_end [] (charloop_poll_step C filp env pc g).acts = [] ∧
    most_held [] (charloop_poll_step C filp env pc g).acts ≤ 1 ∧
    (∀ x, Act.mutex_lock x ∈ (charloop_poll_step C filp env pc g).acts →
      x = (g.charloop_data filp.private_data).read_mutex ∨
      x = (g.charloop_data filp.private_data).write_mutex) ∧
    (∀ x, (charloop_poll_step C filp env pc g).acts.count (Act.mutex_lock x) =
      (charloop_poll_step C filp env pc g).acts.count (Act.mutex_unlock x)) := by
  unfold charloop_poll_step
  cases pc with
  | at_lock =>
    simp only
    split_ifs <;>
      (refine ⟨?_, ?_, ?_, ?_⟩ <;> simp [held_end, most_held, List.count_cons])
  | at_poll_write r =>
    simp only
    split_ifs <;>
      (refine ⟨?_, ?_, ?_, ?_⟩ <;> simp [held_end, most_held, List.count_cons])
  | at_wait => simp [held_end, most_held]
  | done r o => simp [held_end, most_held]

/-- Steps that each end with no mutex held, never hold more than one and release
as often as they acquire make runs that do so. -/
theorem run_locks (step : Env → Pc → Globals → Step)
    (hstep : ∀ e pc g, held_end [] (step e pc g).acts = [] ∧
      most_held [] (step e pc g).acts ≤ 1 ∧
      (∀ x, (step e pc g).acts.count (Act.mutex_lock x) =
        (step e pc g).acts.count (Act.mutex_unlock x)))
    (envs : List Env) (pc : Pc) (g : Globals) :
    held_end [] (run step envs pc g).acts = [] ∧
    most_held [] (run step envs pc g).acts ≤ 1 ∧
    (∀ x, (run step envs pc g).acts.count (Act.mutex_lock x) =
      (run step envs pc g).acts.count (Act.mutex_unlock x)) := by
  induction envs generalizing pc g with
  | nil => simp [run, held_end, most_held]
  | cons e es ih =>
    obtain ⟨h1, h2, h3⟩ := hstep e pc g
    obtain ⟨i1, i2, i3⟩ := ih (step e pc g).pc (step e pc g).g
    simp only [run]
    refine ⟨?_, ?_, ?_⟩
    · rw [held_end_append, h1, i1]
    · rw [most_held_append, h1]
      exact max_le h2 i2
    · intro x
      rw [List.count_append, List.count_append, h3 x, i3 x]

/-- The mutexes acquired along a run are among those its steps may acquire. -/
theorem run_lock_mem (step : Env → Pc → Globals → Step) (Q : (Fin 2 → charloop_struct) → Fin 2 → Prop)
    (hdata : ∀ e pc g, (step e pc g).g.charloop_data = g.charloop_data)
    (hmem : ∀ e pc g x, Act.mutex_lock x ∈ (step e pc g).acts → Q g.charloop_data x)
    (envs : List Env) (pc : Pc) (g : Globals) (x : Fin 2)
    (h : Act.mutex_lock x ∈ (run step envs pc g).acts) : Q g.charloop_data x := by
  induction envs generalizing pc g with
  | nil => simp [run] at h
  | cons e es ih =>
    simp only [run, List.mem_append] at h
    rcases h with h | h
    · exact hmem e pc g x h
    · have := ih _ _ h
      rwa [hdata] at this

/-- C18 (at most one lock held): along every run of `charloop_read`,
`charloop_write` and `charloop_poll`, from any point of the call and under any
kernel answers, the caller never holds more than one mutex; a read acquires
only `read_mutex`, a write only `write_mutex`, a poll only these two; and a poll
whose acquisitions both succeed releases `read_mutex` before it acquires
`write_mutex`. -/
theorem one_lock_at_most (C : Nat) (filp : File) (m : Nat) (bs : List Nat) (envs : List Env)
    (pc : Pc) (g : Globals) :
    (most_held [] (run (charloop_read_step filp m) envs pc g).acts ≤ 1 ∧
      ∀ x, Act.mutex_lock x ∈ (run (charloop_read_step filp m) envs pc g).acts →
        x = (g.charloop_data filp.private_data).read_mutex) ∧
    (most_held [] (run (charloop_write_step C filp bs) envs pc g).acts ≤ 1 ∧
      ∀ x, Act.mutex_lock x ∈ (run (charloop_write_step C filp bs) envs pc g).acts →
        x = (g.charloop_data filp.private_data).write_mutex) ∧
    (most_held [] (run (charloop_poll_step C filp) envs pc g).acts ≤ 1 ∧
      ∀ x, Act.mutex_lock x ∈ (run (charloop_poll_step C filp) envs pc g).acts →
        x = (g.charloop_data filp.private_data).read_mutex ∨
        x = (g.charloop_data filp.private_data).write_mutex) ∧
    (∀ (e1 e2 : Env) (rest : List Env), e1.lock_ok = true → e2.lock_ok = true →
      (charloop_poll C filp (e1 :: e2 :: rest) g).acts =
        [Act.poll_wait (g.charloop_data filp.private_data).read_wq,
         Act.poll_wait (g.charloop_data filp.private_data).write_wq,
         Act.mutex_lock (g.charloop_data filp.private_data).read_mutex,
         Act.access_length (g.charloop_data filp.private_data).read_buffer_length,
         Act.mutex_unlock (g.charloop_data filp.private_data).read_mutex,
         Act.mutex_lock (g.charloop_data filp.private_data).write_mutex,
         Act.access_length (g.charloop_data filp.private_data).write_buffer_length,
         Act.mutex_unlock (g.charloop_data filp.private_data).write_mutex]) := by
  refine ⟨⟨?_, ?_⟩, ⟨?_, ?_⟩, ⟨?_, ?_⟩, ?_⟩
  · exact (run_locks (charloop_read_step filp m)
      (fun e pc g => ⟨(read_step_locks filp m e pc g).1, (read_step_locks filp m e pc g).2.1,
        (read_step_locks filp m e pc g).2.2.2⟩) envs pc g).2.1
  · intro x hx
    exact run_lock_mem (charloop_read_step filp m)
      (fun d x => x = (d filp.private_data).read_mutex)
      (fun e pc g => (read_step_data filp m e pc g).1)
      (fun e pc g x h => (read_step_locks filp m e pc g).2.2.1 x h) envs pc g x hx
  · exact (run_locks (charloop_write_step C filp bs)
      (fun e pc g => ⟨(write_step_locks C filp bs e pc g).1,
        (write_step_locks C filp bs e pc g).2.1,
        (write_step_locks C filp bs e pc g).2.2.2⟩) envs pc g).2.1
  · intro x hx
    exact run_lock_mem (charloop_write_step C filp bs)
      (fun d x => x = (d filp.private_data).write_mutex)
      (fun e pc g => (write_step_data C filp bs e pc g).1)
      (fun e pc g x h => (write_step_locks C filp bs e pc g).2.2.1 x h) envs pc g x hx
  · exact (run_locks (charloop_poll_step C filp)
      (fun e pc g => ⟨(poll_step_locks C filp e pc g).1, (poll_step_locks C filp e pc g).2.1,
        (poll_step_locks C filp e pc g).2.2.2⟩) envs pc g).2.1
  · intro x hx
    exact run_lock_mem (charloop_poll_step C filp)
      (fun d x => x = (d filp.private_data).read_mutex ∨ x = (d filp.private_data).write_mutex)
      (fun e pc g => by rw [poll_step_g])
      (fun e pc g x h => (poll_step_locks C filp e pc g).2.2.1 x h) envs pc g x hx
  · intro e1 e2 rest h1 h2
    unfold charloop_poll
    simp [run, charloop_poll_step, h1, h2, run_done _ (poll_step_done C filp)]

/-- Witness of C18: the poll on endpoint 0 of the fresh pair takes mutex 0,
releases it, then takes mutex 1 and releases it. -/
theorem one_lock_at_most_witness :
    most_held [] (run (charloop_poll_step 4 ⟨0, false⟩) [env_ok, env_ok] Pc.at_lock pair4).acts
      ≤ 1 ∧
    (charloop_poll 4 ⟨0, false⟩ [env_ok, env_ok] pair4).acts =
      [Act.poll_wait 0, Act.poll_wait 1, Act.mutex_lock 0, Act.access_length 0,
       Act.mutex_unlock 0, Act.mutex_lock 1, Act.access_length 1, Act.mutex_unlock 1] :=
  ⟨(one_lock_at_most 4 ⟨0, false⟩ 0 [] [env_ok, env_ok] Pc.at_lock pair4).2.2.1.1, by decide⟩

/-- One step of `charloop_read` keeps the locking rules when `read_mutex` has
the index of the buffer the endpoint reads. -/
theorem read_step_locking (filp : File) (m : Nat) (env : Env) (pc : Pc) (g : Globals)
    (hl : (g.charloop_data filp.private_data).read_buffer_length =
      (g.charloop_data filp.private_data).read_mutex)
    (hb : (g.charloop_data filp.private_data).read_buffer =
      (g.charloop_data filp.private_data).read_mutex) :
    locking_ok [] (charloop_read_step filp m env pc g).acts = true := by
  unfold charloop_read_step
  cases pc with
  | at_lock => simp only; split_ifs <;> simp [locking_ok, hl, hb]
  | at_wait => simp only; split_ifs <;> simp [locking_ok]
  | at_poll_write r => simp [locking_ok]
  | done r o => simp [locking_ok]

/-- One step of `charloop_write` keeps the locking rules when `write_mutex` has
the index of the buffer the endpoint writes. -/
theorem write_step_locking (C : Nat) (filp : File) (bs : List Nat) (env : Env) (pc : Pc)
    (g : Globals)
    (hl : (g.charloop_data filp.private_data).write_buffer_length =
      (g.charloop_data filp.private_data).write_mutex)
    (hb : (g.charloop_data filp.private_data).write_buffer =
      (g.charloop_data filp.private_data).write_mutex) :
    locking_ok [] (charloop_write_step C filp bs env pc g).acts = true := by
  unfold charloop_write_step
  cases pc with
  | at_lock => simp only; split_ifs <;> simp [locking_ok, hl, hb]
  | at_wait => simp only; split_ifs <;> simp [locking_ok]
  | at_poll_write r => simp [locking_ok]
  | done r o => simp [locking_ok]

/-- One step of `charloop_poll` keeps the locking rules when each mutex has the
index of the length it guards. -/
theorem poll_step_locking (C : Nat) (filp : File) (env : Env) (pc : Pc) (g : Globals)
    (hr : (g.charloop_data filp.private_data).read_buffer_length =
      (g.charloop_data filp.private_data).read_mutex)
    (hw : (g.charloop_data filp.private_data).write_buffer_length =
      (g.charloop_data filp.private_data).write_mutex) :
    locking_ok [] (charloop_poll_step C filp env pc g).acts = true := by
  unfold charloop_poll_step
  cases pc with
  | at_lock => simp only; split_ifs <;> simp [locking_ok, hr]
  | at_poll_write r => simp only; split_ifs <;> simp [locking_ok, hw]
  | at_wait => simp [locking_ok]
  | done r o => simp [locking_ok]

/-- Steps that keep the locking rules and end with no mutex held make runs that
keep the locking rules. -/
theorem run_locking (step : Env → Pc → Globals → Step) (W : (Fin 2 → charloop_struct) → Prop)
    (hdata : ∀ e pc g, (step e pc g).g.charloop_data = g.charloop_data)
    (hend : ∀ e pc g, held_end [] (step e pc g).acts = [])
    (hstep : ∀ e pc g, W g.charloop_data → locking_ok [] (step e pc g).acts = true)
    (envs : List Env) (pc : Pc) (g : Globals) (hW : W g.charloop_data) :
    locking_ok [] (run step envs pc g).acts = true := by
  induction envs generalizing pc g with
  | nil => rfl
  | cons e es ih =>
    simp only [run]
    rw [locking_ok_append, hend, hstep e pc g hW, ih _ _ (by rw [hdata]; exact hW)]
    rfl

/-- With the wiring of a successful `charloop_init`, the length pointers, the
storage pointers and the mutexes of an endpoint agree in each direction. -/
theorem wired_endpoint (C : Nat) (ienv : InitEnv) (g0 : Globals) (g : Globals) (filp : File)
    (hinit : (charloop_init C ienv g0).1 = 0)
    (hdata : g.charloop_data = (charloop_init C ienv g0).2.1.charloop_data) :
    (g.charloop_data filp.private_data).read_buffer_length =
      (g.charloop_data filp.private_data).read_mutex ∧
    (g.charloop_data filp.private_data).read_buffer =
      (g.charloop_data filp.private_data).read_mutex ∧
    (g.charloop_data filp.private_data).write_buffer_length =
      (g.charloop_data filp.private_data).write_mutex ∧
    (g.charloop_data filp.private_data).write_buffer =
      (g.charloop_data filp.private_data).write_mutex := by
  obtain ⟨hd0, hd1, -, -⟩ := init_success C ienv g0 hinit
  rw [← hdata] at hd0 hd1
  obtain ⟨a, nb⟩ := filp
  fin_cases a
  · simp only [Fin.zero_eta]; rw [hd0]; simp
  · simp only [Fin.mk_one]; rw [hd1]; simp

/-- C19 (lock balance): in a state with the wiring a successful `charloop_init`
sets up, along every run of `charloop_read`, `charloop_write` and
`charloop_poll`, from any point of the call and under any kernel answers (lock
acquired or cancelled, wait woken or cancelled, `O_NONBLOCK` set or not, copy
done or faulted, so on every return path), the locking rules are kept (no mutex
is released that is not held, and the length and the storage of a buffer are
touched only while its mutex is held), the run ends with no mutex held, and
each mutex is released exactly as often as it was acquired. -/
theorem lock_balance (C : Nat) (ienv : InitEnv) (g0 : Globals) (g : Globals) (filp : File)
    (m : Nat) (bs : List Nat) (envs : List Env) (pc : Pc)
    (hinit : (charloop_init C ienv g0).1 = 0)
    (hdata : g.charloop_data = (charloop_init C ienv g0).2.1.charloop_data) :
    (locking_ok [] (run (charloop_read_step filp m) envs pc g).acts = true ∧
      held_end [] (run (charloop_read_step filp m) envs pc g).acts = [] ∧
      ∀ x, (run (charloop_read_step filp m) envs pc g).acts.count (Act.mutex_lock x) =
        (run (charloop_read_step filp m) envs pc g).acts.count (Act.mutex_unlock x)) ∧
    (locking_ok [] (run (charloop_write_step C filp bs) envs pc g).acts = true ∧
      held_end [] (run (charloop_write_step C filp bs) envs pc g).acts = [] ∧
      ∀ x, (run (charloop_write_step C filp bs) envs pc g).acts.count (Act.mutex_lock x) =
        (run (charloop_write_step C filp bs) envs pc g).acts.count (Act.mutex_unlock x)) ∧
    (locking_ok [] (run (charloop_poll_step C filp) envs pc g).acts = true ∧
      held_end [] (run (charloop_poll_step C filp) envs pc g).acts = [] ∧
      ∀ x, (run (charloop_poll_step C filp) envs pc g).acts.count (Act.mutex_lock x) =
        (run (charloop_poll_step C filp) envs pc g).acts.count (Act.mutex_unlock x)) := by
  have hW := wired_endpoint C ienv g0 g filp hinit hdata
  have hr := run_locks (charloop_read_step filp m)
    (fun e pc g => ⟨(read_step_locks filp m e pc g).1, (read_step_locks filp m e pc g).2.1,
      (read_step_locks filp m e pc g).2.2.2⟩) envs pc g
  have hw := run_locks (charloop_write_step C filp bs)
    (fun e pc g => ⟨(write_step_locks C filp bs e pc g).1,
      (write_step_locks C filp bs e pc g).2.1,
      (write_step_locks C filp bs e pc g).2.2.2⟩) envs pc g
  have hp := run_locks (charloop_poll_step C filp)
    (fun e pc g => ⟨(poll_step_locks C filp e pc g).1, (poll_step_locks C filp e pc g).2.1,
      (poll_step_locks C filp e pc g).2.2.2⟩) envs pc g
  refine ⟨⟨?_, hr.1, hr.2.2⟩, ⟨?_, hw.1, hw.2.2⟩, ⟨?_, hp.1, hp.2.2⟩⟩
  · exact run_locking (charloop_read_step filp m)
      (fun d => (d filp.private_data).read_buffer_length = (d filp.private_data).read_mutex ∧
        (d filp.private_data).read_buffer = (d filp.private_data).read_mutex)
      (fun e pc g => (read_step_data filp m e pc g).1)
      (fun e pc g => (read_step_locks filp m e pc g).1)
      (fun e pc g h => read_step_locking filp m e pc g h.1 h.2) envs pc g ⟨hW.1, hW.2.1⟩
  · exact run_locking (charloop_write_step C filp bs)
      (fun d => (d filp.private_data).write_buffer_length = (d filp.private_data).write_mutex ∧
        (d filp.private_data).write_buffer = (d filp.private_data).write_mutex)
      (fun e pc g => (write_step_data C filp bs e pc g).1)
      (fun e pc g => (write_step_locks C filp bs e pc g).1)
      (fun e pc g h => write_step_locking C filp bs e pc g h.1 h.2) envs pc g
      ⟨hW.2.2.1, hW.2.2.2⟩
  · exact run_locking (charloop_poll_step C filp)
      (fun d => (d filp.private_data).read_buffer_length = (d filp.private_data).read_mutex ∧
        (d filp.private_data).write_buffer_length = (d filp.private_data).write_mutex)
      (fun e pc g => by rw [poll_step_g])
      (fun e pc g => (poll_step_locks C filp e pc g).1)
      (fun e pc g h => poll_step_locking C filp e pc g h.1 h.2) envs pc g ⟨hW.1, hW.2.2.1⟩

/-- Witness of C19: buffer 1 holds `"ab"`; a write on endpoint 0 whose copy
faults takes mutex 1, touches length 1 and storage 1 and releases mutex 1. -/
theorem lock_balance_witness :
    (charloop_init 4 init_env_ok pre_init).1 = 0 ∧
    (charloop_write 4 ⟨0, false⟩ [1, 2, 3] [⟨true, true, false, [5, 6, 7]⟩] pair4_ab).acts =
      [Act.mutex_lock 1, Act.access_length 1, Act.access_storage 1, Act.mutex_unlock 1] ∧
    locking_ok [] (run (charloop_write_step 4 ⟨0, false⟩ [1, 2, 3])
      [⟨true, true, false, [5, 6, 7]⟩] Pc.at_lock pair4_ab).acts = true ∧
    held_end [] (run (charloop_write_step 4 ⟨0, false⟩ [1, 2, 3])
      [⟨true, true, false, [5, 6, 7]⟩] Pc.at_lock pair4_ab).acts = [] :=
  ⟨by decide, by decide,
   (lock_balance 4 init_env_ok pre_init pair4_ab ⟨0, false⟩ 0 [1, 2, 3]
      [⟨true, true, false, [5, 6, 7]⟩] Pc.at_lock (by decide) rfl).2.1.1,
   (lock_balance 4 init_env_ok pre_init pair4_ab ⟨0, false⟩ 0 [1, 2, 3]
      [⟨true, true, false, [5, 6, 7]⟩] Pc.at_lock (by decide) rfl).2.1.2.1⟩

/-- The machine arithmetic of `charloop_read` agrees with the integers. -/
theorem read_arith_exact (size_bits C L length : Nat)
    (hbits : size_bits = 32 ∨ size_bits = 64)
    (hC : C ≤ 2 ^ 31 - 1) (hL : L ≤ C) (hlen : length < 2 ^ size_bits) :
    (read_arith size_bits length L).length = ((min length L : Nat) : Int) ∧
    (read_arith size_bits length L).new_length = ((L - min length L : Nat) : Int) ∧
    ((read_arith size_bits length L).shift = true ↔ L - min length L > 0) ∧
    (read_arith size_bits length L).ret = ((min length L : Nat) : Int) := by
  rcases hbits with rfl | rfl <;>
  · simp only [read_arith, to_unsigned, to_signed, decide_eq_true_eq]
    norm_num at hC hlen ⊢
    have h1 : (L : Int) % 4294967296 = L := by omega
    have h2 : (L : Int) % 18446744073709551616 = L := by omega
    simp only [h1, h2]
    split_ifs with h <;> (refine ⟨?_, ?_, ?_, ?_⟩ <;> omega)

/-- The machine arithmetic of `charloop_write` agrees with the integers. -/
theorem write_arith_exact (size_bits C L length : Nat)
    (hbits : size_bits = 32 ∨ size_bits = 64)
    (hC : C ≤ 2 ^ 31 - 1) (hL : L ≤ C) (hlen : length < 2 ^ size_bits) :
    ((write_arith size_bits C length L).full = true ↔ L = C) ∧
    (write_arith size_bits C length L).length = ((min length (C - L) : Nat) : Int) ∧
    (write_arith size_bits C length L).new_length = ((L + min length (C - L) : Nat) : Int) ∧
    (write_arith size_bits C length L).ret = ((min length (C - L) : Nat) : Int) := by
  rcases hbits with rfl | rfl <;>
  · simp only [write_arith, to_unsigned, to_signed, decide_eq_true_eq]
    norm_num at hC hlen ⊢
    have h1 : (L : Int) % 4294967296 = L := by omega
    have h2 : (L : Int) % 18446744073709551616 = L := by omega
    have h3 : ((C : Int) - L) % 4294967296 = (C : Int) - L := by omega
    have h4 : ((C : Int) - L) % 18446744073709551616 = (C : Int) - L := by omega
    simp only [h1, h2, h3, h4]
    split_ifs with h <;> (refine ⟨?_, ?_, ?_, ?_⟩ <;> omega)

/-- C20 (no wrap-around): for a capacity `0 < C ≤ 2^31 - 1`, a stored length
`0 ≤ L ≤ C` and any request that fits a `size_t` (of 32 or 64 bits), the
comparisons and the arithmetic of `charloop_read` and `charloop_write` on
machine integers (`length > L`, `L == C`, `C - L`, `L += n`, `L -= n`, with
their conversions between `int`, `unsigned int` and `size_t`) give the values
of the integers: the clamped request, the new length, the tests and the
returned count are those of the calls as embedded above; every returned count
is non-negative and at most the request and at most `C`, so it is none of
`-EAGAIN`, `-ERESTARTSYS`, `-EFAULT`. -/
theorem no_wrap_around (size_bits C L length : Nat)
    (hbits : size_bits = 32 ∨ size_bits = 64)
    (hC0 : 0 < C) (hC : C ≤ 2 ^ 31 - 1) (hL : L ≤ C) (hlen : length < 2 ^ size_bits) :
    ((read_arith size_bits length L).length = ((min length L : Nat) : Int) ∧
      (read_arith size_bits length L).new_length = ((L - min length L : Nat) : Int) ∧
      ((read_arith size_bits length L).shift = true ↔ L - min length L > 0) ∧
      (read_arith size_bits length L).ret = ((min length L : Nat) : Int)) ∧
    (((write_arith size_bits C length L).full = true ↔ L = C) ∧
      (write_arith size_bits C length L).length = ((min length (C - L) : Nat) : Int) ∧
      (write_arith size_bits C length L).new_length = ((L + min length (C - L) : Nat) : Int) ∧
      (write_arith size_bits C length L).ret = ((min length (C - L) : Nat) : Int)) ∧
    (0 ≤ (read_arith size_bits length L).ret ∧
      (read_arith size_bits length L).ret ≤ (length : Int) ∧
      (read_arith size_bits length L).ret ≤ (C : Int) ∧
      (read_arith size_bits length L).ret ≠ -EAGAIN ∧
      (read_arith size_bits length L).ret ≠ -ERESTARTSYS ∧
      (read_arith size_bits length L).ret ≠ -EFAULT) ∧
    (0 ≤ (write_arith size_bits C length L).ret ∧
      (write_arith size_bits C length L).ret ≤ (length : Int) ∧
      (write_arith size_bits C length L).ret ≤ (C : Int) ∧
      (write_arith size_bits C length L).ret ≠ -EAGAIN ∧
      (write_arith size_bits C length L).ret ≠ -ERESTARTSYS ∧
      (write_arith size_bits C length L).ret ≠ -EFAULT) ∧
    (∀ (filp : File) (env : Env) (g : Globals),
      g.charloop_buffer_length (g.charloop_data filp.private_data).read_buffer_length = L →
      L ≠ 0 → env.lock_ok = true → env.copy_ok = true →
      (∃ out, (charloop_read_step filp length env Pc.at_lock g).pc =
        Pc.done (read_arith size_bits length L).ret out) ∧
      (((charloop_read_step filp length env Pc.at_lock g).g.charloop_buffer_length
        (g.charloop_data filp.private_data).read_buffer_length : Nat) : Int) =
        (read_arith size_bits length L).new_length) ∧
    (∀ (filp : File) (bs : List Nat) (env : Env) (g : Globals),
      bs.length = length →
      g.charloop_buffer_length (g.charloop_data filp.private_data).write_buffer_length = L →
      (write_arith size_bits C length L).full = false →
      env.lock_ok = true → env.copy_ok = true →
      (charloop_write_step C filp bs env Pc.at_lock g).pc =
        Pc.done (write_arith size_bits C length L).ret [] ∧
      (((charloop_write_step C filp bs env Pc.at_lock g).g.charloop_buffer_length
        (g.charloop_data filp.private_data).write_buffer_length : Nat) : Int) =
        (write_arith size_bits C length L).new_length) := by
  have hr := read_arith_exact size_bits C L length hbits hC hL hlen
  have hw := write_arith_exact size_bits C L length hbits hC hL hlen
  obtain ⟨hr1, hr2, hr3, hr4⟩ := hr
  obtain ⟨hw1, hw2, hw3, hw4⟩ := hw
  refine ⟨⟨hr1, hr2, hr3, hr4⟩, ⟨hw1, hw2, hw3, hw4⟩, ?_, ?_, ?_, ?_⟩
  · rw [hr4]
    simp only [EAGAIN, ERESTARTSYS, EFAULT]
    refine ⟨?_, ?_, ?_, ?_, ?_, ?_⟩ <;> omega
  · rw [hw4]
    simp only [EAGAIN, ERESTARTSYS, EFAULT]
    refine ⟨?_, ?_, ?_, ?_, ?_, ?_⟩ <;> omega
  · intro filp env g hg hne hlock hcopy
    have hne' : g.charloop_buffer_length
        (g.charloop_data filp.private_data).read_buffer_length ≠ 0 := by rw [hg]; exact hne
    obtain ⟨hpc, hlen', -, -, -⟩ := read_step_success filp length env g hlock hne' hcopy
    rw [hg] at hpc hlen'
    refine ⟨⟨_, by rw [hpc, hr4]⟩, ?_⟩
    rw [hlen', store_same, hr2]
  · intro filp bs env g hbs hg hfull hlock hcopy
    have hne : g.charloop_buffer_length
        (g.charloop_data filp.private_data).write_buffer_length ≠ C := by
      rw [hg]
      intro h
      rw [hw1.mpr h] at hfull
      exact Bool.noConfusion hfull
    obtain ⟨hpc, hlen', -, -, -⟩ := write_step_success C filp bs env g hlock hne hcopy
    rw [hg, hbs] at hpc hlen'
    refine ⟨by rw [hpc, hw4], ?_⟩
    rw [hlen', store_same, hw3]

/-- Witness of C20: the largest capacity, a full buffer and the largest 64-bit
request: the read returns `2^31 - 1` and empties the buffer. -/
theorem no_wrap_around_witness :
    (0 : Nat) < 2147483647 ∧ (18446744073709551615 : Nat) < 2 ^ 64 ∧
    (read_arith 64 (18446744073709551615 : Nat) (2147483647 : Nat)).ret =
      ((min 18446744073709551615 2147483647 : Nat) : Int) ∧
    (read_arith 64 (18446744073709551615 : Nat) (2147483647 : Nat)).new_length =
      ((2147483647 - min 18446744073709551615 2147483647 : Nat) : Int) ∧
    ((write_arith 64 (2147483647 : Nat) (18446744073709551615 : Nat)
      (2147483647 : Nat)).full = true ↔ 2147483647 = 2147483647) :=
  ⟨by norm_num, by norm_num,
   (no_wrap_around 64 2147483647 2147483647 18446744073709551615 (Or.inr rfl)
      (by norm_num) (by norm_num) (le_refl _) (by norm_num)).1.2.2.2,
   (no_wrap_around 64 2147483647 2147483647 18446744073709551615 (Or.inr rfl)
      (by norm_num) (by norm_num) (le_refl _) (by norm_num)).1.2.1,
   (no_wrap_around 64 2147483647 2147483647 18446744073709551615 (Or.inr rfl)
      (by norm_num) (by norm_num) (le_refl _) (by norm_num)).2.1.1⟩

end Charloop
